import Mathlib

/-!
# Fintrack-Go: validation, handlers and the transaction/summary store

A shallow embedding of the Go packages `internal/validator`, `internal/http`
and `internal/db` of the Fintrack-Go backend, followed by theorems about them.

Modelling conventions.

* A Go `string` is a Lean `String` (a sequence of Unicode scalar values); the Go
  builtin `len` is the length of its UTF-8 encoding, `GoString.len`.  Strings that
  are not valid UTF-8 are outside the model.
* A Go `error` is `Option GoError`, `none` being `nil`.
* A `time.Time` is the instant it denotes, in nanoseconds since the epoch.
* A `float64` is `Float64`: NaN, the two infinities, or a dyadic number `m * 2^e`.
* Functions of libraries outside the repository (`uuid.Parse`, `time.Parse`,
  the `%.2f` verb of `fmt`) are fields of `Ext`.
-/

namespace Fintrack

/-! ## Go values -/

/-- An instant, in nanoseconds since the Unix epoch (`time.Time` up to location). -/
abbrev Time := Int

/-- The receiver is strictly later than the argument: `t.After(u)`. -/
def Time.After (t u : Time) : Bool := decide (u < t)

/-- Nanoseconds in a day of 24 hours. -/
def nanosPerDay : Int := 86400 * 1000000000

/-- The call `t.AddDate(0, 0, days)` for an instant in UTC. -/
def Time.AddDays (t : Time) (days : Int) : Time := t + days * nanosPerDay

/-- An IEEE-754 binary64 value: `fin m e` denotes `m * 2^e`. -/
inductive Float64 where
  | nan : Float64
  | inf (negative : Bool) : Float64
  | fin (m : Int) (e : Int) : Float64
deriving DecidableEq, Repr

namespace Float64

/-- The finite values of binary64: a 53-bit significand and an exponent in range. -/
def Representable : Float64 → Prop
  | fin m e => m.natAbs < 2 ^ 53 ∧ -1074 ≤ e ∧ e ≤ 971
  | _ => True

/-- Comparison `m * 2^e ≤ m2 * 2^e2` of two dyadic numbers, on integers. -/
def dyadicLe (m e m2 e2 : Int) : Bool :=
  decide (m * 2 ^ (e - min e e2).toNat ≤ m2 * 2 ^ (e2 - min e e2).toNat)

/-- The Go comparison `x <= y` on float64: false when either side is NaN. -/
def le : Float64 → Float64 → Bool
  | nan, _ => false
  | _, nan => false
  | inf true, _ => true
  | _, inf false => true
  | inf false, _ => false
  | _, inf true => false
  | fin m e, fin m2 e2 => dyadicLe m e m2 e2

/-- The Go comparison `x > y` on float64: false when either side is NaN. -/
def gt : Float64 → Float64 → Bool
  | nan, _ => false
  | _, nan => false
  | x, y => !(le x y)

/-- The constant `0`. -/
def zero : Float64 := fin 0 0

/-- The float64 nearest to the decimal literal `99999999.99`
(`0x1.7d783fff5c28fp+26`). -/
def maxAmount : Float64 := fin 6710886399328911 (-26)

/-- The number a finite value denotes. -/
def toRat : Float64 → Option ℚ
  | fin m e => some ((m : ℚ) * (2 : ℚ) ^ e)
  | _ => none

end Float64

deriving instance DecidableEq for Except

/-- Errors of the storage driver (`pgx`). -/
inductive BackendErr where
  | noRows : BackendErr
  | pg (code : String) (constraintName : String) : BackendErr
  | other (msg : String) : BackendErr
deriving DecidableEq, Repr

/-- Text of a driver error. -/
def BackendErr.Error : BackendErr → String
  | .noRows => "no rows in result set"
  | .pg code _ => "ERROR: (SQLSTATE " ++ code ++ ")"
  | .other msg => msg

/-- A Go `error` value. The five package variables of `internal/db/errors.go` are
constructors of their own: `==` on errors compares identities, and a value made
by `errors.New` or `fmt.Errorf` at a call site (`new`) is identical to none of them. -/
inductive GoError where
  | ErrUserNotFound : GoError
  | ErrDuplicateEmail : GoError
  | ErrCategoryNotFound : GoError
  | ErrDuplicateCategory : GoError
  | ErrTransactionNotFound : GoError
  | new (msg : String) : GoError
  | backend (e : BackendErr) : GoError
deriving DecidableEq, Repr

/-- The method `Error()`. -/
def GoError.Error : GoError → String
  | .ErrUserNotFound => "user not found"
  | .ErrDuplicateEmail => "email already exists"
  | .ErrCategoryNotFound => "category not found"
  | .ErrDuplicateCategory => "category name already exists for this user"
  | .ErrTransactionNotFound => "transaction not found"
  | .new msg => msg
  | .backend e => e.Error

/-- Functions of libraries outside the repository. -/
structure Ext where
  /-- Whether `uuid.Parse` of `github.com/google/uuid` returns a nil error. -/
  uuidParse : String → Bool
  /-- The verb `%.2f` of `fmt` applied to a float64. -/
  fmt2f : Float64 → String
  /-- The call `time.Parse(time.RFC3339, s)`, `none` when it returns an error. -/
  parseRFC3339 : String → Option Time

/-! ## Strings -/

namespace GoString

/-- The builtin `len`: number of bytes of the UTF-8 encoding. -/
def len (s : String) : Nat := (s.data.map Char.utf8Size).sum

/-- The predicate `unicode.IsSpace`. -/
def isSpace (c : Char) : Bool :=
  let n := c.toNat
  (9 ≤ n && n ≤ 13) || n == 32 || n == 0x85 || n == 0xA0 || n == 0x1680 ||
  (0x2000 ≤ n && n ≤ 0x200A) || n == 0x2028 || n == 0x2029 || n == 0x202F ||
  n == 0x205F || n == 0x3000

/-- Remove the trailing white space of a list of characters. -/
def trimRight (cs : List Char) : List Char := (cs.reverse.dropWhile isSpace).reverse

/-- The function `strings.TrimSpace`. -/
def TrimSpace (s : String) : String := ⟨trimRight (s.data.dropWhile isSpace)⟩

end GoString

/-! ## Regular expressions of `internal/validator` -/

/-- A character class: one character out of a list. -/
def oneOf (cs : List Char) : RegularExpression Char :=
  cs.foldr (fun c r => RegularExpression.char c + r) 0

/-- The class `[0-9a-fA-F]`. -/
def hexChars : List Char := "0123456789abcdefABCDEF".data

/-- The class `[a-zA-Z]`. -/
def alphaChars : List Char :=
  "abcdefghijklmnopqrstuvwxyzABCDEFGHIJKLMNOPQRSTUVWXYZ".data

/-- The class `[a-zA-Z0-9._%+-]`. -/
def emailLocalChars : List Char := alphaChars ++ "0123456789._%+-".data

/-- The class `[a-zA-Z0-9.-]`. -/
def emailDomainChars : List Char := alphaChars ++ "0123456789.-".data

/-- One or more repetitions, `r+`. -/
def rePlus (r : RegularExpression Char) : RegularExpression Char := r * r.star

/-- The body of `emailRegex`, between `^` and `$`:
`[a-zA-Z0-9._%+-]+@[a-zA-Z0-9.-]+\.[a-zA-Z]{2,}`. -/
def emailRegex : RegularExpression Char :=
  rePlus (oneOf emailLocalChars) * (RegularExpression.char '@' *
    (rePlus (oneOf emailDomainChars) * (RegularExpression.char '.' *
      (oneOf alphaChars ^ 2 * (oneOf alphaChars).star))))

/-- The body of `uuidRegex`, between `^` and `$`:
`[0-9a-fA-F]{8}-[0-9a-fA-F]{4}-[0-9a-fA-F]{4}-[0-9a-fA-F]{4}-[0-9a-fA-F]{12}`. -/
def uuidRegex : RegularExpression Char :=
  oneOf hexChars ^ 8 * (RegularExpression.char '-' *
    (oneOf hexChars ^ 4 * (RegularExpression.char '-' *
      (oneOf hexChars ^ 4 * (RegularExpression.char '-' *
        (oneOf hexChars ^ 4 * (RegularExpression.char '-' *
          oneOf hexChars ^ 12)))))))

/-- The method `MatchString` of a pattern anchored with `^` and `$`. -/
def MatchString (re : RegularExpression Char) (s : String) : Bool := re.rmatch s.data

/-! ## Package `validator` -/

namespace validator

/-- The function `ValidateEmail` of `validator.go`. -/
def ValidateEmail (email : String) : Option GoError :=
  if email = "" then some (.new "email is required")
  else if !MatchString emailRegex email then some (.new "invalid email format")
  else none

/-- The function `ValidateUUID` of `validator.go`. -/
def ValidateUUID (x : Ext) (id : String) : Option GoError :=
  if id = "" then some (.new "id is required")
  else if !x.uuidParse id then some (.new "invalid UUID format")
  else if !MatchString uuidRegex id then some (.new "invalid UUID format")
  else none

/-- The function `ValidateAmount` of `validator.go`. -/
def ValidateAmount (x : Ext) (amount : Float64) : Option GoError :=
  if Float64.le amount Float64.zero then
    some (.new ("amount must be greater than 0, got " ++ x.fmt2f amount))
  else if Float64.gt amount Float64.maxAmount then
    some (.new ("amount exceeds maximum value of 99999999.99, got " ++ x.fmt2f amount))
  else none

/-- The function `ValidateCategoryName` of `validator.go`. -/
def ValidateCategoryName (name : String) : Option GoError :=
  if name = "" then some (.new "category name is required")
  else
    let name := GoString.TrimSpace name
    if name = "" then some (.new "category name cannot be only whitespace")
    else if GoString.len name > 100 then
      some (.new ("category name cannot exceed 100 characters, got " ++
        toString (GoString.len name)))
    else none

/-- The function `ValidateDescription` of `validator.go`. -/
def ValidateDescription (desc : Option String) : Option GoError :=
  match desc with
  | none => none
  | some d =>
    let trimmed := GoString.TrimSpace d
    if GoString.len trimmed > 1000 then
      some (.new ("description cannot exceed 1000 characters, got " ++
        toString (GoString.len trimmed)))
    else none

/-- The function `ValidateDateRange` of `validator.go`. -/
def ValidateDateRange (fromT toT : Option Time) : Option GoError :=
  if fromT = none ∧ toT = none then none
  else
    match fromT, toT with
    | some f, some t =>
      if f.After t then some (.new "'from' date must be before or equal to 'to' date")
      else none
    | _, _ => none

end validator

/-! ## Package `models` -/

namespace models

/-- The struct `User`. -/
structure User where
  ID : String
  Email : String
  CreatedAt : Time
deriving DecidableEq, Repr

/-- The struct `Category`. -/
structure Category where
  ID : String
  UserID : String
  Name : String
  CreatedAt : Time
deriving DecidableEq, Repr

/-- The struct `Transaction`. -/
structure Transaction where
  ID : String
  UserID : String
  CategoryID : Option String
  CategoryName : Option String
  Amount : Float64
  Description : Option String
  OccurredAt : Time
  CreatedAt : Time
deriving DecidableEq, Repr

/-- The struct `CategorySummary`. -/
structure CategorySummary where
  CategoryID : Option String
  CategoryName : String
  Total : Float64
deriving DecidableEq, Repr

/-- The struct `Summary`. A slice is `none` when it is nil. -/
structure Summary where
  UserID : String
  From : Time
  To : Time
  Categories : Option (List CategorySummary)
deriving DecidableEq, Repr

end models

/-! ## Package `http`: handlers -/

namespace http

/-- A call of a method of the interface `db.Database`, with its arguments. -/
inductive DBCall where
  | Ping : DBCall
  | CreateUser (email : String) : DBCall
  | GetUserByID (id : String) : DBCall
  | GetUserByEmail (email : String) : DBCall
  | CreateCategory (userID name : String) : DBCall
  | ListCategories (userID : String) : DBCall
  | GetCategoryByID (id : String) : DBCall
  | CreateTransaction (userID : String) (categoryID : Option String) (amount : Float64)
      (description : Option String) (occurredAt : Time) : DBCall
  | ListTransactions (userID : String) (fromT toT : Option Time) : DBCall
  | GetTransactionByID (id : String) : DBCall
  | ValidateCategoryOwnership (categoryID userID : String) : DBCall
  | GetSummary (userID : String) (fromT toT : Option Time) : DBCall
deriving DecidableEq, Repr

/-- The methods of `db.Database` the handlers below call, as functions of their
arguments (the handler tests pass a mock, the server passes `*db.DB`). A slice
result is `none` when it is nil. -/
structure Database where
  CreateUser : String → Except GoError models.User
  CreateCategory : String → String → Except GoError models.Category
  ListCategories : String → Except GoError (Option (List models.Category))
  CreateTransaction : String → Option String → Float64 → Option String → Time →
    Except GoError models.Transaction
  ListTransactions : String → Option Time → Option Time →
    Except GoError (Option (List models.Transaction))
  GetSummary : String → Option Time → Option Time → Except GoError models.Summary

/-- A value of the `details` map of an error response. -/
inductive DetailValue where
  | str (s : String) : DetailValue
  | num (f : Float64) : DetailValue
deriving DecidableEq, Repr

/-- The field `Error` of the struct `ErrorResponse`. -/
structure ErrorBody where
  Code : String
  Message : String
  Details : Option (List (String × DetailValue))
deriving DecidableEq, Repr

/-- The value encoded as the body of a response. -/
inductive Body where
  | error (e : ErrorBody) : Body
  | user (u : models.User) : Body
  | category (c : models.Category) : Body
  | categories (cs : Option (List models.Category)) : Body
  | transaction (t : models.Transaction) : Body
  | transactions (ts : Option (List models.Transaction)) : Body
  | summary (s : models.Summary) : Body
deriving DecidableEq, Repr

/-- What a handler writes: the status code and the encoded value. -/
structure Response where
  status : Nat
  body : Body
deriving DecidableEq, Repr

/-- The message of an error response, `none` for a success body. -/
def Response.message (r : Response) : Option String :=
  match r.body with
  | .error e => some e.Message
  | _ => none

/-- The details of an error response. -/
def Response.details (r : Response) : Option (List (String × DetailValue)) :=
  match r.body with
  | .error e => e.Details
  | _ => none

/-- The response of a handler and the calls it made on the store, in order. -/
structure HandlerResult where
  resp : Response
  calls : List DBCall
deriving DecidableEq, Repr

def StatusOK : Nat := 200
def StatusCreated : Nat := 201
def StatusBadRequest : Nat := 400
def StatusNotFound : Nat := 404
def StatusConflict : Nat := 409
def StatusInternalServerError : Nat := 500

/-- The function `http.StatusText` on the codes the handlers use. -/
def StatusText (code : Nat) : String :=
  if code = 200 then "OK"
  else if code = 201 then "Created"
  else if code = 400 then "Bad Request"
  else if code = 404 then "Not Found"
  else if code = 409 then "Conflict"
  else if code = 500 then "Internal Server Error"
  else ""

/-- The method `respondWithError` of `handler.go`; `details` is the first
variadic argument (`none` for an explicit nil). -/
def respondWithError (code : Nat) (message : String)
    (details : Option (List (String × DetailValue))) : Response :=
  { status := code, body := .error { Code := StatusText code, Message := message, Details := details } }

/-- The method `respondWithJSON` of `handler.go`. -/
def respondWithJSON (code : Nat) (payload : Body) : Response :=
  { status := code, body := payload }

/-- The struct `CreateUserRequest`. -/
structure CreateUserRequest where
  Email : String
deriving DecidableEq, Repr

/-- The struct `CreateCategoryRequest`. -/
structure CreateCategoryRequest where
  UserID : String
  Name : String
deriving DecidableEq, Repr

/-- The struct `CreateTransactionRequest`. -/
structure CreateTransactionRequest where
  UserID : String
  CategoryID : Option String
  Amount : Float64
  Description : Option String
  OccurredAt : Option Time
deriving DecidableEq, Repr

/-- The query parameters read by the list and summary handlers; `Get` returns the
empty string for a parameter that is absent. -/
structure Query where
  user_id : String
  fromStr : String
  toStr : String
deriving DecidableEq, Repr

/-- The method `UserHandler.CreateUser`; `body` is `none` when decoding the JSON
body fails. -/
def CreateUser (db : Database) (body : Option CreateUserRequest) : HandlerResult :=
  match body with
  | none => ⟨respondWithError StatusBadRequest "Invalid request body" none, []⟩
  | some req =>
    match validator.ValidateEmail req.Email with
    | some err =>
      ⟨respondWithError StatusBadRequest err.Error
        (some [("field", .str "email"), ("value", .str req.Email)]), []⟩
    | none =>
      match db.CreateUser req.Email with
      | .error err =>
        if err = GoError.ErrDuplicateEmail then
          ⟨respondWithError StatusConflict "Email already exists" none, [.CreateUser req.Email]⟩
        else
          ⟨respondWithError StatusInternalServerError "Failed to create user" none,
            [.CreateUser req.Email]⟩
      | .ok user => ⟨respondWithJSON StatusCreated (.user user), [.CreateUser req.Email]⟩

/-- The method `CategoryHandler.CreateCategory`. -/
def CreateCategory (x : Ext) (db : Database) (body : Option CreateCategoryRequest) :
    HandlerResult :=
  match body with
  | none => ⟨respondWithError StatusBadRequest "Invalid request body" none, []⟩
  | some req =>
    match validator.ValidateUUID x req.UserID with
    | some err =>
      ⟨respondWithError StatusBadRequest err.Error
        (some [("field", .str "user_id"), ("value", .str req.UserID)]), []⟩
    | none =>
      match validator.ValidateCategoryName req.Name with
      | some err =>
        ⟨respondWithError StatusBadRequest err.Error
          (some [("field", .str "name"), ("value", .str req.Name)]), []⟩
      | none =>
        match db.CreateCategory req.UserID req.Name with
        | .error err =>
          if err = GoError.ErrUserNotFound then
            ⟨respondWithError StatusNotFound "User not found" none,
              [.CreateCategory req.UserID req.Name]⟩
          else if err = GoError.ErrDuplicateCategory then
            ⟨respondWithError StatusConflict "Category name already exists for this user" none,
              [.CreateCategory req.UserID req.Name]⟩
          else
            ⟨respondWithError StatusInternalServerError "Failed to create category" none,
              [.CreateCategory req.UserID req.Name]⟩
        | .ok category =>
          ⟨respondWithJSON StatusCreated (.category category),
            [.CreateCategory req.UserID req.Name]⟩

/-- The check of `category_id` in `TransactionHandler.CreateTransaction`: the
validator runs only when the pointer is not nil. -/
def validateCategoryID (x : Ext) (categoryID : Option String) : Option GoError :=
  match categoryID with
  | none => none
  | some cid => validator.ValidateUUID x cid

/-- The method `TransactionHandler.CreateTransaction`; `now` is the value of
`time.Now()`. -/
def CreateTransaction (x : Ext) (now : Time) (db : Database)
    (body : Option CreateTransactionRequest) : HandlerResult :=
  match body with
  | none => ⟨respondWithError StatusBadRequest "Invalid request body" none, []⟩
  | some req =>
    match validator.ValidateUUID x req.UserID with
    | some err =>
      ⟨respondWithError StatusBadRequest err.Error
        (some [("field", .str "user_id"), ("value", .str req.UserID)]), []⟩
    | none =>
      match validateCategoryID x req.CategoryID with
      | some err =>
        ⟨respondWithError StatusBadRequest err.Error
          (some [("field", .str "category_id"), ("value", .str (req.CategoryID.getD ""))]), []⟩
      | none =>
        match validator.ValidateAmount x req.Amount with
        | some err =>
          ⟨respondWithError StatusBadRequest err.Error
            (some [("field", .str "amount"), ("value", .num req.Amount)]), []⟩
        | none =>
          match validator.ValidateDescription req.Description with
          | some err =>
            ⟨respondWithError StatusBadRequest err.Error
              (some [("field", .str "description"), ("value", .str "")]), []⟩
          | none =>
            let occurredAt := match req.OccurredAt with
              | some t => t
              | none => now
            let call := DBCall.CreateTransaction req.UserID req.CategoryID req.Amount
              req.Description occurredAt
            match db.CreateTransaction req.UserID req.CategoryID req.Amount
                req.Description occurredAt with
            | .error _ =>
              ⟨respondWithError StatusInternalServerError "Failed to create transaction" none,
                [call]⟩
            | .ok transaction =>
              ⟨respondWithJSON StatusCreated (.transaction transaction), [call]⟩

/-- The parsing of one optional date parameter in the list and summary handlers:
an error message when the parameter is present and does not parse. -/
def parseBound (x : Ext) (s : String) (msg : String) : Except String (Option Time) :=
  if s ≠ "" then
    match x.parseRFC3339 s with
    | none => .error msg
    | some t => .ok (some t)
  else .ok none

/-- The common first part of `TransactionHandler.ListTransactions` and
`SummaryHandler.GetSummary`: checks of `user_id`, `from`, `to` and of the range.
It returns the error response, or the two bounds. -/
def parseWindow (x : Ext) (q : Query) : Except Response (Option Time × Option Time) :=
  if q.user_id = "" then
    .error (respondWithError StatusBadRequest "user_id query parameter is required" none)
  else
    match validator.ValidateUUID x q.user_id with
    | some err =>
      .error (respondWithError StatusBadRequest err.Error
        (some [("field", .str "user_id"), ("value", .str q.user_id)]))
    | none =>
      match parseBound x q.fromStr "Invalid 'from' date format. Use RFC3339" with
      | .error msg => .error (respondWithError StatusBadRequest msg none)
      | .ok fromT =>
        match parseBound x q.toStr "Invalid 'to' date format. Use RFC3339" with
        | .error msg => .error (respondWithError StatusBadRequest msg none)
        | .ok toT =>
          match validator.ValidateDateRange fromT toT with
          | some err => .error (respondWithError StatusBadRequest err.Error none)
          | none => .ok (fromT, toT)

/-- The method `TransactionHandler.ListTransactions`. -/
def ListTransactions (x : Ext) (db : Database) (q : Query) : HandlerResult :=
  match parseWindow x q with
  | .error resp => ⟨resp, []⟩
  | .ok (fromT, toT) =>
    match db.ListTransactions q.user_id fromT toT with
    | .error _ =>
      ⟨respondWithError StatusInternalServerError "Failed to list transactions" none,
        [.ListTransactions q.user_id fromT toT]⟩
    | .ok transactions =>
      ⟨respondWithJSON StatusOK (.transactions transactions),
        [.ListTransactions q.user_id fromT toT]⟩

/-- The method `SummaryHandler.GetSummary`. -/
def GetSummary (x : Ext) (db : Database) (q : Query) : HandlerResult :=
  match parseWindow x q with
  | .error resp => ⟨resp, []⟩
  | .ok (fromT, toT) =>
    match db.GetSummary q.user_id fromT toT with
    | .error _ =>
      ⟨respondWithError StatusInternalServerError "Failed to get summary" none,
        [.GetSummary q.user_id fromT toT]⟩
    | .ok summary =>
      ⟨respondWithJSON StatusOK (.summary summary), [.GetSummary q.user_id fromT toT]⟩

/-- The method `CategoryHandler.ListCategories`. -/
def ListCategories (x : Ext) (db : Database) (user_id : String) : HandlerResult :=
  if user_id = "" then
    ⟨respondWithError StatusBadRequest "user_id query parameter is required" none, []⟩
  else
    match validator.ValidateUUID x user_id with
    | some err =>
      ⟨respondWithError StatusBadRequest err.Error
        (some [("field", .str "user_id"), ("value", .str user_id)]), []⟩
    | none =>
      match db.ListCategories user_id with
      | .error _ =>
        ⟨respondWithError StatusInternalServerError "Failed to list categories" none,
          [.ListCategories user_id]⟩
      | .ok categories =>
        ⟨respondWithJSON StatusOK (.categories categories), [.ListCategories user_id]⟩

end http

/-! ## Package `db`: the store -/

namespace db

/-- A row of the table `users`. -/
structure UserRow where
  id : String
  email : String
  createdAt : Time
deriving DecidableEq, Repr

/-- A row of the table `categories`. -/
structure CategoryRow where
  id : String
  userID : String
  name : String
  createdAt : Time
deriving DecidableEq, Repr

/-- A row of the table `transactions`; `amount` is a decimal number, stored exactly. -/
structure TransactionRow where
  id : String
  userID : String
  categoryID : Option String
  amount : ℚ
  description : Option String
  occurredAt : Time
  createdAt : Time
deriving DecidableEq, Repr

/-- The contents of the three tables. -/
structure Store where
  users : List UserRow
  categories : List CategoryRow
  transactions : List TransactionRow
deriving DecidableEq, Repr

/-- An argument bound to a placeholder of a statement. -/
inductive Arg where
  | text (s : String) : Arg
  | timestamp (t : Time) : Arg
deriving DecidableEq, Repr

/-- A conjunct of the `WHERE` clause built by `GetSummary` and `ListTransactions`,
with the number of its placeholder. -/
inductive Cond where
  /-- The conjunct `t.user_id = $n`. -/
  | userIdEq (n : Nat) : Cond
  /-- The conjunct `t.occurred_at >= $n`. -/
  | occurredGe (n : Nat) : Cond
  /-- The conjunct `t.occurred_at <= $n`. -/
  | occurredLe (n : Nat) : Cond
deriving DecidableEq, Repr

/-- The argument bound to `$n` (placeholders count from 1). -/
def placeholder (args : List Arg) (n : Nat) : Option Arg :=
  if n = 0 then none else args.get? (n - 1)

/-- Truth of a conjunct on a transaction row, `none` when its placeholder is
unbound or bound to a value of the wrong type. -/
def Cond.holds (args : List Arg) (t : TransactionRow) : Cond → Option Bool
  | .userIdEq n =>
    match placeholder args n with
    | some (.text u) => some (decide (t.userID = u))
    | _ => none
  | .occurredGe n =>
    match placeholder args n with
    | some (.timestamp b) => some (decide (b ≤ t.occurredAt))
    | _ => none
  | .occurredLe n =>
    match placeholder args n with
    | some (.timestamp b) => some (decide (t.occurredAt ≤ b))
    | _ => none

/-- Truth of the conjunction of the conjuncts on a row. -/
def condsHold (conds : List Cond) (args : List Arg) (t : TransactionRow) : Option Bool :=
  conds.foldr (fun c acc => do
    let a ← c.holds args t
    let b ← acc
    pure (a && b)) (some true)

/-- The rows of `transactions` selected by the `WHERE` clause. -/
def selectWhere (conds : List Cond) (args : List Arg) :
    List TransactionRow → Option (List TransactionRow)
  | [] => some []
  | t :: ts => do
    let keep ← condsHold conds args t
    let rest ← selectWhere conds args ts
    pure (if keep then t :: rest else rest)

/-- The rows `t LEFT JOIN categories c ON t.category_id = c.id` yields for one
transaction: one per category with that id, or one with a null `c` when there is
none (or `category_id` is null). -/
def leftJoin (cats : List CategoryRow) (t : TransactionRow) :
    List (TransactionRow × Option CategoryRow) :=
  match t.categoryID with
  | none => [(t, none)]
  | some cid =>
    match cats.filter (fun c => c.id = cid) with
    | [] => [(t, none)]
    | c :: cs => (c :: cs).map (fun c => (t, some c))

/-- The grouping key `c.id, c.name` of a joined row. -/
def groupKey (r : TransactionRow × Option CategoryRow) : Option String × Option String :=
  (r.2.map (·.id), r.2.map (·.name))

/-- A row of the result of the summary query: `category_id`, `category_name`, `total`. -/
structure SummaryRow where
  categoryID : Option String
  categoryName : String
  total : ℚ
deriving DecidableEq, Repr

/-- The select list of the summary query on one group: `COALESCE(c.id, NULL)`,
`COALESCE(c.name, 'Uncategorized')`, `COALESCE(SUM(t.amount), 0)`. -/
def summaryRowOf (joined : List (TransactionRow × Option CategoryRow))
    (k : Option String × Option String) : SummaryRow :=
  { categoryID := k.1
    categoryName := k.2.getD "Uncategorized"
    total := ((joined.filter (fun r => groupKey r = k)).map (fun r => r.1.amount)).sum }

/-- The ordering `ORDER BY category_name`, by code points. -/
def nameLe (a b : SummaryRow) : Prop := a.categoryName ≤ b.categoryName

instance nameLeDecidable : DecidableRel nameLe := fun a b =>
  inferInstanceAs (Decidable (a.categoryName ≤ b.categoryName))

/-- The summary query on a store: filter, left join, `GROUP BY c.id, c.name`,
`ORDER BY category_name`. -/
def runSummaryQuery (s : Store) (conds : List Cond) (args : List Arg) :
    Option (List SummaryRow) :=
  match selectWhere conds args s.transactions with
  | none => none
  | some ts =>
    let joined := ts.flatMap (leftJoin s.categories)
    let keys := (joined.map groupKey).dedup
    some ((keys.map (summaryRowOf joined)).insertionSort nameLe)

/-- A statement sent to the store. -/
inductive Stmt where
  | selectOwnership (categoryID userID : String) : Stmt
  | insertTransaction (userID : String) (categoryID : Option String) (amount : Float64)
      (description : Option String) (occurredAt : Time) : Stmt
  | selectSummary (conds : List Cond) (args : List Arg) : Stmt
  | selectTransactions (conds : List Cond) (args : List Arg) : Stmt
  | insertCategory (userID name : String) : Stmt
  | selectCategories (userID : String) : Stmt
deriving DecidableEq, Repr

/-- The storage engine and driver behind `db.pool`. -/
structure Backend where
  /-- A statement that fails as a whole (lost connection, cancelled context, a
  row that cannot be decoded), with the error the driver returns. -/
  fault : Stmt → Option BackendErr
  /-- The result of scanning the selected constant `1` into the Go `bool` in
  `ValidateCategoryOwnership`, when a row is found. -/
  scanOwnership : Option BackendErr
  /-- The `INSERT INTO transactions ... RETURNING ...`: the new row and the new
  contents, or the error of the engine (the table is declared outside `src`). -/
  insertTransaction : Store → String → Option String → Float64 → Option String → Time →
    Except BackendErr (TransactionRow × Store)
  /-- The conversion of a decimal column to `float64` on `Scan`. -/
  numericToFloat : ℚ → Float64
  /-- The `INSERT INTO categories ... RETURNING ...`: the new row and the new
  contents, or the error of the engine (the table is declared outside `src`). -/
  insertCategory : Store → String → String → Except BackendErr (CategoryRow × Store)

/-- What a method of `*DB` returns, the contents of the store after it, and the
statements it sent. -/
structure Result (α : Type) where
  value : Except GoError α
  store : Store
  issued : List Stmt

/-- The error of `db.pool.QueryRow(...).Scan(&exists)` in
`ValidateCategoryOwnership`: the query `SELECT 1 FROM categories WHERE id = $1
AND user_id = $2` yields `ErrNoRows` when no row matches. -/
def ownershipQueryError (b : Backend) (s : Store) (categoryID userID : String) :
    Option BackendErr :=
  match b.fault (.selectOwnership categoryID userID) with
  | some e => some e
  | none =>
    if s.categories.any (fun c => decide (c.id = categoryID ∧ c.userID = userID)) then
      b.scanOwnership
    else some .noRows

/-- The method `DB.ValidateCategoryOwnership` of `transactions.go`. -/
def ValidateCategoryOwnership (b : Backend) (s : Store) (categoryID userID : String) :
    Result Unit :=
  { value :=
      match ownershipQueryError b s categoryID userID with
      | some e =>
        if e = .noRows then .error (.new "category does not belong to user")
        else .error (.backend e)
      | none => .ok ()
    store := s
    issued := [.selectOwnership categoryID userID] }

/-- The scan of the row returned by the insert into a `models.Transaction`. -/
def scanTransaction (b : Backend) (r : TransactionRow) : models.Transaction :=
  { ID := r.id, UserID := r.userID, CategoryID := r.categoryID, CategoryName := none,
    Amount := b.numericToFloat r.amount, Description := r.description,
    OccurredAt := r.occurredAt, CreatedAt := r.createdAt }

/-- The second half of `DB.CreateTransaction`: the insert and the translation of
its error. -/
def insertAndScan (b : Backend) (s : Store) (issued : List Stmt) (userID : String)
    (categoryID : Option String) (amount : Float64) (description : Option String)
    (occurredAt : Time) : Result models.Transaction :=
  let stmt := Stmt.insertTransaction userID categoryID amount description occurredAt
  let res : Except BackendErr (TransactionRow × Store) :=
    match b.fault stmt with
    | some e => .error e
    | none => b.insertTransaction s userID categoryID amount description occurredAt
  match res with
  | .error e =>
    match e with
    | .pg code _ =>
      if code = "23503" then ⟨.error (.new "user not found"), s, issued ++ [stmt]⟩
      else ⟨.error (.backend e), s, issued ++ [stmt]⟩
    | _ => ⟨.error (.backend e), s, issued ++ [stmt]⟩
  | .ok (row, s2) => ⟨.ok (scanTransaction b row), s2, issued ++ [stmt]⟩

/-- The method `DB.CreateTransaction` of `transactions.go`. -/
def CreateTransaction (b : Backend) (s : Store) (userID : String)
    (categoryID : Option String) (amount : Float64) (description : Option String)
    (occurredAt : Time) : Result models.Transaction :=
  match categoryID with
  | some cid =>
    let r := ValidateCategoryOwnership b s cid userID
    match r.value with
    | .error _ => ⟨.error (.new "category does not belong to user"), r.store, r.issued⟩
    | .ok _ => insertAndScan b r.store r.issued userID categoryID amount description occurredAt
  | none => insertAndScan b s [] userID categoryID amount description occurredAt

/-- The statement under construction: the conjuncts of its `WHERE` clause, the
slice `args` and the counter `argCount`. -/
structure QueryBuilder where
  conds : List Cond
  args : List Arg
  argCount : Nat
deriving DecidableEq, Repr

/-- The step `argCount++; query += ... $argCount; args = append(args, v)`. -/
def QueryBuilder.add (q : QueryBuilder) (mk : Nat → Cond) (v : Arg) : QueryBuilder :=
  { conds := q.conds ++ [mk (q.argCount + 1)], args := q.args ++ [v],
    argCount := q.argCount + 1 }

/-- The number of the placeholder a conjunct of the `WHERE` clause refers to. -/
def Cond.ref : Cond → Nat
  | .userIdEq n => n
  | .occurredGe n => n
  | .occurredLe n => n

/-- The text of a conjunct as `GetSummary` and `ListTransactions` write it: the
first one ends the raw string the query starts with, before a line break and a
tab; the number of the placeholder of the others is printed by `strconv.Itoa`. -/
def Cond.sql : Cond → String
  | .userIdEq n => "WHERE t.user_id = $" ++ toString n ++ "\n\t"
  | .occurredGe n => " AND t.occurred_at >= $" ++ toString n
  | .occurredLe n => " AND t.occurred_at <= $" ++ toString n

/-- The `WHERE` clause of the statement under construction: the texts of its
conjuncts in the order in which they were appended to `query`. -/
def QueryBuilder.whereClause (q : QueryBuilder) : String :=
  String.join (q.conds.map Cond.sql)

/-- The statement `GetSummary` builds. The conjunct on `user_id` is `$1`; each
bound that is present increments `argCount` and takes the next placeholder. -/
def summaryQuery (userID : String) (fromT toT : Option Time) : QueryBuilder :=
  let q : QueryBuilder := { conds := [.userIdEq 1], args := [.text userID], argCount := 1 }
  let q := match fromT with
    | some f => q.add .occurredGe (.timestamp f)
    | none => q
  match toT with
  | some t => q.add .occurredLe (.timestamp t)
  | none => q

/-- The call `rows.Scan(&summary.CategoryID, &summary.CategoryName, &summary.Total)`. -/
def scanSummaryRow (b : Backend) (r : SummaryRow) : models.CategorySummary :=
  { CategoryID := r.categoryID, CategoryName := r.categoryName,
    Total := b.numericToFloat r.total }

/-- The loop over `rows` in `GetSummary`: the slice starts nil and every row is
appended to it. -/
def scanSummaryRows (b : Backend) (rows : List SummaryRow) :
    Option (List models.CategorySummary) :=
  rows.foldl (fun acc r => some (acc.getD [] ++ [scanSummaryRow b r])) none

/-- The method `DB.GetSummary` of `summary.go`; `now` is the value of `time.Now()`. -/
def GetSummary (b : Backend) (now : Time) (s : Store) (userID : String)
    (fromT toT : Option Time) : Result models.Summary :=
  let q := summaryQuery userID fromT toT
  let stmt := Stmt.selectSummary q.conds q.args
  { value :=
      match b.fault stmt with
      | some e => .error (.backend e)
      | none =>
        match runSummaryQuery s q.conds q.args with
        | none => .error (.backend (.other "could not bind the parameters"))
        | some rows =>
          let categories := scanSummaryRows b rows
          let defaultFrom := Time.AddDays now (-30)
          let defaultTo := now
          let fromTime := match fromT with
            | some f => f
            | none => defaultFrom
          let toTime := match toT with
            | some t => t
            | none => defaultTo
          .ok { UserID := userID, From := fromTime, To := toTime, Categories := categories }
    store := s
    issued := [stmt] }

/-- The statement `ListTransactions` builds. The conjunct on `user_id` is `$1`;
each bound that is present increments `argCount` and takes the next placeholder. -/
def transactionsQuery (userID : String) (fromT toT : Option Time) : QueryBuilder :=
  let q : QueryBuilder := { conds := [.userIdEq 1], args := [.text userID], argCount := 1 }
  let q := match fromT with
    | some f => q.add .occurredGe (.timestamp f)
    | none => q
  match toT with
  | some t => q.add .occurredLe (.timestamp t)
  | none => q

/-- The ordering `ORDER BY t.occurred_at DESC` of the joined rows. -/
def occurredDesc (a b : TransactionRow × Option CategoryRow) : Prop :=
  b.1.occurredAt ≤ a.1.occurredAt

instance occurredDescDecidable : DecidableRel occurredDesc := fun a b =>
  inferInstanceAs (Decidable (b.1.occurredAt ≤ a.1.occurredAt))

/-- The list query on a store: filter, left join, `ORDER BY t.occurred_at DESC`. -/
def runTransactionsQuery (s : Store) (conds : List Cond) (args : List Arg) :
    Option (List (TransactionRow × Option CategoryRow)) :=
  match selectWhere conds args s.transactions with
  | none => none
  | some ts => some ((ts.flatMap (leftJoin s.categories)).insertionSort occurredDesc)

/-- The scan of a row of the list query, and `transaction.CategoryName = categoryName`. -/
def scanTransactionRow (b : Backend) (r : TransactionRow × Option CategoryRow) :
    models.Transaction :=
  { ID := r.1.id, UserID := r.1.userID, CategoryID := r.1.categoryID,
    CategoryName := r.2.map (·.name), Amount := b.numericToFloat r.1.amount,
    Description := r.1.description, OccurredAt := r.1.occurredAt, CreatedAt := r.1.createdAt }

/-- The loop over `rows` in `ListTransactions`: the slice starts nil and every
row is appended to it. -/
def scanTransactionRows (b : Backend) (rows : List (TransactionRow × Option CategoryRow)) :
    Option (List models.Transaction) :=
  rows.foldl (fun acc r => some (acc.getD [] ++ [scanTransactionRow b r])) none

/-- The method `DB.ListTransactions` of `transactions.go`. -/
def ListTransactions (b : Backend) (s : Store) (userID : String) (fromT toT : Option Time) :
    Result (Option (List models.Transaction)) :=
  let q := transactionsQuery userID fromT toT
  let stmt := Stmt.selectTransactions q.conds q.args
  { value :=
      match b.fault stmt with
      | some e => .error (.backend e)
      | none =>
        match runTransactionsQuery s q.conds q.args with
        | none => .error (.backend (.other "could not bind the parameters"))
        | some rows => .ok (scanTransactionRows b rows)
    store := s
    issued := [stmt] }

/-- The scan of a row of `categories` into a `models.Category`. -/
def scanCategory (c : CategoryRow) : models.Category :=
  { ID := c.id, UserID := c.userID, Name := c.name, CreatedAt := c.createdAt }

/-- The translation of the error of the insert in `CreateCategory`: a duplicate
key on the constraint `categories_user_id_name_key`, a foreign-key violation, or
the error itself. -/
def categoryInsertError (e : BackendErr) : GoError :=
  match e with
  | .pg code constraintName =>
    let duplicate : Option GoError :=
      if code = "23505" then
        if constraintName = "categories_user_id_name_key" then some .ErrDuplicateCategory
        else none
      else none
    match duplicate with
    | some err => err
    | none => if code = "23503" then .ErrUserNotFound else .backend e
  | _ => .backend e

/-- What `db.pool.QueryRow(ctx, query, userID, name).Scan(...)` yields in
`CreateCategory`: the error of the driver or of the engine, or the new row. -/
def insertCategoryOutcome (b : Backend) (s : Store) (userID name : String) :
    Except BackendErr (CategoryRow × Store) :=
  match b.fault (.insertCategory userID name) with
  | some e => .error e
  | none => b.insertCategory s userID name

/-- The method `DB.CreateCategory` of `categories.go`. -/
def CreateCategory (b : Backend) (s : Store) (userID name : String) :
    Result models.Category :=
  match insertCategoryOutcome b s userID name with
  | .error e => ⟨.error (categoryInsertError e), s, [.insertCategory userID name]⟩
  | .ok (row, s2) => ⟨.ok (scanCategory row), s2, [.insertCategory userID name]⟩

/-- The ordering `ORDER BY created_at DESC` of the categories. -/
def createdDesc (a b : CategoryRow) : Prop := b.createdAt ≤ a.createdAt

instance createdDescDecidable : DecidableRel createdDesc := fun a b =>
  inferInstanceAs (Decidable (b.createdAt ≤ a.createdAt))

/-- The query of `ListCategories`: `WHERE user_id = $1 ORDER BY created_at DESC`. -/
def runCategoriesQuery (s : Store) (userID : String) : List CategoryRow :=
  (s.categories.filter (fun c => decide (c.userID = userID))).insertionSort createdDesc

/-- The loop over `rows` in `ListCategories`: the slice starts nil and every row
is appended to it. -/
def scanCategories (rows : List CategoryRow) : Option (List models.Category) :=
  rows.foldl (fun acc r => some (acc.getD [] ++ [scanCategory r])) none

/-- The method `DB.ListCategories` of `categories.go`. -/
def ListCategories (b : Backend) (s : Store) (userID : String) :
    Result (Option (List models.Category)) :=
  let stmt := Stmt.selectCategories userID
  { value :=
      match b.fault stmt with
      | some e => .error (.backend e)
      | none => .ok (scanCategories (runCategoriesQuery s userID))
    store := s
    issued := [stmt] }

end db

/-! ## Notions used to state the properties -/

/-- The kind of a character of an identifier. -/
inductive UUIDSym where
  | hex : UUIDSym
  | dash : UUIDSym
  | other : UUIDSym
deriving DecidableEq, Repr

/-- A character is a hexadecimal digit, the separator `-`, or something else. -/
def classify (c : Char) : UUIDSym :=
  if c ∈ hexChars then .hex else if c = '-' then .dash else .other

/-- Groups of 8, 4, 4, 4 and 12 hexadecimal digits separated by `-`. -/
def uuidShape : List UUIDSym :=
  List.replicate 8 .hex ++ [.dash] ++ List.replicate 4 .hex ++ [.dash] ++
  List.replicate 4 .hex ++ [.dash] ++ List.replicate 4 .hex ++ [.dash] ++
  List.replicate 12 .hex

/-- A UUID in canonical dashed form: 36 characters of the shape
`xxxxxxxx-xxxx-xxxx-xxxx-xxxxxxxxxxxx`, every `x` a hexadecimal digit. -/
def canonicalUUID (id : String) : Prop := id.data.map classify = uuidShape

instance canonicalUUIDDecidable (id : String) : Decidable (canonicalUUID id) :=
  inferInstanceAs (Decidable (id.data.map classify = uuidShape))

/-- The amount is a number in the interval `(0, 99999999.99]`. -/
def inAmountRange (a : Float64) : Prop :=
  ∃ q : ℚ, a.toRat = some q ∧ 0 < q ∧ q ≤ 9999999999 / 100

/-- The checks a create handler applies to the fields of a decoded request, in
the order of the handler. -/
inductive CreateRequest where
  | user (r : http.CreateUserRequest) : CreateRequest
  | category (r : http.CreateCategoryRequest) : CreateRequest
  | transaction (r : http.CreateTransactionRequest) : CreateRequest
deriving DecidableEq, Repr

/-- The create handler of a request. -/
def CreateRequest.handle (x : Ext) (now : Time) (db : http.Database) :
    CreateRequest → http.HandlerResult
  | .user r => http.CreateUser db (some r)
  | .category r => http.CreateCategory x db (some r)
  | .transaction r => http.CreateTransaction x now db (some r)

/-- The results of the validators on the fields of a request, in the order in
which its handler calls them. -/
def CreateRequest.validations (x : Ext) : CreateRequest → List (Option GoError)
  | .user r => [validator.ValidateEmail r.Email]
  | .category r => [validator.ValidateUUID x r.UserID, validator.ValidateCategoryName r.Name]
  | .transaction r =>
    [validator.ValidateUUID x r.UserID, http.validateCategoryID x r.CategoryID,
     validator.ValidateAmount x r.Amount, validator.ValidateDescription r.Description]

/-- The first error in a list of validation results. -/
def firstError : List (Option GoError) → Option GoError
  | [] => none
  | some e :: _ => some e
  | none :: rest => firstError rest

/-- A transaction of the user inside the window: `occurred_at` not before `from`
when it is present, not after `to` when it is present. -/
def db.inWindow (userID : String) (fromT toT : Option Time) (t : db.TransactionRow) : Bool :=
  decide (t.userID = userID) &&
  (match fromT with
    | some f => decide (f ≤ t.occurredAt)
    | none => true) &&
  (match toT with
    | some u => decide (t.occurredAt ≤ u)
    | none => true)

/-- The transactions of a user that match the window. -/
def db.matching (s : db.Store) (userID : String) (fromT toT : Option Time) :
    List db.TransactionRow :=
  s.transactions.filter (db.inWindow userID fromT toT)

/-- The category with a given identifier, if the identifier is not null. -/
def db.categoryOf (cats : List db.CategoryRow) (cid : Option String) : Option db.CategoryRow :=
  match cid with
  | none => none
  | some i => (cats.filter (fun c => decide (c.id = i))).head?

/-- The grouping key of the transactions with a given `category_id`. -/
def db.keyOf (cats : List db.CategoryRow) (cid : Option String) :
    Option String × Option String :=
  (cid, (db.categoryOf cats cid).map (·.name))

/-- The joined rows of a list of transactions whose categories exist. -/
def db.joinedOf (cats : List db.CategoryRow) (l : List db.TransactionRow) :
    List (db.TransactionRow × Option db.CategoryRow) :=
  l.map (fun t => (t, db.categoryOf cats t.categoryID))

/-- The rows of the groups of a list of transactions, before they are ordered. -/
def db.groupRows (cats : List db.CategoryRow) (l : List db.TransactionRow) :
    List db.SummaryRow :=
  (((db.joinedOf cats l).map db.groupKey).dedup).map (db.summaryRowOf (db.joinedOf cats l))

/-- The integrity of the store that its keys guarantee: category identifiers are
unique, and the category of a transaction exists. -/
def db.Store.WellFormed (s : db.Store) : Prop :=
  (s.categories.map (·.id)).Nodup ∧
  ∀ t ∈ s.transactions, ∀ cid, t.categoryID = some cid → ∃ c ∈ s.categories, c.id = cid

/-- The rows of the summary a call returned; no rows when the call failed. -/
def db.summaryRows (r : db.Result models.Summary) : List models.CategorySummary :=
  match r.value with
  | .ok sm => sm.Categories.getD []
  | .error _ => []

/-- The JSON value `encoding/json` writes for a Go slice: `null` for a nil slice,
an array of its elements otherwise. -/
inductive http.JSONSlice where
  | null : http.JSONSlice
  | array (length : Nat) : http.JSONSlice
deriving DecidableEq, Repr

/-- The encoding of a slice, up to the encoding of its elements. -/
def http.encodeSlice {α : Type} : Option (List α) → http.JSONSlice
  | none => .null
  | some l => .array l.length

/-- The value under `"categories"` in the body of a response, when the body is a
summary. -/
def http.Response.categoriesJSON (r : http.Response) : Option http.JSONSlice :=
  match r.body with
  | .summary sm => some (http.encodeSlice sm.Categories)
  | _ => none

/-- A request to one of the six handlers that call the store. -/
inductive Request where
  | createUser (r : http.CreateUserRequest) : Request
  | createCategory (r : http.CreateCategoryRequest) : Request
  | createTransaction (r : http.CreateTransactionRequest) : Request
  | listCategories (user_id : String) : Request
  | listTransactions (q : http.Query) : Request
  | getSummary (q : http.Query) : Request
deriving DecidableEq, Repr

/-- The handler of a request. -/
def Request.handle (x : Ext) (now : Time) (db : http.Database) : Request → http.HandlerResult
  | .createUser r => http.CreateUser db (some r)
  | .createCategory r => http.CreateCategory x db (some r)
  | .createTransaction r => http.CreateTransaction x now db (some r)
  | .listCategories user_id => http.ListCategories x db user_id
  | .listTransactions q => http.ListTransactions x db q
  | .getSummary q => http.GetSummary x db q

/-- The message of the handler of a request for a store error it does not
classify. -/
def Request.fixedMessage : Request → String
  | .createUser _ => "Failed to create user"
  | .createCategory _ => "Failed to create category"
  | .createTransaction _ => "Failed to create transaction"
  | .listCategories _ => "Failed to list categories"
  | .listTransactions _ => "Failed to list transactions"
  | .getSummary _ => "Failed to get summary"

/-- The store errors the handler of a request classifies: the duplicate email
for create-user, the missing user and the duplicate name for create-category. -/
def Request.classifies : Request → GoError → Prop
  | .createUser _, e => e = .ErrDuplicateEmail
  | .createCategory _, e => e = .ErrUserNotFound ∨ e = .ErrDuplicateCategory
  | _, _ => False

/-- The error of a result, `none` for a success. -/
def errorOf {α : Type} : Except GoError α → Option GoError
  | .error e => some e
  | .ok _ => none

/-- The error a store returns on a call of one of the methods the handlers use. -/
def http.Database.errorOn (db : http.Database) : http.DBCall → Option GoError
  | .CreateUser email => errorOf (db.CreateUser email)
  | .CreateCategory userID name => errorOf (db.CreateCategory userID name)
  | .ListCategories userID => errorOf (db.ListCategories userID)
  | .CreateTransaction userID categoryID amount description occurredAt =>
    errorOf (db.CreateTransaction userID categoryID amount description occurredAt)
  | .ListTransactions userID fromT toT => errorOf (db.ListTransactions userID fromT toT)
  | .GetSummary userID fromT toT => errorOf (db.GetSummary userID fromT toT)
  | _ => none

/-- The transactions a call of `ListTransactions` returned; none when it failed. -/
def db.listedTransactions (r : db.Result (Option (List models.Transaction))) :
    List models.Transaction :=
  match r.value with
  | .ok ts => ts.getD []
  | .error _ => []

/-- The part of the result of `GetSummary` that does not echo the window: the
user and the rows. -/
def db.summaryCore (v : Except GoError models.Summary) :
    Except GoError (String × Option (List models.CategorySummary)) :=
  v.map (fun sm => (sm.UserID, sm.Categories))

/-- Modelled from the spec: the table `transactions`, whose declaration is not
in the repository, admits the amounts of the data model only,
`0 < amount ≤ 99,999,999.99`: the engine answers the insert of an amount at or
below zero or above the maximum with an error. -/
def db.Backend.EnforcesAmountRange (b : db.Backend) : Prop :=
  ∀ (s : db.Store) (userID : String) (categoryID : Option String) (amount : Float64)
    (description : Option String) (occurredAt : Time),
    Float64.le amount Float64.zero = true ∨ Float64.gt amount Float64.maxAmount = true →
    ∃ e, b.insertTransaction s userID categoryID amount description occurredAt = .error e

/-- The form `local@domain.tld` of an address: `local` a non-empty run of ASCII
letters, digits and `. _ % + -`, `domain` a non-empty run of ASCII letters,
digits, `.` and `-`, and `tld` at least two ASCII letters. -/
def emailForm (s : String) : Prop :=
  ∃ l d t : List Char, s.data = l ++ '@' :: (d ++ '.' :: t) ∧
    (l ≠ [] ∧ ∀ c ∈ l, c ∈ emailLocalChars) ∧
    (d ≠ [] ∧ ∀ c ∈ d, c ∈ emailDomainChars) ∧
    (2 ≤ t.length ∧ ∀ c ∈ t, c ∈ alphaChars)

/-- The space, the single and the double quote, the semicolon, the colon and the
two angle brackets. -/
def emailForbidden : List Char :=
  [' ', Char.ofNat 39, Char.ofNat 34, ';', ':', '<', '>']

/-- The exact value of a float64 that is a number, and 0 for the others. -/
def Float64.value (a : Float64) : ℚ := a.toRat.getD 0

/-- The exact sum of the values of a list of float64 numbers. -/
def Float64.exactSum (l : List Float64) : ℚ := (l.map Float64.value).sum

/-! ## Instances for evaluation -/

namespace sample

/-- The bytes of the UTF-8 encoding of a string. -/
def bytes (s : String) : List Nat :=
  s.data.flatMap (fun c => (String.utf8EncodeChar c).map UInt8.toNat)

/-- The value of a hexadecimal digit given by its byte. -/
def xvalue (b : Nat) : Option Nat :=
  if 48 ≤ b ∧ b ≤ 57 then some (b - 48)
  else if 97 ≤ b ∧ b ≤ 102 then some (b - 87)
  else if 65 ≤ b ∧ b ≤ 70 then some (b - 55)
  else none

/-- Two hexadecimal digits to a byte. -/
def xtob (x1 x2 : Nat) : Option Nat := do
  let a ← xvalue x1
  let b ← xvalue x2
  pure (a * 16 + b)

/-- The dashes at offsets 8, 13, 18, 23 and the sixteen pairs of digits. -/
def parseDashed (s : List Nat) : Bool :=
  s.getD 8 0 == 45 && s.getD 13 0 == 45 && s.getD 18 0 == 45 && s.getD 23 0 == 45 &&
  [0, 2, 4, 6, 9, 11, 14, 16, 19, 21, 24, 26, 28, 30, 32, 34].all
    (fun i => (xtob (s.getD i 0) (s.getD (i + 1) 0)).isSome)

/-- ASCII lower case of a byte. -/
def lowerByte (b : Nat) : Nat := if 65 ≤ b ∧ b ≤ 90 then b + 32 else b

/-- A model of `uuid.Parse` of `github.com/google/uuid`, by the length of the
input: the dashed form, the same after `urn:uuid:` or inside braces, and 32
digits without dashes. The result is whether the error is nil. -/
def uuidParse (id : String) : Bool :=
  let s := bytes id
  if s.length = 36 then parseDashed s
  else if s.length = 45 then
    (s.take 9).map lowerByte == bytes "urn:uuid:" && parseDashed (s.drop 9)
  else if s.length = 38 then parseDashed (s.drop 1)
  else if s.length = 32 then
    (List.range 16).all (fun i => (xtob (s.getD (2 * i) 0) (s.getD (2 * i + 1) 0)).isSome)
  else false

/-- Decimal digits of a number, at least two of them. -/
def twoDigits (n : Nat) : String := if n < 10 then "0" ++ toString n else toString n

/-- A model of the verb `%.2f`: the value rounded to hundredths, ties to even. -/
def fmt2f : Float64 → String
  | .nan => "NaN"
  | .inf false => "+Inf"
  | .inf true => "-Inf"
  | .fin m e =>
    let num : Nat := if 0 ≤ e then m.natAbs * 100 * 2 ^ e.toNat else m.natAbs * 100
    let den : Nat := if 0 ≤ e then 1 else 2 ^ (-e).toNat
    let q := num / den
    let r := num % den
    let n := if 2 * r > den then q + 1 else if 2 * r = den then q + q % 2 else q
    (if m < 0 then "-" else "") ++ toString (n / 100) ++ "." ++ twoDigits (n % 100)

/-- Two timestamps in RFC3339 form and the instants they denote. -/
def parseRFC3339 (s : String) : Option Time :=
  if s = "2024-01-01T00:00:00Z" then some 1704067200000000000
  else if s = "2024-03-01T00:00:00Z" then some 1709251200000000000
  else none

/-- The library functions used in the examples. -/
def ext : Ext := { uuidParse := uuidParse, fmt2f := fmt2f, parseRFC3339 := parseRFC3339 }

/-- A store double in the manner of `MockDBForHandler`: every method returns the
given error. -/
def mockDatabase (err : GoError) : http.Database :=
  { CreateUser := fun _ => .error err
    CreateCategory := fun _ _ => .error err
    ListCategories := fun _ => .error err
    CreateTransaction := fun _ _ _ _ _ => .error err
    ListTransactions := fun _ _ _ => .error err
    GetSummary := fun _ _ _ => .error err }

/-- Modelled from the spec: the insert into the table `transactions`, whose
declaration is not in the repository. The data model admits the amounts
`0 < amount ≤ 99,999,999.99` only: another amount violates the check of the
table (SQLSTATE 23514), and a value that is not a number is refused (SQLSTATE
22003). A `user_id` that references no user is a foreign-key violation (SQLSTATE
23503). Otherwise the row is written. -/
def insertTransaction (newID : String) (createdAt : Time) (s : db.Store) (userID : String)
    (categoryID : Option String) (amount : Float64) (description : Option String)
    (occurredAt : Time) : Except BackendErr (db.TransactionRow × db.Store) :=
  match amount.toRat with
  | none => .error (.pg "22003" "")
  | some q =>
    if Float64.le amount Float64.zero || Float64.gt amount Float64.maxAmount then
      .error (.pg "23514" "transactions_amount_check")
    else if s.users.any (fun u => decide (u.id = userID)) then
      let row : db.TransactionRow :=
        { id := newID, userID := userID, categoryID := categoryID, amount := q,
          description := description, occurredAt := occurredAt, createdAt := createdAt }
      .ok (row, { s with transactions := s.transactions ++ [row] })
    else .error (.pg "23503" "transactions_user_id_fkey")

/-- The dyadic number `m * 2^e` nearest to a positive fraction `n / d`, ties to
even, for a given exponent. -/
def roundAt (n d : Nat) (e : Int) : Nat :=
  let num := if e < 0 then n * 2 ^ (-e).toNat else n
  let den := if e < 0 then d else d * 2 ^ e.toNat
  let q := num / den
  let r := num % den
  if 2 * r > den then q + 1 else if 2 * r = den then q + q % 2 else q

/-- The float64 nearest to a decimal number (the scan of a decimal column). -/
def numericToFloat (q : ℚ) : Float64 :=
  if q = 0 then .fin 0 0
  else
    let n := q.num.natAbs
    let d := q.den
    let k : Int := (Nat.log2 n : Int) - (Nat.log2 d : Int)
    let e0 : Int := max (k - 53) (-1074)
    let e1 : Int := if roundAt n d e0 < 2 ^ 53 then e0 else e0 + 1
    let m1 := roundAt n d e1
    let m := if m1 = 2 ^ 53 then 2 ^ 52 else m1
    let e : Int := if m1 = 2 ^ 53 then e1 + 1 else e1
    if 971 < e then .inf (decide (q < 0))
    else .fin (if q < 0 then -(m : Int) else m) e

/-- The user who sends the requests of the examples. -/
def user1 : String := "550e8400-e29b-41d4-a716-446655440000"

/-- Another user. -/
def user2 : String := "650e8400-e29b-41d4-a716-446655440001"

/-- A category of the other user. -/
def category2 : String := "750e8400-e29b-41d4-a716-446655440002"

/-- A store with two users and a category owned by the second. -/
def store : db.Store :=
  { users := [⟨user1, "user1@example.com", 0⟩, ⟨user2, "user2@example.com", 0⟩]
    categories := [⟨category2, user2, "Private Category", 0⟩]
    transactions := [] }

/-- The time of the calls of the examples, 1 March 2024. -/
def now : Time := 1709251200000000000

/-- The store of the test "default date range (last 30 days)": one user, no
category, and transactions of 10, 20 and 30 made 45, 20 and 10 days ago. -/
def history : db.Store :=
  { users := [⟨user1, "default-range@example.com", 0⟩]
    categories := []
    transactions :=
      [⟨"t1", user1, none, 10, none, now - 45 * nanosPerDay, now⟩,
       ⟨"t2", user1, none, 20, none, now - 20 * nanosPerDay, now⟩,
       ⟨"t3", user1, none, 30, none, now - 10 * nanosPerDay, now⟩] }

/-- The category "Food" of the first user. -/
def food : String := "850e8400-e29b-41d4-a716-446655440003"

/-- The category "Transport" of the first user. -/
def transport : String := "950e8400-e29b-41d4-a716-446655440004"

/-- The store of the scenario of the specification: the first user has the
categories "Transport" and "Food", transactions of 30 on "Transport", of 10 and
20 on "Food" and of 15 without category; the second user has a transaction of 7. -/
def ledger : db.Store :=
  { users := [⟨user1, "user1@example.com", 0⟩, ⟨user2, "user2@example.com", 0⟩]
    categories := [⟨transport, user1, "Transport", 0⟩, ⟨food, user1, "Food", 0⟩]
    transactions :=
      [⟨"t1", user1, some transport, 30, none, now - 3 * nanosPerDay, now⟩,
       ⟨"t2", user1, some food, 10, none, now - 2 * nanosPerDay, now⟩,
       ⟨"t3", user1, none, 15, none, now - 2 * nanosPerDay, now⟩,
       ⟨"t4", user2, none, 7, none, now - 1 * nanosPerDay, now⟩,
       ⟨"t5", user1, some food, 20, none, now - 1 * nanosPerDay, now⟩] }

/-- Modelled from the spec: the insert into the table `categories`, whose
declaration is not in the repository. The row is written when `user_id`
references an existing user and the user has no category of that name; a missing
user is a foreign-key violation (SQLSTATE 23503), a second category of the same
name a violation of the unique constraint on `(user_id, name)` (SQLSTATE 23505). -/
def insertCategory (newID : String) (createdAt : Time) (s : db.Store) (userID name : String) :
    Except BackendErr (db.CategoryRow × db.Store) :=
  if s.users.any (fun u => decide (u.id = userID)) then
    if s.categories.any (fun c => decide (c.userID = userID ∧ c.name = name)) then
      .error (.pg "23505" "categories_user_id_name_key")
    else
      let row : db.CategoryRow :=
        { id := newID, userID := userID, name := name, createdAt := createdAt }
      .ok (row, { s with categories := s.categories ++ [row] })
  else .error (.pg "23503" "categories_user_id_fkey")

/-- An engine that reports a duplicate key on the primary key of `categories`. -/
def insertCategoryPkey (_ : db.Store) (_ _ : String) :
    Except BackendErr (db.CategoryRow × db.Store) :=
  .error (.pg "23505" "categories_pkey")

/-- A script followed by padding, 125 bytes in all. -/
def payload : String := ⟨"<script>alert(1)</script>".data ++ List.replicate 100 'A'⟩

/-- A description of 1001 bytes. -/
def longDescription : String := ⟨List.replicate 1001 'A'⟩

/-- A description of 501 letters "é", 1002 bytes. -/
def accents : String := ⟨List.replicate 501 'é'⟩

/-- The name of the test "category name injection". -/
def injection : String := "\x27; DROP TABLE categories; --"

/-- The name of the test "XSS in category name". -/
def script : String := "<script>alert(\x27XSS\x27)</script>"

/-- A name between two spaces and 200 spaces, 206 bytes. -/
def padded : String := ⟨"  Food".data ++ List.replicate 200 ' '⟩

/-- An identifier that no user of the examples has. -/
def stranger : String := "a50e8400-e29b-41d4-a716-446655440005"

/-- A store whose only user has two transactions without category, of 0.10 and
of 0.20. -/
def dimes : db.Store :=
  { users := [⟨user1, "user1@example.com", 0⟩]
    categories := []
    transactions :=
      [⟨"t1", user1, none, 1 / 10, none, now - 2 * nanosPerDay, now⟩,
       ⟨"t2", user1, none, 1 / 5, none, now - 1 * nanosPerDay, now⟩] }

/-- A backend without faults. -/
def backend : db.Backend :=
  { fault := fun _ => none
    scanOwnership := none
    insertTransaction := insertTransaction "00000000-0000-4000-8000-00000000000f" 0
    numericToFloat := numericToFloat
    insertCategory := insertCategory "00000000-0000-4000-8000-00000000000c" 0 }

/-- The backend without faults whose insert into `categories` hits the primary key. -/
def backendPkey : db.Backend := { backend with insertCategory := insertCategoryPkey }

/-- A backend on which the ownership lookup fails because the context of the
request was cancelled. -/
def backendCancelled : db.Backend :=
  { backend with
    fault := fun st =>
      match st with
      | .selectOwnership _ _ => some (.other "context canceled")
      | _ => none }

/-- The store as the category handler sees it: `CreateCategory` of `*DB` on the
given contents, the other methods failing. -/
def categoryDatabase (s : db.Store) : http.Database :=
  { mockDatabase (.new "not part of the example") with
    CreateCategory := fun userID name => (db.CreateCategory backend s userID name).value }

/-- The store as the handlers see it through `db.Database`: the two methods of
`*DB` embedded above on the given contents, the other methods failing. -/
def storeDatabase (now : Time) (s : db.Store) : http.Database :=
  { mockDatabase (.new "not part of the example") with
    CreateTransaction := fun userID categoryID amount description occurredAt =>
      (db.CreateTransaction backend s userID categoryID amount description occurredAt).value
    GetSummary := fun userID fromT toT => (db.GetSummary backend now s userID fromT toT).value }

end sample

/-! ## Theorems: identifiers -/

/-- The words of a character class are its characters. -/
theorem mem_oneOf (cs : List Char) (w : List Char) :
    w ∈ (oneOf cs).matches' ↔ ∃ c ∈ cs, w = [c] := by
  induction cs with
  | nil => simp [oneOf]
  | cons a rest ih =>
    have hstep : oneOf (a :: rest) = RegularExpression.char a + oneOf rest := rfl
    rw [hstep, RegularExpression.matches'_add, Language.mem_add, ih,
      RegularExpression.matches'_char]
    constructor
    · rintro (h | ⟨c, hc, rfl⟩)
      · exact ⟨a, by simp, h⟩
      · exact ⟨c, by simp [hc], rfl⟩
    · rintro ⟨c, hc, rfl⟩
      rcases List.mem_cons.mp hc with h | h
      · left
        subst h
        exact Set.mem_singleton _
      · right
        exact ⟨c, h, rfl⟩

/-- A hexadecimal digit is a character of the class `[0-9a-fA-F]`. -/
theorem classify_eq_hex (c : Char) : classify c = .hex ↔ c ∈ hexChars := by
  unfold classify
  by_cases h : c ∈ hexChars
  · simp [h]
  · by_cases h2 : c = '-'
    · subst h2
      simp [h]
    · simp [h, if_neg h2]

/-- The separator is the character `-`. -/
theorem classify_eq_dash (c : Char) : classify c = .dash ↔ c = '-' := by
  unfold classify
  by_cases h : c ∈ hexChars
  · simp only [h, if_true]
    constructor
    · intro h2
      cases h2
    · intro h2
      subst h2
      exact absurd h (by decide)
  · by_cases h2 : c = '-'
    · subst h2
      simp [h]
    · simp [h, h2]

/-- The words of `[0-9a-fA-F]{n}` are the words of `n` hexadecimal digits. -/
theorem mem_hex_pow (n : Nat) (w : List Char) :
    w ∈ (oneOf hexChars ^ n).matches' ↔ w.map classify = List.replicate n .hex := by
  rw [RegularExpression.matches'_pow]
  induction n generalizing w with
  | zero => simp [Language.mem_one]
  | succ n ih =>
    rw [pow_succ', Language.mem_mul]
    constructor
    · rintro ⟨a, ha, b, hb, rfl⟩
      obtain ⟨c, hc, rfl⟩ := (mem_oneOf _ _).mp ha
      simp [List.replicate_succ, (classify_eq_hex c).mpr hc, (ih b).mp hb]
    · intro h
      cases w with
      | nil => simp [List.replicate_succ] at h
      | cons c rest =>
        simp only [List.map_cons, List.replicate_succ, List.cons.injEq] at h
        exact ⟨[c], (mem_oneOf _ _).mpr ⟨c, (classify_eq_hex c).mp h.1, rfl⟩, rest,
          (ih rest).mpr h.2, rfl⟩

/-- A group of digits followed by the rest of the pattern. -/
theorem mem_hex_pow_mul (n : Nat) (Q : RegularExpression Char) (shape : List UUIDSym)
    (hQ : ∀ w, w ∈ Q.matches' ↔ w.map classify = shape) (w : List Char) :
    w ∈ (oneOf hexChars ^ n * Q).matches' ↔
      w.map classify = List.replicate n .hex ++ shape := by
  rw [RegularExpression.matches'_mul, Language.mem_mul, List.map_eq_append_iff]
  constructor
  · rintro ⟨a, ha, b, hb, rfl⟩
    exact ⟨a, b, rfl, (mem_hex_pow n a).mp ha, (hQ b).mp hb⟩
  · rintro ⟨a, b, rfl, ha, hb⟩
    exact ⟨a, (mem_hex_pow n a).mpr ha, b, (hQ b).mpr hb, rfl⟩

/-- A separator followed by the rest of the pattern. -/
theorem mem_dash_mul (Q : RegularExpression Char) (shape : List UUIDSym)
    (hQ : ∀ w, w ∈ Q.matches' ↔ w.map classify = shape) (w : List Char) :
    w ∈ (RegularExpression.char '-' * Q).matches' ↔
      w.map classify = UUIDSym.dash :: shape := by
  rw [RegularExpression.matches'_mul, Language.mem_mul, RegularExpression.matches'_char]
  constructor
  · rintro ⟨a, ha, b, hb, rfl⟩
    have : a = ['-'] := ha
    subst this
    simp [(classify_eq_dash '-').mpr rfl, (hQ b).mp hb]
  · intro h
    cases w with
    | nil => simp at h
    | cons c rest =>
      simp only [List.map_cons, List.cons.injEq] at h
      have hc := (classify_eq_dash c).mp h.1
      subst hc
      exact ⟨['-'], rfl, rest, (hQ rest).mpr h.2, rfl⟩

/-- The pattern `uuidRegex` matches exactly the strings of canonical dashed form. -/
theorem MatchString_uuidRegex (id : String) :
    MatchString uuidRegex id = true ↔ canonicalUUID id := by
  unfold MatchString canonicalUUID
  rw [RegularExpression.rmatch_iff_matches']
  have h12 := mem_hex_pow 12
  have h4 := mem_dash_mul _ _ h12
  have h5 := mem_hex_pow_mul 4 _ _ h4
  have h6 := mem_dash_mul _ _ h5
  have h7 := mem_hex_pow_mul 4 _ _ h6
  have h8 := mem_dash_mul _ _ h7
  have h9 := mem_hex_pow_mul 4 _ _ h8
  have h10 := mem_dash_mul _ _ h9
  have h11 := mem_hex_pow_mul 8 _ _ h10
  rw [uuidRegex, h11 id.data]
  simp [uuidShape]

/-- The value of `ValidateUUID` on every string, when `uuid.Parse` accepts the
canonical dashed form. -/
theorem validator.ValidateUUID_eq (x : Ext)
    (hx : ∀ s, canonicalUUID s → x.uuidParse s = true) (id : String) :
    validator.ValidateUUID x id =
      if id = "" then some (.new "id is required")
      else if canonicalUUID id then none
      else some (.new "invalid UUID format") := by
  unfold validator.ValidateUUID
  by_cases h0 : id = ""
  · simp [h0]
  · by_cases hc : canonicalUUID id
    · simp [h0, hc, hx id hc, (MatchString_uuidRegex id).mpr hc]
    · have hm : MatchString uuidRegex id = false := by
        cases hm : MatchString uuidRegex id with
        | false => rfl
        | true => exact absurd ((MatchString_uuidRegex id).mp hm) hc
      simp [h0, hc, hm]

/-- The characters of an identifier are encoded in one byte each. -/
theorem sample.encode_ascii :
    ∀ c ∈ hexChars ++ ['-'], (String.utf8EncodeChar c).map UInt8.toNat = [c.toNat] := by
  decide

/-- Every hexadecimal digit has a value. -/
theorem sample.xvalue_hex : ∀ c ∈ hexChars, (sample.xvalue c.toNat).isSome = true := by
  decide

/-- A pair of bytes is decoded when both are digits. -/
theorem sample.xtob_isSome (a b : Nat) (ha : (sample.xvalue a).isSome = true)
    (hb : (sample.xvalue b).isSome = true) : (sample.xtob a b).isSome = true := by
  obtain ⟨va, hva⟩ := Option.isSome_iff_exists.mp ha
  obtain ⟨vb, hvb⟩ := Option.isSome_iff_exists.mp hb
  simp [sample.xtob, hva, hvb]

/-- The bytes of a string made of digits and separators are its characters. -/
theorem sample.bytes_of_shape (l : List Char) (h : ∀ c ∈ l, classify c ≠ .other) :
    l.flatMap (fun c => (String.utf8EncodeChar c).map UInt8.toNat) = l.map Char.toNat := by
  induction l with
  | nil => rfl
  | cons c rest ih =>
    have hc : c ∈ hexChars ++ ['-'] := by
      have h1 := h c (by simp)
      by_cases hh : c ∈ hexChars
      · simp [hh]
      · by_cases hd : c = '-'
        · simp [hd]
        · exact absurd (by simp [classify, hh, hd]) h1
    rw [List.flatMap_cons, sample.encode_ascii c hc,
      ih (fun d hd => h d (List.mem_cons_of_mem _ hd))]
    rfl

/-- The model of `uuid.Parse` accepts the canonical dashed form. -/
theorem sample.uuidParse_canonical (s : String) (h : canonicalUUID s) :
    sample.uuidParse s = true := by
  unfold canonicalUUID at h
  have hno : ∀ c ∈ s.data, classify c ≠ .other := by
    intro c hc hcl
    have : UUIDSym.other ∈ s.data.map classify := hcl ▸ List.mem_map_of_mem classify hc
    rw [h] at this
    exact absurd this (by decide)
  have hb : sample.bytes s = s.data.map Char.toNat := sample.bytes_of_shape s.data hno
  have hlen : (s.data.map Char.toNat).length = 36 := by
    rw [List.length_map, ← List.length_map s.data classify, h]
    rfl
  have hget : ∀ i : Nat, (s.data[i]?).map classify = uuidShape[i]? := by
    intro i
    rw [← List.getElem?_map, h]
  have hex : ∀ i : Nat, uuidShape[i]? = some .hex →
      (sample.xvalue ((s.data.map Char.toNat).getD i 0)).isSome = true := by
    intro i hi
    have h1 := hget i
    rw [hi] at h1
    obtain ⟨c, hc, hcl⟩ := Option.map_eq_some'.mp h1
    simp only [List.getD_eq_getElem?_getD, List.getElem?_map, hc, Option.map_some',
      Option.getD_some]
    exact sample.xvalue_hex c ((classify_eq_hex c).mp hcl)
  have dash : ∀ i : Nat, uuidShape[i]? = some .dash →
      (s.data.map Char.toNat).getD i 0 = 45 := by
    intro i hi
    have h1 := hget i
    rw [hi] at h1
    obtain ⟨c, hc, hcl⟩ := Option.map_eq_some'.mp h1
    simp only [List.getD_eq_getElem?_getD, List.getElem?_map, hc, Option.map_some',
      Option.getD_some]
    rw [(classify_eq_dash c).mp hcl]
    rfl
  have hpairs : ∀ i ∈ [0, 2, 4, 6, 9, 11, 14, 16, 19, 21, 24, 26, 28, 30, 32, 34],
      uuidShape[i]? = some .hex ∧ uuidShape[i + 1]? = some .hex := by
    decide
  unfold sample.uuidParse
  simp only [hb, hlen, if_true, sample.parseDashed, Bool.and_eq_true, beq_iff_eq,
    List.all_eq_true]
  refine ⟨⟨⟨⟨dash 8 (by decide), dash 13 (by decide)⟩, dash 18 (by decide)⟩,
    dash 23 (by decide)⟩, ?_⟩
  intro i hi
  exact sample.xtob_isSome _ _ (hex i (hpairs i hi).1) (hex (i + 1) (hpairs i hi).2)

/-- C7: `ValidateUUID` returns no error exactly when the identifier is a UUID in
canonical dashed form (36 characters: groups of 8, 4, 4, 4 and 12 hexadecimal
digits separated by `-`); the empty string is refused with "id is required" and
every other string with "invalid UUID format". The function `uuid.Parse` of the
library is taken to accept the canonical dashed form. -/
theorem ValidateUUID_canonical (x : Ext)
    (hx : ∀ s, canonicalUUID s → x.uuidParse s = true) (id : String) :
    (validator.ValidateUUID x id = none ↔ canonicalUUID id) ∧
    (id = "" → validator.ValidateUUID x id = some (.new "id is required")) ∧
    (id ≠ "" → ¬ canonicalUUID id →
      validator.ValidateUUID x id = some (.new "invalid UUID format")) := by
  have hempty : ¬ canonicalUUID "" := by decide
  rw [validator.ValidateUUID_eq x hx id]
  refine ⟨?_, ?_, ?_⟩
  · by_cases h0 : id = ""
    · subst h0
      simp [hempty]
    · by_cases hc : canonicalUUID id <;> simp [h0, hc]
  · intro h0
    simp [h0]
  · intro h0 hc
    simp [h0, hc]

/-- Witness of C7: with the model of `uuid.Parse`, the identifier of the tests is
accepted, 32 digits without dashes and a string of 37 characters are refused. -/
theorem ValidateUUID_canonical_witness :
    validator.ValidateUUID sample.ext "550e8400-e29b-41d4-a716-446655440000" = none ∧
    validator.ValidateUUID sample.ext "550e8400e29b41d4a716446655440000" =
      some (.new "invalid UUID format") ∧
    validator.ValidateUUID sample.ext "550e8400-e29b-41d4-a716-4466554400000" =
      some (.new "invalid UUID format") ∧
    validator.ValidateUUID sample.ext "" = some (.new "id is required") :=
  ⟨(ValidateUUID_canonical sample.ext sample.uuidParse_canonical
      "550e8400-e29b-41d4-a716-446655440000").1.mpr (by decide),
    (ValidateUUID_canonical sample.ext sample.uuidParse_canonical
      "550e8400e29b41d4a716446655440000").2.2 (by decide) (by decide),
    (ValidateUUID_canonical sample.ext sample.uuidParse_canonical
      "550e8400-e29b-41d4-a716-4466554400000").2.2 (by decide) (by decide),
    (ValidateUUID_canonical sample.ext sample.uuidParse_canonical "").2.1 rfl⟩

/-! ## Theorems: date ranges and the window handlers -/

/-- An instant is later than another exactly when it is greater. -/
theorem Time.After_iff (t u : Time) : Time.After t u = true ↔ u < t := by
  simp [Time.After]

/-- The value of `ValidateDateRange` on every pair of optional bounds. -/
theorem validator.ValidateDateRange_eq (fromT toT : Option Time) :
    validator.ValidateDateRange fromT toT =
      match fromT, toT with
      | some f, some t =>
        if t < f then some (.new "'from' date must be before or equal to 'to' date") else none
      | _, _ => none := by
  cases fromT <;> cases toT <;> simp [validator.ValidateDateRange, Time.After]

/-- C8: `ValidateDateRange` returns an error exactly when both bounds are present
and `from` is strictly after `to`; it returns no error when the two are equal,
when only one is present, and when both are absent. -/
theorem ValidateDateRange_error_iff :
    (∀ fromT toT : Option Time,
      (validator.ValidateDateRange fromT toT).isSome = true ↔
        ∃ f t, fromT = some f ∧ toT = some t ∧ t < f) ∧
    (∀ t : Time, validator.ValidateDateRange (some t) (some t) = none) ∧
    (∀ t : Time, validator.ValidateDateRange (some t) none = none) ∧
    (∀ t : Time, validator.ValidateDateRange none (some t) = none) ∧
    validator.ValidateDateRange none none = none := by
  refine ⟨?_, ?_, ?_, ?_, ?_⟩
  · intro fromT toT
    rw [validator.ValidateDateRange_eq]
    cases fromT with
    | none => simp
    | some f =>
      cases toT with
      | none => simp
      | some t =>
        by_cases h : t < f <;> simp [h]
  · intro t
    simp [validator.ValidateDateRange_eq]
  · intro t
    simp [validator.ValidateDateRange_eq]
  · intro t
    simp [validator.ValidateDateRange_eq]
  · simp [validator.ValidateDateRange_eq]

/-- An identifier that passes `ValidateUUID` is not empty. -/
theorem validator.ValidateUUID_ne_empty (x : Ext) (id : String)
    (h : validator.ValidateUUID x id = none) : id ≠ "" := by
  intro he
  simp [validator.ValidateUUID, he] at h

/-- A window whose bounds parse and are in the wrong order is refused by the
common first part of the two handlers. -/
theorem http.parseWindow_reversed (x : Ext) (q : http.Query) (f t : Time)
    (hid : validator.ValidateUUID x q.user_id = none)
    (hf : q.fromStr ≠ "") (hfp : x.parseRFC3339 q.fromStr = some f)
    (ht : q.toStr ≠ "") (htp : x.parseRFC3339 q.toStr = some t)
    (hft : t < f) :
    http.parseWindow x q = .error (http.respondWithError http.StatusBadRequest
      "'from' date must be before or equal to 'to' date" none) := by
  have hne := validator.ValidateUUID_ne_empty x q.user_id hid
  simp [http.parseWindow, hne, hid, http.parseBound, hf, hfp, ht, htp,
    validator.ValidateDateRange_eq, hft, GoError.Error]

/-- C9: a list-transactions request and a summary request with a well-formed
`user_id` whose `from` and `to` both parse and whose `from` is after `to` get
status 400 with the message of the date-range validator, and no method of the
store is called. -/
theorem reversed_window_rejected_without_store_call (x : Ext) (db : http.Database)
    (q : http.Query) (f t : Time)
    (hid : validator.ValidateUUID x q.user_id = none)
    (hf : q.fromStr ≠ "") (hfp : x.parseRFC3339 q.fromStr = some f)
    (ht : q.toStr ≠ "") (htp : x.parseRFC3339 q.toStr = some t)
    (hft : t < f) :
    ((http.ListTransactions x db q).resp.status = 400 ∧
      (http.ListTransactions x db q).resp.message =
        some "'from' date must be before or equal to 'to' date" ∧
      (http.ListTransactions x db q).calls = []) ∧
    ((http.GetSummary x db q).resp.status = 400 ∧
      (http.GetSummary x db q).resp.message =
        some "'from' date must be before or equal to 'to' date" ∧
      (http.GetSummary x db q).calls = []) := by
  have h := http.parseWindow_reversed x q f t hid hf hfp ht htp hft
  simp [http.ListTransactions, http.GetSummary, h, http.respondWithError,
    http.Response.message, http.StatusBadRequest]

/-- The sample identifier of the validator tests passes `ValidateUUID`. -/
theorem sample.validateUUID_user :
    validator.ValidateUUID sample.ext "550e8400-e29b-41d4-a716-446655440000" = none := by
  rw [validator.ValidateUUID_eq sample.ext sample.uuidParse_canonical]
  decide

/-- Witness of C9: `from` is 1 March 2024 and `to` is 1 January 2024. -/
theorem reversed_window_rejected_witness :
    ((http.ListTransactions sample.ext (sample.mockDatabase (.new "unexpected call"))
        ⟨"550e8400-e29b-41d4-a716-446655440000", "2024-03-01T00:00:00Z",
          "2024-01-01T00:00:00Z"⟩).resp.status = 400 ∧
      (http.ListTransactions sample.ext (sample.mockDatabase (.new "unexpected call"))
        ⟨"550e8400-e29b-41d4-a716-446655440000", "2024-03-01T00:00:00Z",
          "2024-01-01T00:00:00Z"⟩).resp.message =
        some "'from' date must be before or equal to 'to' date" ∧
      (http.ListTransactions sample.ext (sample.mockDatabase (.new "unexpected call"))
        ⟨"550e8400-e29b-41d4-a716-446655440000", "2024-03-01T00:00:00Z",
          "2024-01-01T00:00:00Z"⟩).calls = []) ∧
    ((http.GetSummary sample.ext (sample.mockDatabase (.new "unexpected call"))
        ⟨"550e8400-e29b-41d4-a716-446655440000", "2024-03-01T00:00:00Z",
          "2024-01-01T00:00:00Z"⟩).resp.status = 400 ∧
      (http.GetSummary sample.ext (sample.mockDatabase (.new "unexpected call"))
        ⟨"550e8400-e29b-41d4-a716-446655440000", "2024-03-01T00:00:00Z",
          "2024-01-01T00:00:00Z"⟩).resp.message =
        some "'from' date must be before or equal to 'to' date" ∧
      (http.GetSummary sample.ext (sample.mockDatabase (.new "unexpected call"))
        ⟨"550e8400-e29b-41d4-a716-446655440000", "2024-03-01T00:00:00Z",
          "2024-01-01T00:00:00Z"⟩).calls = []) :=
  reversed_window_rejected_without_store_call sample.ext
    (sample.mockDatabase (.new "unexpected call"))
    ⟨"550e8400-e29b-41d4-a716-446655440000", "2024-03-01T00:00:00Z", "2024-01-01T00:00:00Z"⟩
    1709251200000000000 1704067200000000000
    sample.validateUUID_user (by decide) (by decide) (by decide) (by decide) (by decide)

/-! ## Theorems: validation in the create handlers -/

/-- The first error of a list is one of its elements. -/
theorem firstError_mem (l : List (Option GoError)) (e : GoError)
    (h : firstError l = some e) : some e ∈ l := by
  induction l with
  | nil => simp [firstError] at h
  | cons a rest ih =>
    cases a with
    | none =>
      simp only [firstError] at h
      exact List.mem_cons_of_mem _ (ih h)
    | some a =>
      simp only [firstError, Option.some.injEq] at h
      simp [h]

/-- A list with an error has a first error. -/
theorem firstError_isSome (l : List (Option GoError)) (e : GoError) (h : some e ∈ l) :
    ∃ e1, firstError l = some e1 := by
  induction l with
  | nil => simp at h
  | cons a rest ih =>
    cases a with
    | none =>
      simp only [List.mem_cons] at h
      rcases h with h | h
      · cases h
      · simpa [firstError] using ih h
    | some a => exact ⟨a, by simp [firstError]⟩

/-- A create handler whose validations have a first error answers 400 with the
message of that error and calls no method of the store. -/
theorem CreateRequest.handle_of_firstError (x : Ext) (now : Time) (db : http.Database)
    (req : CreateRequest) (e : GoError)
    (h : firstError (req.validations x) = some e) :
    (req.handle x now db).resp.status = 400 ∧
    (req.handle x now db).resp.message = some e.Error ∧
    (req.handle x now db).calls = [] := by
  cases req with
  | user r =>
    simp only [CreateRequest.validations] at h
    cases h1 : validator.ValidateEmail r.Email with
    | none => simp [h1, firstError] at h
    | some e1 =>
      simp only [h1, firstError, Option.some.injEq] at h
      subst h
      simp [CreateRequest.handle, http.CreateUser, h1, http.respondWithError,
        http.Response.message, http.StatusBadRequest]
  | category r =>
    simp only [CreateRequest.validations] at h
    cases h1 : validator.ValidateUUID x r.UserID with
    | some e1 =>
      simp only [h1, firstError, Option.some.injEq] at h
      subst h
      simp [CreateRequest.handle, http.CreateCategory, h1, http.respondWithError,
        http.Response.message, http.StatusBadRequest]
    | none =>
      cases h2 : validator.ValidateCategoryName r.Name with
      | none => simp [h1, h2, firstError] at h
      | some e2 =>
        simp only [h1, h2, firstError, Option.some.injEq] at h
        subst h
        simp [CreateRequest.handle, http.CreateCategory, h1, h2, http.respondWithError,
          http.Response.message, http.StatusBadRequest]
  | transaction r =>
    simp only [CreateRequest.validations] at h
    cases h1 : validator.ValidateUUID x r.UserID with
    | some e1 =>
      simp only [h1, firstError, Option.some.injEq] at h
      subst h
      simp [CreateRequest.handle, http.CreateTransaction, h1, http.respondWithError,
        http.Response.message, http.StatusBadRequest]
    | none =>
      cases h2 : http.validateCategoryID x r.CategoryID with
      | some e2 =>
        simp only [h1, h2, firstError, Option.some.injEq] at h
        subst h
        simp [CreateRequest.handle, http.CreateTransaction, h1, h2, http.respondWithError,
          http.Response.message, http.StatusBadRequest]
      | none =>
        cases h3 : validator.ValidateAmount x r.Amount with
        | some e3 =>
          simp only [h1, h2, h3, firstError, Option.some.injEq] at h
          subst h
          simp [CreateRequest.handle, http.CreateTransaction, h1, h2, h3,
            http.respondWithError, http.Response.message, http.StatusBadRequest]
        | none =>
          cases h4 : validator.ValidateDescription r.Description with
          | none => simp [h1, h2, h3, h4, firstError] at h
          | some e4 =>
            simp only [h1, h2, h3, h4, firstError, Option.some.injEq] at h
            subst h
            simp [CreateRequest.handle, http.CreateTransaction, h1, h2, h3, h4,
              http.respondWithError, http.Response.message, http.StatusBadRequest]

/-- C10: when a validator returns an error on a field of a create-user,
create-category or create-transaction request, the handler answers 400, the
message is that of a validator that failed on its field (the first one in the
order of the handler) and no method of the store is called. -/
theorem create_validation_error_400_without_store_call (x : Ext) (now : Time)
    (db : http.Database) (req : CreateRequest)
    (h : ∃ e, some e ∈ req.validations x) :
    ∃ e, some e ∈ req.validations x ∧ firstError (req.validations x) = some e ∧
      (req.handle x now db).resp.status = 400 ∧
      (req.handle x now db).resp.message = some e.Error ∧
      (req.handle x now db).calls = [] := by
  obtain ⟨e0, he0⟩ := h
  obtain ⟨e, he⟩ := firstError_isSome _ e0 he0
  exact ⟨e, firstError_mem _ e he, he, CreateRequest.handle_of_firstError x now db req e he⟩

/-- Witness of C10: a create-transaction request whose amount is zero. -/
theorem create_validation_error_witness :
    ∃ e, some e ∈ (CreateRequest.transaction
        ⟨"550e8400-e29b-41d4-a716-446655440000", none, .fin 0 0, none, none⟩).validations
          sample.ext ∧
      firstError ((CreateRequest.transaction
        ⟨"550e8400-e29b-41d4-a716-446655440000", none, .fin 0 0, none, none⟩).validations
          sample.ext) = some e ∧
      ((CreateRequest.transaction
        ⟨"550e8400-e29b-41d4-a716-446655440000", none, .fin 0 0, none, none⟩).handle
          sample.ext 0 (sample.mockDatabase (.new "unexpected call"))).resp.status = 400 ∧
      ((CreateRequest.transaction
        ⟨"550e8400-e29b-41d4-a716-446655440000", none, .fin 0 0, none, none⟩).handle
          sample.ext 0 (sample.mockDatabase (.new "unexpected call"))).resp.message =
        some e.Error ∧
      ((CreateRequest.transaction
        ⟨"550e8400-e29b-41d4-a716-446655440000", none, .fin 0 0, none, none⟩).handle
          sample.ext 0 (sample.mockDatabase (.new "unexpected call"))).calls = [] :=
  create_validation_error_400_without_store_call sample.ext 0
    (sample.mockDatabase (.new "unexpected call"))
    (.transaction ⟨"550e8400-e29b-41d4-a716-446655440000", none, .fin 0 0, none, none⟩)
    ⟨.new "amount must be greater than 0, got 0.00", by
      simp only [CreateRequest.validations, List.mem_cons]
      right; right; left
      decide⟩

/-! ## Theorems: amounts and names -/

/-- An integer scaled by a power of two, as a fraction. -/
theorem Float64.cast_scaled (m e k : Int) (hk : k ≤ e) :
    ((m * 2 ^ (e - k).toNat : Int) : ℚ) = (m : ℚ) * (2 : ℚ) ^ e * ((2 : ℚ) ^ k)⁻¹ := by
  have h1 : ((e - k).toNat : Int) = e - k := Int.toNat_of_nonneg (by omega)
  push_cast
  rw [← zpow_natCast (2 : ℚ) (e - k).toNat, h1, zpow_sub₀ (by norm_num : (2 : ℚ) ≠ 0)]
  ring

/-- The integer comparison of two dyadic numbers is the comparison of the numbers. -/
theorem Float64.dyadicLe_iff (m e m2 e2 : Int) :
    Float64.dyadicLe m e m2 e2 = true ↔
      (m : ℚ) * (2 : ℚ) ^ e ≤ (m2 : ℚ) * (2 : ℚ) ^ e2 := by
  unfold Float64.dyadicLe
  rw [decide_eq_true_iff, ← Int.cast_le (R := ℚ),
    Float64.cast_scaled m e (min e e2) (min_le_left _ _),
    Float64.cast_scaled m2 e2 (min e e2) (min_le_right _ _)]
  have hpos : (0 : ℚ) < ((2 : ℚ) ^ (min e e2))⁻¹ := inv_pos.mpr (zpow_pos (by norm_num) _)
  exact mul_le_mul_right hpos

/-- No float64 lies strictly between the constant of `ValidateAmount` and the
decimal number `99999999.99`. -/
theorem Float64.le_maxAmount_iff (m e : Int) (hm : m.natAbs < 2 ^ 53) :
    (m : ℚ) * (2 : ℚ) ^ e ≤ (6710886399328911 : ℚ) * (2 : ℚ) ^ (-26 : Int) ↔
      (m : ℚ) * (2 : ℚ) ^ e ≤ 9999999999 / 100 := by
  have h26 : ((2 : ℚ) ^ (-26 : Int)) = 1 / 67108864 := by norm_num [zpow_neg]
  rw [h26]
  constructor
  · intro h
    refine le_trans h ?_
    norm_num
  · intro h
    by_cases he : -26 ≤ e
    · -- the value is a multiple of 2^-26
      obtain ⟨n, hn⟩ : ∃ n : Nat, e = (n : Int) - 26 := ⟨(e + 26).toNat, by omega⟩
      have hval : (m : ℚ) * (2 : ℚ) ^ e = ((m * 2 ^ n : Int) : ℚ) / 67108864 := by
        rw [hn, zpow_sub₀ (by norm_num : (2 : ℚ) ≠ 0), zpow_natCast]
        push_cast
        norm_num
        ring
      rw [hval] at h ⊢
      have h2 : ((m * 2 ^ n : Int) : ℚ) ≤ 671088639932891136 / 100 := by
        have := (div_le_iff₀ (by norm_num : (0 : ℚ) < 67108864)).mp h
        linarith
      have h3 : (m * 2 ^ n : Int) ≤ 6710886399328911 := by
        by_contra hc
        have hc2 : (6710886399328912 : Int) ≤ m * 2 ^ n := by omega
        have hc3 : ((6710886399328912 : Int) : ℚ) ≤ ((m * 2 ^ n : Int) : ℚ) :=
          Int.cast_le.mpr hc2
        have : ((6710886399328912 : Int) : ℚ) = 6710886399328912 := by norm_num
        rw [this] at hc3
        linarith
      have h4 : ((m * 2 ^ n : Int) : ℚ) ≤ 6710886399328911 := by
        have := (Int.cast_le (R := ℚ)).mpr h3
        simpa using this
      rw [div_le_iff₀ (by norm_num : (0 : ℚ) < 67108864)]
      linarith
    · -- the value is below 2^26
      have hm2 : (m : ℚ) ≤ 9007199254740992 := by
        have : m ≤ 9007199254740992 := by omega
        exact_mod_cast this
      have he2 : (2 : ℚ) ^ e ≤ (2 : ℚ) ^ (-27 : Int) :=
        zpow_le_zpow_right₀ (by norm_num) (by omega)
      have h27 : ((2 : ℚ) ^ (-27 : Int)) = 1 / 134217728 := by norm_num [zpow_neg]
      rw [h27] at he2
      have hpos : (0 : ℚ) < (2 : ℚ) ^ e := zpow_pos (by norm_num) _
      by_cases hm0 : (m : ℚ) ≤ 0
      · have : (m : ℚ) * (2 : ℚ) ^ e ≤ 0 := mul_nonpos_of_nonpos_of_nonneg hm0 hpos.le
        refine le_trans this ?_
        norm_num
      · have hm0 : 0 ≤ (m : ℚ) := le_of_lt (not_le.mp hm0)
        calc (m : ℚ) * (2 : ℚ) ^ e ≤ 9007199254740992 * (1 / 134217728) :=
              mul_le_mul hm2 he2 hpos.le (by norm_num)
          _ ≤ 6710886399328911 * (1 / 67108864) := by norm_num

/-- The value of `ValidateAmount` on every float64 that is a number: no error
exactly on the interval `(0, 99999999.99]`, the message "amount must be greater
than 0" at and below zero, the message "amount exceeds maximum value" above the
interval. -/
theorem validator.ValidateAmount_of_number (x : Ext) (m e : Int)
    (hrep : (Float64.fin m e).Representable) :
    (validator.ValidateAmount x (.fin m e) = none ↔ inAmountRange (.fin m e)) ∧
    ((m : ℚ) * (2 : ℚ) ^ e ≤ 0 → validator.ValidateAmount x (.fin m e) =
      some (.new ("amount must be greater than 0, got " ++ x.fmt2f (.fin m e)))) ∧
    (9999999999 / 100 < (m : ℚ) * (2 : ℚ) ^ e → validator.ValidateAmount x (.fin m e) =
      some (.new ("amount exceeds maximum value of 99999999.99, got " ++
        x.fmt2f (.fin m e)))) := by
  have hz : Float64.le (.fin m e) Float64.zero = true ↔ (m : ℚ) * (2 : ℚ) ^ e ≤ 0 := by
    have := Float64.dyadicLe_iff m e 0 0
    simpa [Float64.le, Float64.zero] using this
  have hmax : Float64.gt (.fin m e) Float64.maxAmount = true ↔
      9999999999 / 100 < (m : ℚ) * (2 : ℚ) ^ e := by
    have h1 := Float64.dyadicLe_iff m e 6710886399328911 (-26)
    have h2 := Float64.le_maxAmount_iff m e hrep.1
    simp only [Float64.gt, Float64.le, Float64.maxAmount, Bool.not_eq_true',
      ← Bool.not_eq_true, h1]
    push_cast at h2 ⊢
    rw [h2, not_le]
  refine ⟨?_, ?_, ?_⟩
  · unfold validator.ValidateAmount inAmountRange
    by_cases h0 : (m : ℚ) * (2 : ℚ) ^ e ≤ 0
    · simp only [hz.mpr h0, if_true, Float64.toRat, Option.some.injEq, exists_eq_left']
      constructor
      · intro h
        cases h
      · rintro ⟨h1, _⟩
        exact absurd h0 (not_le.mpr h1)
    · have hz2 : Float64.le (.fin m e) Float64.zero = false := by
        cases h : Float64.le (.fin m e) Float64.zero with
        | false => rfl
        | true => exact absurd (hz.mp h) h0
      by_cases h1 : 9999999999 / 100 < (m : ℚ) * (2 : ℚ) ^ e
      · simp only [hz2, hmax.mpr h1, if_true, Float64.toRat, Option.some.injEq,
          exists_eq_left', Bool.false_eq_true, if_false]
        constructor
        · intro h
          cases h
        · rintro ⟨_, h2⟩
          exact absurd h1 (not_lt.mpr h2)
      · have hm2 : Float64.gt (.fin m e) Float64.maxAmount = false := by
          cases h : Float64.gt (.fin m e) Float64.maxAmount with
          | false => rfl
          | true => exact absurd (hmax.mp h) h1
        simp only [hz2, hm2, Float64.toRat, Option.some.injEq, exists_eq_left',
          Bool.false_eq_true, if_false, true_iff]
        exact ⟨not_le.mp h0, not_lt.mp h1⟩
  · intro h0
    simp [validator.ValidateAmount, hz.mpr h0]
  · intro h1
    have h0 : ¬ (m : ℚ) * (2 : ℚ) ^ e ≤ 0 := by
      intro h
      have : (0 : ℚ) < 9999999999 / 100 := by norm_num
      linarith
    have hz2 : Float64.le (.fin m e) Float64.zero = false := by
      cases h : Float64.le (.fin m e) Float64.zero with
      | false => rfl
      | true => exact absurd (hz.mp h) h0
    simp [validator.ValidateAmount, hz2, hmax.mpr h1]

/-- The infinities are refused by `ValidateAmount`. -/
theorem validator.ValidateAmount_inf (x : Ext) (negative : Bool) :
    validator.ValidateAmount x (.inf negative) ≠ none := by
  cases negative <;> simp [validator.ValidateAmount, Float64.le, Float64.gt, Float64.zero,
    Float64.maxAmount]

/-- On every float64 other than NaN, `ValidateAmount` returns no error exactly
when the amount lies in the interval `(0, 99999999.99]`. -/
theorem validator.ValidateAmount_none_iff (x : Ext) (a : Float64) (hrep : a.Representable)
    (hnan : a ≠ Float64.nan) :
    validator.ValidateAmount x a = none ↔ inAmountRange a := by
  cases a with
  | nan => exact absurd rfl hnan
  | inf negative =>
    constructor
    · intro h
      exact absurd h (validator.ValidateAmount_inf x negative)
    · rintro ⟨q, hq, _⟩
      simp [Float64.toRat] at hq
  | fin m e => exact (validator.ValidateAmount_of_number x m e hrep).1

/-- The boundary value, the float64 of the literal `99999999.99`, is accepted. -/
theorem validator.ValidateAmount_boundary (x : Ext) :
    validator.ValidateAmount x Float64.maxAmount = none := by
  have h1 : Float64.le Float64.maxAmount Float64.zero = false := by decide
  have h2 : Float64.gt Float64.maxAmount Float64.maxAmount = false := by decide
  simp [validator.ValidateAmount, h1, h2]

/-- The one float64 left out of the characterisation: NaN is not in the interval
`(0, 99999999.99]`, and `ValidateAmount` returns no error on it, both comparisons
with NaN being false. A JSON body cannot carry NaN. -/
theorem validator.ValidateAmount_nan :
    validator.ValidateAmount sample.ext Float64.nan = none ∧
    ¬ inAmountRange Float64.nan ∧
    Float64.le Float64.nan Float64.zero = false ∧
    Float64.gt Float64.nan Float64.maxAmount = false := by
  refine ⟨rfl, ?_, rfl, rfl⟩
  rintro ⟨q, hq, _⟩
  simp [Float64.toRat] at hq

/-- C5: for every amount that is a number or an infinity, that is for every
float64 other than NaN, `ValidateAmount` returns no error exactly when
`0 < amount ≤ 99999999.99`; an amount at or below zero is refused with "amount
must be greater than 0, got ...", an amount above 99999999.99 with "amount
exceeds maximum value of 99999999.99, got ...", and the boundary value, the
float64 of the literal `99999999.99`, is accepted. -/
theorem ValidateAmount_exact (x : Ext) (a : Float64) (hrep : a.Representable)
    (hnan : a ≠ Float64.nan) :
    (validator.ValidateAmount x a = none ↔ inAmountRange a) ∧
    (∀ q, a.toRat = some q → q ≤ 0 → validator.ValidateAmount x a =
      some (.new ("amount must be greater than 0, got " ++ x.fmt2f a))) ∧
    (∀ q, a.toRat = some q → 9999999999 / 100 < q → validator.ValidateAmount x a =
      some (.new ("amount exceeds maximum value of 99999999.99, got " ++ x.fmt2f a))) ∧
    (a = .inf true → validator.ValidateAmount x a =
      some (.new ("amount must be greater than 0, got " ++ x.fmt2f a))) ∧
    (a = .inf false → validator.ValidateAmount x a =
      some (.new ("amount exceeds maximum value of 99999999.99, got " ++ x.fmt2f a))) ∧
    validator.ValidateAmount x Float64.maxAmount = none ∧
    Float64.maxAmount.toRat = some (6710886399328911 / 67108864) ∧
    inAmountRange Float64.maxAmount := by
  have hmaxv : Float64.maxAmount.toRat = some (6710886399328911 / 67108864) := by
    simp only [Float64.maxAmount, Float64.toRat, Option.some.injEq]
    norm_num [zpow_neg]
  refine ⟨validator.ValidateAmount_none_iff x a hrep hnan, ?_, ?_, ?_, ?_,
    validator.ValidateAmount_boundary x, hmaxv, ⟨_, hmaxv, by norm_num, by norm_num⟩⟩
  · intro q hq hle
    cases a with
    | nan => exact absurd rfl hnan
    | inf negative => simp [Float64.toRat] at hq
    | fin m e =>
      simp only [Float64.toRat, Option.some.injEq] at hq
      exact (validator.ValidateAmount_of_number x m e hrep).2.1 (by rw [hq]; exact hle)
  · intro q hq hlt
    cases a with
    | nan => exact absurd rfl hnan
    | inf negative => simp [Float64.toRat] at hq
    | fin m e =>
      simp only [Float64.toRat, Option.some.injEq] at hq
      exact (validator.ValidateAmount_of_number x m e hrep).2.2 (by rw [hq]; exact hlt)
  · intro h
    subst h
    rfl
  · intro h
    subst h
    rfl

/-- Witness of C5: the amounts 10, 0, -10 and 100000000. -/
theorem ValidateAmount_exact_witness :
    validator.ValidateAmount sample.ext (.fin 10 0) = none ∧
    validator.ValidateAmount sample.ext (.fin 0 0) =
      some (.new ("amount must be greater than 0, got " ++ sample.ext.fmt2f (.fin 0 0))) ∧
    validator.ValidateAmount sample.ext (.fin (-10) 0) =
      some (.new ("amount must be greater than 0, got " ++ sample.ext.fmt2f (.fin (-10) 0))) ∧
    validator.ValidateAmount sample.ext (.fin 100000000 0) =
      some (.new ("amount exceeds maximum value of 99999999.99, got " ++
        sample.ext.fmt2f (.fin 100000000 0))) :=
  ⟨(ValidateAmount_exact sample.ext (.fin 10 0) ⟨by decide, by decide, by decide⟩
      (by decide)).1.mpr ⟨10, by simp [Float64.toRat], by norm_num, by norm_num⟩,
   (ValidateAmount_exact sample.ext (.fin 0 0) ⟨by decide, by decide, by decide⟩
      (by decide)).2.1 0 (by simp [Float64.toRat]) le_rfl,
   (ValidateAmount_exact sample.ext (.fin (-10) 0) ⟨by decide, by decide, by decide⟩
      (by decide)).2.1 (-10) (by simp [Float64.toRat]) (by norm_num),
   (ValidateAmount_exact sample.ext (.fin 100000000 0) ⟨by decide, by decide, by decide⟩
      (by decide)).2.2.1 100000000 (by simp [Float64.toRat]) (by norm_num)⟩

/-- The value of `ValidateCategoryName`: no error exactly when the trimmed name
is not empty and its UTF-8 encoding has at most 100 bytes. -/
theorem validator.ValidateCategoryName_none_iff (name : String) :
    validator.ValidateCategoryName name = none ↔
      GoString.TrimSpace name ≠ "" ∧ GoString.len (GoString.TrimSpace name) ≤ 100 := by
  unfold validator.ValidateCategoryName
  by_cases h0 : name = ""
  · subst h0
    simp [show GoString.TrimSpace "" = "" from rfl]
  · by_cases h1 : GoString.TrimSpace name = ""
    · simp [h0, h1]
    · by_cases h2 : GoString.len (GoString.TrimSpace name) > 100
      · simp [h0, h1, h2]
      · simp [h0, h1, h2, not_lt.mp h2]

/-- The bytes of a list of ASCII characters are as many as the characters. -/
theorem GoString.sum_utf8Size_of_ascii (l : List Char) (h : ∀ c ∈ l, c.toNat < 128) :
    (l.map Char.utf8Size).sum = l.length := by
  induction l with
  | nil => rfl
  | cons c rest ih =>
    have hc : c.utf8Size = 1 := by
      have h2 : c.val.toNat < 128 := h c (List.mem_cons_self _ _)
      have h3 : c.val ≤ 127 := by
        rw [UInt32.le_def]
        show c.val.toNat ≤ 127
        omega
      simp [Char.utf8Size, h3]
    simp only [List.map_cons, List.sum_cons, List.length_cons, hc]
    rw [ih (fun d hd => h d (List.mem_cons_of_mem _ hd))]
    omega

/-- The characters of a string of ASCII characters are its bytes. -/
theorem GoString.len_of_ascii (s : String) (h : ∀ c ∈ s.data, c.toNat < 128) :
    GoString.len s = s.length :=
  GoString.sum_utf8Size_of_ascii s.data h

/-- The characters of the trimmed string are characters of the string. -/
theorem GoString.TrimSpace_subset (s : String) :
    ∀ c ∈ (GoString.TrimSpace s).data, c ∈ s.data := by
  intro c hc
  have h1 : c ∈ ((s.data.dropWhile GoString.isSpace).reverse.dropWhile
      GoString.isSpace).reverse := hc
  have h2 := (List.dropWhile_sublist _).subset (List.mem_reverse.mp h1)
  exact (List.dropWhile_sublist _).subset (List.mem_reverse.mp h2)

/-- On names of ASCII characters, `ValidateCategoryName` returns no error exactly
when the trimmed name has between 1 and 100 characters. -/
theorem validator.ValidateCategoryName_ascii (name : String)
    (h : ∀ c ∈ name.data, c.toNat < 128) :
    validator.ValidateCategoryName name = none ↔
      1 ≤ (GoString.TrimSpace name).length ∧ (GoString.TrimSpace name).length ≤ 100 := by
  rw [validator.ValidateCategoryName_none_iff,
    GoString.len_of_ascii _ (fun c hc => h c (GoString.TrimSpace_subset name c hc))]
  have hne : GoString.TrimSpace name ≠ "" ↔ 1 ≤ (GoString.TrimSpace name).length := by
    rw [Nat.one_le_iff_ne_zero, Ne, Ne, ← String.toList_inj]
    show ¬ (GoString.TrimSpace name).data = [] ↔ ¬ (GoString.TrimSpace name).data.length = 0
    rw [List.length_eq_zero]
  rw [hne]

/-- C6, at the failing input: a name of 51 characters of two bytes each has a
trimmed form of 51 characters, between 1 and 100, and `ValidateCategoryName`
refuses it, counting its 102 bytes. -/
theorem ValidateCategoryName_counts_bytes :
    (GoString.TrimSpace ⟨List.replicate 51 'é'⟩).length = 51 ∧
    GoString.len (GoString.TrimSpace ⟨List.replicate 51 'é'⟩) = 102 ∧
    validator.ValidateCategoryName ⟨List.replicate 51 'é'⟩ =
      some (.new "category name cannot exceed 100 characters, got 102") := by
  decide

/-! ## Theorems: creation of transactions -/

/-- A create-transaction request that passes validation and on which the store
returns an error gets status 500 with the fixed message of the handler, whatever
the error is. -/
theorem http.CreateTransaction_of_store_error (x : Ext) (now : Time) (db : http.Database)
    (req : http.CreateTransactionRequest) (e : GoError)
    (h1 : validator.ValidateUUID x req.UserID = none)
    (h2 : http.validateCategoryID x req.CategoryID = none)
    (h3 : validator.ValidateAmount x req.Amount = none)
    (h4 : validator.ValidateDescription req.Description = none)
    (he : db.CreateTransaction req.UserID req.CategoryID req.Amount req.Description
      (req.OccurredAt.getD now) = .error e) :
    http.CreateTransaction x now db (some req) =
      ⟨http.respondWithError 500 "Failed to create transaction" none,
        [.CreateTransaction req.UserID req.CategoryID req.Amount req.Description
          (req.OccurredAt.getD now)]⟩ := by
  cases hocc : req.OccurredAt with
  | none =>
    simp only [hocc, Option.getD_none] at he
    simp [http.CreateTransaction, h1, h2, h3, h4, hocc, he, http.StatusInternalServerError]
  | some t =>
    simp only [hocc, Option.getD_some] at he
    simp [http.CreateTransaction, h1, h2, h3, h4, hocc, he, http.StatusInternalServerError]

/-- The ownership check fails on a category of another user. -/
theorem sample.ownership_fails :
    (db.ValidateCategoryOwnership sample.backend sample.store sample.category2
      sample.user1).value = .error (.new "category does not belong to user") := by
  decide

/-- C3, at the failing input: the first user posts a transaction of amount 10
with a category of the second user. The store returns the error "category does
not belong to user"; the handler answers 500 "Failed to create transaction", a
message in which "does not belong to user" does not occur. -/
theorem CreateTransaction_foreign_category_500 :
    (db.CreateTransaction sample.backend sample.store sample.user1 (some sample.category2)
      (.fin 10 0) none 0).value = .error (.new "category does not belong to user") ∧
    (http.CreateTransaction sample.ext 0 (sample.storeDatabase 0 sample.store)
      (some ⟨sample.user1, some sample.category2, .fin 10 0, none, none⟩)).resp.status
        = 500 ∧
    (http.CreateTransaction sample.ext 0 (sample.storeDatabase 0 sample.store)
      (some ⟨sample.user1, some sample.category2, .fin 10 0, none, none⟩)).resp.message
        = some "Failed to create transaction" ∧
    ¬ ("does not belong to user".data <:+: "Failed to create transaction".data) := by
  have hstore : (db.CreateTransaction sample.backend sample.store sample.user1
      (some sample.category2) (.fin 10 0) none 0).value =
        .error (.new "category does not belong to user") := by
    decide
  have hu : validator.ValidateUUID sample.ext sample.user1 = none := by
    rw [validator.ValidateUUID_eq sample.ext sample.uuidParse_canonical]
    decide
  have hc : validator.ValidateUUID sample.ext sample.category2 = none := by
    rw [validator.ValidateUUID_eq sample.ext sample.uuidParse_canonical]
    decide
  have hresp := http.CreateTransaction_of_store_error sample.ext 0
    (sample.storeDatabase 0 sample.store)
    ⟨sample.user1, some sample.category2, .fin 10 0, none, none⟩
    (.new "category does not belong to user") hu hc (by decide) rfl hstore
  refine ⟨hstore, ?_, ?_, by decide⟩
  · rw [hresp]
    rfl
  · rw [hresp]
    rfl

/-- C4: when a category id is present and `ValidateCategoryOwnership` fails for
it, `CreateTransaction` returns no transaction and an error with the message
"category does not belong to user"; the only statement sent is the ownership
query, no insert, and the store is unchanged. -/
theorem CreateTransaction_ownership_failure (b : db.Backend) (s : db.Store)
    (userID categoryID : String) (amount : Float64) (description : Option String)
    (occurredAt : Time)
    (h : ∃ e, (db.ValidateCategoryOwnership b s categoryID userID).value = .error e) :
    (∃ e, (db.CreateTransaction b s userID (some categoryID) amount description
        occurredAt).value = .error e ∧ e.Error = "category does not belong to user") ∧
    (db.CreateTransaction b s userID (some categoryID) amount description occurredAt).issued
      = [.selectOwnership categoryID userID] ∧
    (∀ st ∈ (db.CreateTransaction b s userID (some categoryID) amount description
        occurredAt).issued, ∀ u c a d o, st ≠ db.Stmt.insertTransaction u c a d o) ∧
    (db.CreateTransaction b s userID (some categoryID) amount description occurredAt).store
      = s := by
  obtain ⟨e, he⟩ := h
  have hissued : (db.ValidateCategoryOwnership b s categoryID userID).issued =
      [.selectOwnership categoryID userID] := rfl
  have hstore : (db.ValidateCategoryOwnership b s categoryID userID).store = s := rfl
  have hval : db.CreateTransaction b s userID (some categoryID) amount description
      occurredAt = ⟨.error (.new "category does not belong to user"),
        (db.ValidateCategoryOwnership b s categoryID userID).store,
        (db.ValidateCategoryOwnership b s categoryID userID).issued⟩ := by
    simp [db.CreateTransaction, he]
  rw [hval, hissued, hstore]
  refine ⟨⟨_, rfl, rfl⟩, rfl, ?_, rfl⟩
  intro st hst u c a d o
  simp only [List.mem_singleton] at hst
  subst hst
  intro hcontra
  cases hcontra

/-- Witness of C4: the first user creates a transaction with a category of the
second user. -/
theorem CreateTransaction_ownership_failure_witness :
    (∃ e, (db.CreateTransaction sample.backend sample.store sample.user1
        (some sample.category2) (.fin 10 0) none 0).value = .error e ∧
      e.Error = "category does not belong to user") ∧
    (db.CreateTransaction sample.backend sample.store sample.user1 (some sample.category2)
      (.fin 10 0) none 0).issued = [.selectOwnership sample.category2 sample.user1] ∧
    (∀ st ∈ (db.CreateTransaction sample.backend sample.store sample.user1
        (some sample.category2) (.fin 10 0) none 0).issued,
      ∀ u c a d o, st ≠ db.Stmt.insertTransaction u c a d o) ∧
    (db.CreateTransaction sample.backend sample.store sample.user1 (some sample.category2)
      (.fin 10 0) none 0).store = sample.store :=
  CreateTransaction_ownership_failure sample.backend sample.store sample.user1
    sample.category2 (.fin 10 0) none 0 ⟨_, sample.ownership_fails⟩

/-! ## Theorems: the summary -/

/-- With both bounds omitted the window is unbounded: the transactions that match
are all the transactions of the user, whatever their date. -/
theorem db.matching_unbounded (s : db.Store) (userID : String) :
    db.matching s userID none none =
      s.transactions.filter (fun t => decide (t.userID = userID)) := by
  unfold db.matching
  apply List.filter_congr
  intro t _
  simp [db.inWindow]

/-- With both bounds omitted the statement of `GetSummary` has the condition on
`user_id` and no condition on `occurred_at`. -/
theorem db.summaryQuery_unbounded (userID : String) :
    db.summaryQuery userID none none =
      { conds := [.userIdEq 1], args := [.text userID], argCount := 1 } := rfl

/-- C1, at the failing input: the user has transactions of 10, 20 and 30 made 45,
20 and 10 days before the call and `from` and `to` are omitted. The statement
sent has no condition on `occurred_at`, and the total of the only row is the sum
of the three amounts, the one of 45 days ago included, although the summary
reports the window of the last 30 days. -/
theorem GetSummary_default_window_unfiltered :
    (db.GetSummary sample.backend sample.now sample.history sample.user1 none none).value =
      .ok { UserID := sample.user1
            From := sample.now - 30 * nanosPerDay
            To := sample.now
            Categories := some [⟨none, "Uncategorized",
              sample.backend.numericToFloat (10 + 20 + 30)⟩] } ∧
    (db.GetSummary sample.backend sample.now sample.history sample.user1 none none).issued =
      [.selectSummary [.userIdEq 1] [.text sample.user1]] ∧
    sample.now - 45 * nanosPerDay < sample.now - 30 * nanosPerDay := by
  refine ⟨?_, rfl, by decide⟩
  have hrows : db.runSummaryQuery sample.history [.userIdEq 1] [.text sample.user1] =
      some [⟨none, "Uncategorized", 10 + 20 + 30⟩] := by
    simp [db.runSummaryQuery, sample.history, db.selectWhere, db.condsHold, db.Cond.holds,
      db.placeholder, db.leftJoin, db.groupKey, db.summaryRowOf]
    norm_num
  simp only [db.GetSummary, db.summaryQuery, hrows]
  simp [sample.backend, db.scanSummaryRows, db.scanSummaryRow, Time.AddDays]
  ring

/-- Among categories with distinct identifiers, the rows with the identifier of
a member are that member alone. -/
theorem db.filter_id_eq (cats : List db.CategoryRow) (h : (cats.map (·.id)).Nodup)
    (c : db.CategoryRow) (hc : c ∈ cats) :
    cats.filter (fun d => decide (d.id = c.id)) = [c] := by
  induction cats with
  | nil => simp at hc
  | cons a rest ih =>
    simp only [List.map_cons, List.nodup_cons, List.mem_map, not_exists, not_and] at h
    rcases List.mem_cons.mp hc with hca | hc2
    · subst hca
      have hrest : rest.filter (fun d => decide (d.id = c.id)) = [] := by
        rw [List.filter_eq_nil_iff]
        intro d hd
        simp only [decide_eq_true_eq]
        intro hdc
        exact h.1 d hd hdc
      simp [List.filter_cons, hrest]
    · have hne : ¬ a.id = c.id := fun hac => h.1 c hc2 hac.symm
      simp [List.filter_cons, hne, ih h.2 hc2]

/-- In a well-formed store the left join yields one row per transaction, and its
grouping key is determined by the `category_id` of the transaction. -/
theorem db.leftJoin_of_wellFormed (s : db.Store) (hwf : s.WellFormed)
    (t : db.TransactionRow) (ht : t ∈ s.transactions) :
    db.leftJoin s.categories t = [(t, db.categoryOf s.categories t.categoryID)] ∧
    db.groupKey (t, db.categoryOf s.categories t.categoryID) =
      db.keyOf s.categories t.categoryID := by
  cases h : t.categoryID with
  | none => simp [db.leftJoin, h, db.categoryOf, db.groupKey, db.keyOf]
  | some cid =>
    obtain ⟨c, hc, hid⟩ := hwf.2 t ht cid h
    subst hid
    have hf := db.filter_id_eq s.categories hwf.1 c hc
    simp [db.leftJoin, h, db.categoryOf, db.groupKey, db.keyOf, hf]

/-- The join of a list of transactions of a well-formed store. -/
theorem db.flatMap_leftJoin (s : db.Store) (hwf : s.WellFormed) (l : List db.TransactionRow)
    (hl : ∀ t ∈ l, t ∈ s.transactions) :
    l.flatMap (db.leftJoin s.categories) =
      l.map (fun t => (t, db.categoryOf s.categories t.categoryID)) := by
  induction l with
  | nil => rfl
  | cons a rest ih =>
    rw [List.flatMap_cons, (db.leftJoin_of_wellFormed s hwf a (hl a (List.mem_cons_self _ _))).1,
      ih (fun t ht => hl t (List.mem_cons_of_mem _ ht))]
    rfl

/-- A `WHERE` clause that is defined on every row selects by filtering. -/
theorem db.selectWhere_eq_filter (conds : List db.Cond) (args : List db.Arg)
    (p : db.TransactionRow → Bool) (h : ∀ t, db.condsHold conds args t = some (p t))
    (l : List db.TransactionRow) : db.selectWhere conds args l = some (l.filter p) := by
  induction l with
  | nil => rfl
  | cons a rest ih =>
    simp only [db.selectWhere, h a, ih, List.filter_cons]
    cases p a <;> rfl

/-- The `WHERE` clause built by `GetSummary` holds on the transactions of the
user inside the window: every placeholder is bound to its argument. -/
theorem db.summaryQuery_holds (userID : String) (fromT toT : Option Time)
    (t : db.TransactionRow) :
    db.condsHold (db.summaryQuery userID fromT toT).conds
      (db.summaryQuery userID fromT toT).args t = some (db.inWindow userID fromT toT t) := by
  cases fromT <;> cases toT <;>
    simp [db.summaryQuery, db.QueryBuilder.add, db.condsHold, db.Cond.holds, db.placeholder,
      db.inWindow, Bool.and_assoc]

/-- The loop over the rows of the summary query appends the scan of every row. -/
theorem db.scanSummaryRows_getD (b : db.Backend) (rows : List db.SummaryRow) :
    (db.scanSummaryRows b rows).getD [] = rows.map (db.scanSummaryRow b) := by
  have hgen : ∀ (l : List db.SummaryRow) (acc : Option (List models.CategorySummary)),
      (l.foldl (fun acc r => some (acc.getD [] ++ [db.scanSummaryRow b r])) acc).getD [] =
        acc.getD [] ++ l.map (db.scanSummaryRow b) := by
    intro l
    induction l with
    | nil => intro acc; simp
    | cons a rest ih =>
      intro acc
      rw [List.foldl_cons, ih]
      simp
  simpa [db.scanSummaryRows] using hgen rows none

/-- The grouping keys of the transactions of a well-formed store. -/
theorem db.map_groupKey_joinedOf (s : db.Store) (hwf : s.WellFormed)
    (l : List db.TransactionRow) (hl : ∀ t ∈ l, t ∈ s.transactions) :
    (db.joinedOf s.categories l).map db.groupKey =
      l.map (fun t => db.keyOf s.categories t.categoryID) := by
  unfold db.joinedOf
  rw [List.map_map]
  apply List.map_congr_left
  intro t ht
  exact (db.leftJoin_of_wellFormed s hwf t (hl t ht)).2

/-- The rows of the groups: one per `category_id` that occurs, with the name of
its category (or "Uncategorized") and the sum of the amounts of its transactions. -/
theorem db.groupRows_spec (s : db.Store) (hwf : s.WellFormed)
    (l : List db.TransactionRow) (hl : ∀ t ∈ l, t ∈ s.transactions) :
    ((db.groupRows s.categories l).map (·.categoryID)).Nodup ∧
    (∀ o, o ∈ (db.groupRows s.categories l).map (·.categoryID) ↔
      ∃ t ∈ l, t.categoryID = o) ∧
    (∀ r ∈ db.groupRows s.categories l, r.categoryName =
      ((db.categoryOf s.categories r.categoryID).map (·.name)).getD "Uncategorized") ∧
    (∀ r ∈ db.groupRows s.categories l, r.total =
      ((l.filter (fun t => decide (t.categoryID = r.categoryID))).map (·.amount)).sum) := by
  have hkeys := db.map_groupKey_joinedOf s hwf l hl
  have hK : ∀ k ∈ ((db.joinedOf s.categories l).map db.groupKey).dedup,
      ∃ t ∈ l, k = db.keyOf s.categories t.categoryID := by
    intro k hk
    rw [List.mem_dedup, hkeys, List.mem_map] at hk
    obtain ⟨t, ht, rfl⟩ := hk
    exact ⟨t, ht, rfl⟩
  have hfst : (db.groupRows s.categories l).map (·.categoryID) =
      (((db.joinedOf s.categories l).map db.groupKey).dedup).map Prod.fst := by
    unfold db.groupRows
    rw [List.map_map]
    rfl
  refine ⟨?_, ?_, ?_, ?_⟩
  · rw [hfst]
    refine List.Nodup.map_on ?_ (List.nodup_dedup _)
    intro k1 hk1 k2 hk2 h12
    obtain ⟨t1, _, rfl⟩ := hK k1 hk1
    obtain ⟨t2, _, rfl⟩ := hK k2 hk2
    have : t1.categoryID = t2.categoryID := h12
    rw [this]
  · intro o
    rw [hfst, List.mem_map]
    constructor
    · rintro ⟨k, hk, rfl⟩
      obtain ⟨t, ht, rfl⟩ := hK k hk
      exact ⟨t, ht, rfl⟩
    · rintro ⟨t, ht, rfl⟩
      refine ⟨db.keyOf s.categories t.categoryID, ?_, rfl⟩
      rw [List.mem_dedup, hkeys]
      exact List.mem_map_of_mem _ ht
  · intro r hr
    unfold db.groupRows at hr
    obtain ⟨k, hk, rfl⟩ := List.mem_map.mp hr
    obtain ⟨t, _, rfl⟩ := hK k hk
    rfl
  · intro r hr
    unfold db.groupRows at hr
    obtain ⟨k, hk, rfl⟩ := List.mem_map.mp hr
    obtain ⟨t0, _, rfl⟩ := hK k hk
    show (((db.joinedOf s.categories l).filter
      (fun r => decide (db.groupKey r = db.keyOf s.categories t0.categoryID))).map
        (fun r => r.1.amount)).sum = _
    have hfilter : (db.joinedOf s.categories l).filter
        (fun r => decide (db.groupKey r = db.keyOf s.categories t0.categoryID)) =
        (l.filter (fun t => decide (t.categoryID = t0.categoryID))).map
          (fun t => (t, db.categoryOf s.categories t.categoryID)) := by
      unfold db.joinedOf
      rw [List.filter_map]
      congr 1
      apply List.filter_congr
      intro t ht
      have hk := (db.leftJoin_of_wellFormed s hwf t (hl t ht)).2
      simp only [Function.comp_apply, hk]
      by_cases hc : t.categoryID = t0.categoryID
      · simp [hc]
      · have : db.keyOf s.categories t.categoryID ≠ db.keyOf s.categories t0.categoryID :=
          fun h => hc (congrArg Prod.fst h)
        simp [hc, this]
    rw [hfilter, List.map_map]
    rfl

/-- The rows of the summary query on a well-formed store: the rows of the groups
of the matching transactions, ordered by name. -/
theorem db.runSummaryQuery_of_wellFormed (s : db.Store) (hwf : s.WellFormed)
    (userID : String) (fromT toT : Option Time) :
    db.runSummaryQuery s (db.summaryQuery userID fromT toT).conds
      (db.summaryQuery userID fromT toT).args =
      some ((db.groupRows s.categories (db.matching s userID fromT toT)).insertionSort
        db.nameLe) := by
  have hsel := db.selectWhere_eq_filter _ _ _ (db.summaryQuery_holds userID fromT toT)
    s.transactions
  have hM : ∀ t ∈ db.matching s userID fromT toT, t ∈ s.transactions :=
    fun t ht => (List.mem_filter.mp ht).1
  have hjoin := db.flatMap_leftJoin s hwf (db.matching s userID fromT toT) hM
  unfold db.runSummaryQuery
  rw [hsel]
  show some ((((s.transactions.filter (db.inWindow userID fromT toT)).flatMap
    (db.leftJoin s.categories)).map db.groupKey).dedup.map _ |>.insertionSort db.nameLe) = _
  unfold db.matching at hjoin
  rw [hjoin]
  rfl

/-- The rows `GetSummary` returns when the query does not fail. -/
theorem db.summaryRows_GetSummary (b : db.Backend) (now : Time) (s : db.Store)
    (hwf : s.WellFormed) (userID : String) (fromT toT : Option Time)
    (hok : b.fault (.selectSummary (db.summaryQuery userID fromT toT).conds
      (db.summaryQuery userID fromT toT).args) = none) :
    (∃ sm, (db.GetSummary b now s userID fromT toT).value = .ok sm) ∧
    db.summaryRows (db.GetSummary b now s userID fromT toT) =
      ((db.groupRows s.categories (db.matching s userID fromT toT)).insertionSort
        db.nameLe).map (db.scanSummaryRow b) := by
  have hrows := db.runSummaryQuery_of_wellFormed s hwf userID fromT toT
  constructor
  · simp only [db.GetSummary, hok, hrows]
    exact ⟨_, rfl⟩
  · simp only [db.summaryRows, db.GetSummary, hok, hrows]
    exact db.scanSummaryRows_getD b _

/-- C2: on a store whose keys hold, when the query does not fail, `GetSummary`
returns one row per distinct `category_id` among the transactions of the user
that match the window and no other row; the row of the null `category_id` is
named "Uncategorized" and the row of a category has its name; the total of a row
is the sum of the amounts of its group, converted to float64; the rows are in
ascending order of `category_name`. -/
theorem GetSummary_one_row_per_category (b : db.Backend) (now : Time) (s : db.Store)
    (userID : String) (fromT toT : Option Time) (hwf : s.WellFormed)
    (hok : b.fault (.selectSummary (db.summaryQuery userID fromT toT).conds
      (db.summaryQuery userID fromT toT).args) = none) :
    (∃ sm, (db.GetSummary b now s userID fromT toT).value = .ok sm) ∧
    ((db.summaryRows (db.GetSummary b now s userID fromT toT)).map (·.CategoryID)).Nodup ∧
    (∀ o, o ∈ (db.summaryRows (db.GetSummary b now s userID fromT toT)).map (·.CategoryID) ↔
      ∃ t ∈ db.matching s userID fromT toT, t.categoryID = o) ∧
    (∀ r ∈ db.summaryRows (db.GetSummary b now s userID fromT toT),
      r.CategoryID = none → r.CategoryName = "Uncategorized") ∧
    (∀ r ∈ db.summaryRows (db.GetSummary b now s userID fromT toT),
      ∀ cid, r.CategoryID = some cid →
        ∃ c ∈ s.categories, c.id = cid ∧ r.CategoryName = c.name) ∧
    (∀ r ∈ db.summaryRows (db.GetSummary b now s userID fromT toT),
      r.Total = b.numericToFloat
        (((db.matching s userID fromT toT).filter
          (fun t => decide (t.categoryID = r.CategoryID))).map (·.amount)).sum) ∧
    ((db.summaryRows (db.GetSummary b now s userID fromT toT)).map
      (·.CategoryName)).Pairwise (· ≤ ·) := by
  obtain ⟨hval, hrows⟩ := db.summaryRows_GetSummary b now s hwf userID fromT toT hok
  have hM : ∀ t ∈ db.matching s userID fromT toT, t ∈ s.transactions :=
    fun t ht => (List.mem_filter.mp ht).1
  obtain ⟨hnodup, hmem, hname, htotal⟩ :=
    db.groupRows_spec s hwf (db.matching s userID fromT toT) hM
  have hperm := List.perm_insertionSort db.nameLe
    (db.groupRows s.categories (db.matching s userID fromT toT))
  have hids : (db.summaryRows (db.GetSummary b now s userID fromT toT)).map (·.CategoryID) =
      ((db.groupRows s.categories (db.matching s userID fromT toT)).insertionSort
        db.nameLe).map (·.categoryID) := by
    rw [hrows, List.map_map]
    rfl
  have hrow : ∀ r ∈ db.summaryRows (db.GetSummary b now s userID fromT toT),
      ∃ r0 ∈ db.groupRows s.categories (db.matching s userID fromT toT),
        r = db.scanSummaryRow b r0 := by
    intro r hr
    rw [hrows] at hr
    obtain ⟨r0, hr0, rfl⟩ := List.mem_map.mp hr
    exact ⟨r0, hperm.mem_iff.mp hr0, rfl⟩
  refine ⟨hval, ?_, ?_, ?_, ?_, ?_, ?_⟩
  · rw [hids]
    exact (hperm.map _).nodup_iff.mpr hnodup
  · intro o
    rw [hids, (hperm.map _).mem_iff]
    exact hmem o
  · intro r hr hnone
    obtain ⟨r0, hr0, rfl⟩ := hrow r hr
    have h0 : r0.categoryID = none := hnone
    have := hname r0 hr0
    rw [h0] at this
    exact this
  · intro r hr cid hsome
    obtain ⟨r0, hr0, rfl⟩ := hrow r hr
    have h0 : r0.categoryID = some cid := hsome
    obtain ⟨t, ht, htc⟩ := (hmem (some cid)).mp
      (List.mem_map.mpr ⟨r0, hr0, h0⟩)
    obtain ⟨c, hc, hcid⟩ := hwf.2 t (hM t ht) cid htc
    refine ⟨c, hc, hcid, ?_⟩
    have hn := hname r0 hr0
    rw [h0] at hn
    subst hcid
    have hf := db.filter_id_eq s.categories hwf.1 c hc
    show r0.categoryName = c.name
    rw [hn]
    simp [db.categoryOf, hf]
  · intro r hr
    obtain ⟨r0, hr0, rfl⟩ := hrow r hr
    show b.numericToFloat r0.total = _
    rw [htotal r0 hr0]
    rfl
  · have htot : IsTotal db.SummaryRow db.nameLe :=
      ⟨fun a b => le_total a.categoryName b.categoryName⟩
    have htrans : IsTrans db.SummaryRow db.nameLe :=
      ⟨fun a b c hab hbc => le_trans (a := a.categoryName) hab hbc⟩
    have hsorted := @List.sorted_insertionSort _ db.nameLe _ htot htrans
      (db.groupRows s.categories (db.matching s userID fromT toT))
    rw [hrows, List.map_map, List.pairwise_map]
    exact hsorted

/-- The store of the scenario is well formed. -/
theorem sample.ledger_wellFormed : sample.ledger.WellFormed := by
  refine ⟨by decide, ?_⟩
  intro t ht cid h
  simp only [sample.ledger, List.mem_cons, List.mem_singleton, List.not_mem_nil, or_false] at ht
  rcases ht with rfl | rfl | rfl | rfl | rfl <;>
    simp only [Option.some.injEq, reduceCtorEq] at h <;>
    subst h <;> simp [sample.ledger]

/-- Witness of C2: the scenario of the specification. -/
theorem GetSummary_one_row_per_category_witness :
    (∃ sm, (db.GetSummary sample.backend sample.now sample.ledger sample.user1
      none none).value = .ok sm) ∧
    ((db.summaryRows (db.GetSummary sample.backend sample.now sample.ledger sample.user1
      none none)).map (·.CategoryID)).Nodup ∧
    (∀ o, o ∈ (db.summaryRows (db.GetSummary sample.backend sample.now sample.ledger
        sample.user1 none none)).map (·.CategoryID) ↔
      ∃ t ∈ db.matching sample.ledger sample.user1 none none, t.categoryID = o) ∧
    (∀ r ∈ db.summaryRows (db.GetSummary sample.backend sample.now sample.ledger
        sample.user1 none none),
      r.CategoryID = none → r.CategoryName = "Uncategorized") ∧
    (∀ r ∈ db.summaryRows (db.GetSummary sample.backend sample.now sample.ledger
        sample.user1 none none),
      ∀ cid, r.CategoryID = some cid →
        ∃ c ∈ sample.ledger.categories, c.id = cid ∧ r.CategoryName = c.name) ∧
    (∀ r ∈ db.summaryRows (db.GetSummary sample.backend sample.now sample.ledger
        sample.user1 none none),
      r.Total = sample.backend.numericToFloat
        (((db.matching sample.ledger sample.user1 none none).filter
          (fun t => decide (t.categoryID = r.CategoryID))).map (·.amount)).sum) ∧
    ((db.summaryRows (db.GetSummary sample.backend sample.now sample.ledger sample.user1
      none none)).map (·.CategoryName)).Pairwise (· ≤ ·) :=
  GetSummary_one_row_per_category sample.backend sample.now sample.ledger sample.user1
    none none sample.ledger_wellFormed rfl

/-- The rows of the scenario of the specification: "Food" 30, "Transport" 30 and
"Uncategorized" 15, in this order. -/
theorem sample.ledger_summary :
    db.summaryRows (db.GetSummary sample.backend sample.now sample.ledger sample.user1
      none none) =
      [⟨some sample.food, "Food", sample.backend.numericToFloat 30⟩,
       ⟨some sample.transport, "Transport", sample.backend.numericToFloat 30⟩,
       ⟨none, "Uncategorized", sample.backend.numericToFloat 15⟩] := by
  rw [(db.summaryRows_GetSummary sample.backend sample.now sample.ledger
    sample.ledger_wellFormed sample.user1 none none rfl).2]
  have hjoined : db.joinedOf sample.ledger.categories
      (db.matching sample.ledger sample.user1 none none) =
      [(⟨"t1", sample.user1, some sample.transport, 30, none,
          sample.now - 3 * nanosPerDay, sample.now⟩,
          some ⟨sample.transport, sample.user1, "Transport", 0⟩),
       (⟨"t2", sample.user1, some sample.food, 10, none,
          sample.now - 2 * nanosPerDay, sample.now⟩,
          some ⟨sample.food, sample.user1, "Food", 0⟩),
       (⟨"t3", sample.user1, none, 15, none, sample.now - 2 * nanosPerDay, sample.now⟩, none),
       (⟨"t5", sample.user1, some sample.food, 20, none,
          sample.now - 1 * nanosPerDay, sample.now⟩,
          some ⟨sample.food, sample.user1, "Food", 0⟩)] := by
    decide
  have hkeys : ((db.joinedOf sample.ledger.categories
      (db.matching sample.ledger sample.user1 none none)).map db.groupKey).dedup =
      [(some sample.transport, some "Transport"), (none, none),
       (some sample.food, some "Food")] := by
    decide
  have hrows : db.groupRows sample.ledger.categories
      (db.matching sample.ledger sample.user1 none none) =
      [⟨some sample.transport, "Transport", 30⟩, ⟨none, "Uncategorized", 15⟩,
       ⟨some sample.food, "Food", 10 + 20⟩] := by
    unfold db.groupRows
    rw [hkeys, hjoined]
    simp [db.summaryRowOf, db.groupKey, sample.food, sample.transport]
  rw [hrows]
  have h1 : ¬ (("Transport" : String) ≤ "Food") := by
    rw [String.le_iff_toList_le]
    decide
  have h2 : ("Transport" : String) ≤ "Uncategorized" := by
    rw [String.le_iff_toList_le]
    decide
  have h3 : ¬ (("Uncategorized" : String) ≤ "Food") := by
    rw [String.le_iff_toList_le]
    decide
  simp only [List.insertionSort, List.orderedInsert, db.nameLe, h1, h2, h3, if_true,
    if_false, List.map, db.scanSummaryRow]
  norm_num

/-! ## Theorems: ownership of a category -/

/-- The ownership query finds a row exactly when a category has the identifier
and the owner. -/
theorem db.ownershipQueryError_eq (b : db.Backend) (s : db.Store) (categoryID userID : String)
    (hfault : b.fault (.selectOwnership categoryID userID) = none) :
    db.ownershipQueryError b s categoryID userID =
      if ∃ c ∈ s.categories, c.id = categoryID ∧ c.userID = userID then b.scanOwnership
      else some .noRows := by
  unfold db.ownershipQueryError
  rw [hfault]
  simp only [List.any_eq_true, decide_eq_true_eq]

/-- When the ownership query finds no row, whether because no category has the
identifier or because it has another owner, the error is the same. -/
theorem db.ValidateCategoryOwnership_no_row (b : db.Backend) (s : db.Store)
    (categoryID userID : String)
    (hfault : b.fault (.selectOwnership categoryID userID) = none)
    (hno : ¬ ∃ c ∈ s.categories, c.id = categoryID ∧ c.userID = userID) :
    (db.ValidateCategoryOwnership b s categoryID userID).value =
      .error (.new "category does not belong to user") := by
  simp only [db.ValidateCategoryOwnership, db.ownershipQueryError_eq b s categoryID userID hfault,
    if_neg hno, if_true]

/-- C11: when the query does not fail and the driver scans the row found,
`ValidateCategoryOwnership` returns no error for a category with the given id
owned by the given user; and on two stores, one without a category of that id
and one with that category under another owner, it returns the same error, with
the message "category does not belong to user". -/
theorem ValidateCategoryOwnership_indistinguishable (b : db.Backend)
    (categoryID userID : String)
    (hfault : b.fault (.selectOwnership categoryID userID) = none)
    (hscan : b.scanOwnership = none) :
    (∀ s : db.Store, (∃ c ∈ s.categories, c.id = categoryID ∧ c.userID = userID) →
      (db.ValidateCategoryOwnership b s categoryID userID).value = .ok ()) ∧
    (∀ s1 s2 : db.Store,
      (∀ c ∈ s1.categories, c.id ≠ categoryID) →
      (s2.categories.map (·.id)).Nodup →
      (∃ c ∈ s2.categories, c.id = categoryID ∧ c.userID ≠ userID) →
      (db.ValidateCategoryOwnership b s1 categoryID userID).value =
        (db.ValidateCategoryOwnership b s2 categoryID userID).value ∧
      (db.ValidateCategoryOwnership b s1 categoryID userID).value =
        .error (.new "category does not belong to user") ∧
      ∃ e, (db.ValidateCategoryOwnership b s2 categoryID userID).value = .error e ∧
        e.Error = "category does not belong to user") := by
  refine ⟨?_, ?_⟩
  · intro s hs
    simp only [db.ValidateCategoryOwnership,
      db.ownershipQueryError_eq b s categoryID userID hfault, if_pos hs, hscan]
  · intro s1 s2 h1 hnodup h2
    have hno1 : ¬ ∃ c ∈ s1.categories, c.id = categoryID ∧ c.userID = userID := by
      rintro ⟨c, hc, hid, _⟩
      exact h1 c hc hid
    have hno2 : ¬ ∃ c ∈ s2.categories, c.id = categoryID ∧ c.userID = userID := by
      rintro ⟨c, hc, hid, hu⟩
      obtain ⟨d, hd, hdid, hdu⟩ := h2
      have hcd : c = d := by
        have hf := db.filter_id_eq s2.categories hnodup d hd
        have hmem : c ∈ s2.categories.filter (fun e => decide (e.id = d.id)) := by
          rw [List.mem_filter]
          exact ⟨hc, by simp [hid, hdid]⟩
        rw [hf] at hmem
        exact List.mem_singleton.mp hmem
      subst hcd
      exact hdu hu
    have e1 := db.ValidateCategoryOwnership_no_row b s1 categoryID userID hfault hno1
    have e2 := db.ValidateCategoryOwnership_no_row b s2 categoryID userID hfault hno2
    exact ⟨e1.trans e2.symm, e1, _, e2, rfl⟩

/-- Witness of C11: the first user owns no category, the second owns
`category2`; an identifier that does not exist and `category2` are refused alike
for the first user, and `category2` is accepted for the second. -/
theorem ValidateCategoryOwnership_indistinguishable_witness :
    (db.ValidateCategoryOwnership sample.backend sample.store sample.category2
      sample.user2).value = .ok () ∧
    (db.ValidateCategoryOwnership sample.backend sample.history sample.category2
      sample.user1).value =
      (db.ValidateCategoryOwnership sample.backend sample.store sample.category2
        sample.user1).value :=
  ⟨(ValidateCategoryOwnership_indistinguishable sample.backend sample.category2 sample.user2
      rfl rfl).1 sample.store ⟨⟨sample.category2, sample.user2, "Private Category", 0⟩,
        by simp [sample.store], rfl, rfl⟩,
   ((ValidateCategoryOwnership_indistinguishable sample.backend sample.category2 sample.user1
      rfl rfl).2 sample.history sample.store (by simp [sample.history]) (by decide)
      ⟨⟨sample.category2, sample.user2, "Private Category", 0⟩, by simp [sample.store],
        rfl, by decide⟩).1⟩

/-! ## Theorems: the window and the rows a summary reports -/

/-- When the query does not fail `GetSummary` succeeds: it returns the user, the
bounds given or else the defaults computed from the clock, and the scanned rows
of the query. -/
theorem db.GetSummary_value (b : db.Backend) (now : Time) (s : db.Store) (userID : String)
    (fromT toT : Option Time)
    (hok : b.fault (.selectSummary (db.summaryQuery userID fromT toT).conds
      (db.summaryQuery userID fromT toT).args) = none) :
    ∃ rows, db.runSummaryQuery s (db.summaryQuery userID fromT toT).conds
        (db.summaryQuery userID fromT toT).args = some rows ∧
      (db.GetSummary b now s userID fromT toT).value =
        .ok { UserID := userID
              From := fromT.getD (now - 30 * nanosPerDay)
              To := toT.getD now
              Categories := db.scanSummaryRows b rows } := by
  have hsel := db.selectWhere_eq_filter _ _ _ (db.summaryQuery_holds userID fromT toT)
    s.transactions
  have hrun : ∃ rows, db.runSummaryQuery s (db.summaryQuery userID fromT toT).conds
      (db.summaryQuery userID fromT toT).args = some rows := by
    unfold db.runSummaryQuery
    rw [hsel]
    exact ⟨_, rfl⟩
  obtain ⟨rows, hrows⟩ := hrun
  refine ⟨rows, hrows, ?_⟩
  have hfrom : Time.AddDays now (-30) = now - 30 * nanosPerDay := by
    unfold Time.AddDays
    ring
  simp only [db.GetSummary, hok, hrows, hfrom]
  cases fromT <;> cases toT <;> rfl

/-- C13: a successful `GetSummary` call with both `from` and `to` supplied
returns a summary whose `From` is the supplied `from`, whose `To` is the supplied
`to` and whose `UserID` is the supplied user id. -/
theorem GetSummary_echoes_supplied_window (b : db.Backend) (now : Time) (s : db.Store)
    (userID : String) (f t : Time) (sm : models.Summary)
    (h : (db.GetSummary b now s userID (some f) (some t)).value = .ok sm) :
    sm.From = f ∧ sm.To = t ∧ sm.UserID = userID := by
  cases hfault : b.fault (.selectSummary (db.summaryQuery userID (some f) (some t)).conds
      (db.summaryQuery userID (some f) (some t)).args) with
  | some e =>
    simp only [db.GetSummary, hfault] at h
    cases h
  | none =>
    obtain ⟨rows, _, hval⟩ := db.GetSummary_value b now s userID (some f) (some t) hfault
    rw [hval] at h
    cases h
    exact ⟨rfl, rfl, rfl⟩

/-- Witness of C13: a window of the test store. -/
theorem GetSummary_echoes_supplied_window_witness :
    ∃ sm, (db.GetSummary sample.backend sample.now sample.history sample.user1
        (some (sample.now - 25 * nanosPerDay)) (some (sample.now - 15 * nanosPerDay))).value
          = .ok sm ∧
      sm.From = sample.now - 25 * nanosPerDay ∧ sm.To = sample.now - 15 * nanosPerDay ∧
      sm.UserID = sample.user1 := by
  obtain ⟨rows, _, hval⟩ := db.GetSummary_value sample.backend sample.now sample.history
    sample.user1 (some (sample.now - 25 * nanosPerDay))
    (some (sample.now - 15 * nanosPerDay)) rfl
  exact ⟨_, hval, GetSummary_echoes_supplied_window sample.backend sample.now sample.history
    sample.user1 _ _ _ hval⟩

/-- C14: when exactly one of `from` and `to` is supplied and the query does not
fail, the statement of `GetSummary` has the condition on `user_id` and the
condition on the supplied bound only, so it selects the transactions of the user
on that side of the bound, whatever their distance; the summary echoes the
supplied bound and, for the missing one, the default: `From` is `now` minus 30
days when `from` is missing, `To` is `now` when `to` is missing. -/
theorem GetSummary_single_bound (b : db.Backend) (now : Time) (s : db.Store)
    (userID : String) (bound : Time)
    (hF : b.fault (.selectSummary [.userIdEq 1, .occurredGe 2]
      [.text userID, .timestamp bound]) = none)
    (hT : b.fault (.selectSummary [.userIdEq 1, .occurredLe 2]
      [.text userID, .timestamp bound]) = none) :
    ((db.GetSummary b now s userID (some bound) none).issued =
        [.selectSummary [.userIdEq 1, .occurredGe 2] [.text userID, .timestamp bound]] ∧
      db.selectWhere [.userIdEq 1, .occurredGe 2] [.text userID, .timestamp bound]
        s.transactions = some (s.transactions.filter
          (fun t => decide (t.userID = userID ∧ bound ≤ t.occurredAt))) ∧
      ∃ cats, (db.GetSummary b now s userID (some bound) none).value =
        .ok { UserID := userID, From := bound, To := now, Categories := cats }) ∧
    ((db.GetSummary b now s userID none (some bound)).issued =
        [.selectSummary [.userIdEq 1, .occurredLe 2] [.text userID, .timestamp bound]] ∧
      db.selectWhere [.userIdEq 1, .occurredLe 2] [.text userID, .timestamp bound]
        s.transactions = some (s.transactions.filter
          (fun t => decide (t.userID = userID ∧ t.occurredAt ≤ bound))) ∧
      ∃ cats, (db.GetSummary b now s userID none (some bound)).value =
        .ok { UserID := userID, From := now - 30 * nanosPerDay, To := bound,
              Categories := cats }) := by
  refine ⟨⟨rfl, ?_, ?_⟩, ⟨rfl, ?_, ?_⟩⟩
  · have h := db.selectWhere_eq_filter _ _ _
      (db.summaryQuery_holds userID (some bound) none) s.transactions
    rw [show (db.summaryQuery userID (some bound) none).conds =
        [.userIdEq 1, .occurredGe 2] from rfl,
      show (db.summaryQuery userID (some bound) none).args =
        [.text userID, .timestamp bound] from rfl] at h
    rw [h]
    congr 1
    apply List.filter_congr
    intro t _
    simp [db.inWindow]
  · obtain ⟨rows, _, hval⟩ := db.GetSummary_value b now s userID (some bound) none hF
    exact ⟨_, hval⟩
  · have h := db.selectWhere_eq_filter _ _ _
      (db.summaryQuery_holds userID none (some bound)) s.transactions
    rw [show (db.summaryQuery userID none (some bound)).conds =
        [.userIdEq 1, .occurredLe 2] from rfl,
      show (db.summaryQuery userID none (some bound)).args =
        [.text userID, .timestamp bound] from rfl] at h
    rw [h]
    congr 1
    apply List.filter_congr
    intro t _
    simp [db.inWindow]
  · obtain ⟨rows, _, hval⟩ := db.GetSummary_value b now s userID none (some bound) hT
    exact ⟨_, hval⟩

/-- Witness of C14: the test store and a bound 25 days before the call. -/
theorem GetSummary_single_bound_witness :
    ((db.GetSummary sample.backend sample.now sample.history sample.user1
        (some (sample.now - 25 * nanosPerDay)) none).issued =
        [.selectSummary [.userIdEq 1, .occurredGe 2]
          [.text sample.user1, .timestamp (sample.now - 25 * nanosPerDay)]] ∧
      db.selectWhere [.userIdEq 1, .occurredGe 2]
        [.text sample.user1, .timestamp (sample.now - 25 * nanosPerDay)]
        sample.history.transactions = some (sample.history.transactions.filter
          (fun t => decide (t.userID = sample.user1 ∧
            sample.now - 25 * nanosPerDay ≤ t.occurredAt))) ∧
      ∃ cats, (db.GetSummary sample.backend sample.now sample.history sample.user1
          (some (sample.now - 25 * nanosPerDay)) none).value =
        .ok { UserID := sample.user1, From := sample.now - 25 * nanosPerDay,
              To := sample.now, Categories := cats }) ∧
    ((db.GetSummary sample.backend sample.now sample.history sample.user1 none
        (some (sample.now - 25 * nanosPerDay))).issued =
        [.selectSummary [.userIdEq 1, .occurredLe 2]
          [.text sample.user1, .timestamp (sample.now - 25 * nanosPerDay)]] ∧
      db.selectWhere [.userIdEq 1, .occurredLe 2]
        [.text sample.user1, .timestamp (sample.now - 25 * nanosPerDay)]
        sample.history.transactions = some (sample.history.transactions.filter
          (fun t => decide (t.userID = sample.user1 ∧
            t.occurredAt ≤ sample.now - 25 * nanosPerDay))) ∧
      ∃ cats, (db.GetSummary sample.backend sample.now sample.history sample.user1 none
          (some (sample.now - 25 * nanosPerDay))).value =
        .ok { UserID := sample.user1, From := sample.now - 30 * nanosPerDay,
              To := sample.now - 25 * nanosPerDay, Categories := cats }) :=
  GetSummary_single_bound sample.backend sample.now sample.history sample.user1
    (sample.now - 25 * nanosPerDay) rfl rfl

/-- Without a matching transaction the query has no row and the slice
`categories` of `GetSummary` stays nil. -/
theorem db.GetSummary_no_match (b : db.Backend) (now : Time) (s : db.Store) (userID : String)
    (fromT toT : Option Time)
    (hok : b.fault (.selectSummary (db.summaryQuery userID fromT toT).conds
      (db.summaryQuery userID fromT toT).args) = none)
    (hnone : db.matching s userID fromT toT = []) :
    (db.GetSummary b now s userID fromT toT).value =
      .ok { UserID := userID
            From := fromT.getD (now - 30 * nanosPerDay)
            To := toT.getD now
            Categories := none } := by
  obtain ⟨rows, hrows, hval⟩ := db.GetSummary_value b now s userID fromT toT hok
  have hsel := db.selectWhere_eq_filter _ _ _ (db.summaryQuery_holds userID fromT toT)
    s.transactions
  have hempty : rows = [] := by
    unfold db.runSummaryQuery at hrows
    rw [hsel] at hrows
    unfold db.matching at hnone
    simp only [hnone, List.flatMap_nil, List.map_nil, List.dedup_nil, List.insertionSort,
      Option.some.injEq] at hrows
    exact hrows.symm
  rw [hval, hempty]
  rfl

/-- C15, at the failing input: a user without transactions asks for the summary.
`GetSummary` succeeds with a nil `Categories`, not an empty list, and the handler
answers 200 with a body whose `"categories"` is the JSON `null`, not an array. -/
theorem GetSummary_empty_is_nil :
    (db.GetSummary sample.backend sample.now sample.store sample.user1 none none).value =
      .ok { UserID := sample.user1, From := sample.now - 30 * nanosPerDay,
            To := sample.now, Categories := none } ∧
    (http.GetSummary sample.ext (sample.storeDatabase sample.now sample.store)
      ⟨sample.user1, "", ""⟩).resp.status = 200 ∧
    (http.GetSummary sample.ext (sample.storeDatabase sample.now sample.store)
      ⟨sample.user1, "", ""⟩).resp.categoriesJSON = some .null ∧
    (http.GetSummary sample.ext (sample.storeDatabase sample.now sample.store)
      ⟨sample.user1, "", ""⟩).resp.categoriesJSON ≠ some (.array 0) := by
  have hval := db.GetSummary_no_match sample.backend sample.now sample.store sample.user1
    none none rfl rfl
  have hu : validator.ValidateUUID sample.ext sample.user1 = none := by
    rw [validator.ValidateUUID_eq sample.ext sample.uuidParse_canonical]
    decide
  have hne : sample.user1 ≠ "" := by decide
  have hwin : http.parseWindow sample.ext ⟨sample.user1, "", ""⟩ = .ok (none, none) := by
    simp [http.parseWindow, hne, hu, http.parseBound, validator.ValidateDateRange]
  have hresp : http.GetSummary sample.ext (sample.storeDatabase sample.now sample.store)
      ⟨sample.user1, "", ""⟩ =
      ⟨http.respondWithJSON http.StatusOK (.summary
        { UserID := sample.user1, From := sample.now - 30 * nanosPerDay,
          To := sample.now, Categories := none }),
        [.GetSummary sample.user1 none none]⟩ := by
    simp only [http.GetSummary, hwin]
    simp only [sample.storeDatabase, hval]
    rfl
  refine ⟨hval, ?_, ?_, ?_⟩
  · rw [hresp]
    rfl
  · rw [hresp]
    rfl
  · rw [hresp]
    decide

/-! ## Theorems: the list of transactions -/

/-- Among categories with distinct identifiers, the left join yields one row per
transaction, with the category of its `category_id` if there is one. -/
theorem db.leftJoin_of_nodup (cats : List db.CategoryRow) (h : (cats.map (·.id)).Nodup)
    (t : db.TransactionRow) :
    db.leftJoin cats t = [(t, db.categoryOf cats t.categoryID)] := by
  cases hc : t.categoryID with
  | none => simp [db.leftJoin, hc, db.categoryOf]
  | some cid =>
    cases hf : cats.filter (fun c => decide (c.id = cid)) with
    | nil => simp [db.leftJoin, hc, db.categoryOf, hf]
    | cons c cs =>
      have hmem : c ∈ cats.filter (fun c => decide (c.id = cid)) := by
        rw [hf]
        exact List.mem_cons_self _ _
      obtain ⟨hcm, hcid⟩ := List.mem_filter.mp hmem
      have hcid2 : c.id = cid := by simpa using hcid
      have hone := db.filter_id_eq cats h c hcm
      rw [hcid2, hf] at hone
      have hcs : cs = [] := by
        have := congrArg List.tail hone
        simpa using this
      subst hcs
      simp [db.leftJoin, hc, db.categoryOf, hf]

/-- The joined rows of a list of transactions, among categories with distinct
identifiers. -/
theorem db.flatMap_leftJoin_of_nodup (cats : List db.CategoryRow)
    (h : (cats.map (·.id)).Nodup) (l : List db.TransactionRow) :
    l.flatMap (db.leftJoin cats) = db.joinedOf cats l := by
  induction l with
  | nil => rfl
  | cons a rest ih =>
    rw [List.flatMap_cons, db.leftJoin_of_nodup cats h a, ih]
    rfl

/-- The `WHERE` clause built by `ListTransactions` holds on the transactions of
the user inside the window: every placeholder is bound to its argument. -/
theorem db.transactionsQuery_holds (userID : String) (fromT toT : Option Time)
    (t : db.TransactionRow) :
    db.condsHold (db.transactionsQuery userID fromT toT).conds
      (db.transactionsQuery userID fromT toT).args t =
        some (db.inWindow userID fromT toT t) := by
  cases fromT <;> cases toT <;>
    simp [db.transactionsQuery, db.QueryBuilder.add, db.condsHold, db.Cond.holds,
      db.placeholder, db.inWindow, Bool.and_assoc]

/-- The loop over the rows of the list query appends the scan of every row. -/
theorem db.scanTransactionRows_getD (b : db.Backend)
    (rows : List (db.TransactionRow × Option db.CategoryRow)) :
    (db.scanTransactionRows b rows).getD [] = rows.map (db.scanTransactionRow b) := by
  have hgen : ∀ (l : List (db.TransactionRow × Option db.CategoryRow))
      (acc : Option (List models.Transaction)),
      (l.foldl (fun acc r => some (acc.getD [] ++ [db.scanTransactionRow b r])) acc).getD [] =
        acc.getD [] ++ l.map (db.scanTransactionRow b) := by
    intro l
    induction l with
    | nil => intro acc; simp
    | cons a rest ih =>
      intro acc
      rw [List.foldl_cons, ih]
      simp
  simpa [db.scanTransactionRows] using hgen rows none

/-- A transaction matches exactly when it is in the store, belongs to the user
and lies between the bounds that are present, the bounds included. -/
theorem db.mem_matching (s : db.Store) (userID : String) (fromT toT : Option Time)
    (t : db.TransactionRow) :
    t ∈ db.matching s userID fromT toT ↔
      t ∈ s.transactions ∧ t.userID = userID ∧
      (∀ f, fromT = some f → f ≤ t.occurredAt) ∧
      (∀ g, toT = some g → t.occurredAt ≤ g) := by
  unfold db.matching db.inWindow
  rw [List.mem_filter]
  cases fromT <;> cases toT <;> simp [and_assoc]

/-- The transactions `ListTransactions` returns when the query does not fail. -/
theorem db.listedTransactions_eq (b : db.Backend) (s : db.Store)
    (hnodup : (s.categories.map (·.id)).Nodup) (userID : String) (fromT toT : Option Time)
    (hok : b.fault (.selectTransactions (db.transactionsQuery userID fromT toT).conds
      (db.transactionsQuery userID fromT toT).args) = none) :
    (∃ ts, (db.ListTransactions b s userID fromT toT).value = .ok ts) ∧
    db.listedTransactions (db.ListTransactions b s userID fromT toT) =
      ((db.joinedOf s.categories (db.matching s userID fromT toT)).insertionSort
        db.occurredDesc).map (db.scanTransactionRow b) := by
  have hsel := db.selectWhere_eq_filter _ _ _ (db.transactionsQuery_holds userID fromT toT)
    s.transactions
  have hrun : db.runTransactionsQuery s (db.transactionsQuery userID fromT toT).conds
      (db.transactionsQuery userID fromT toT).args =
      some ((db.joinedOf s.categories (db.matching s userID fromT toT)).insertionSort
        db.occurredDesc) := by
    unfold db.runTransactionsQuery
    rw [hsel]
    show some (((s.transactions.filter (db.inWindow userID fromT toT)).flatMap
      (db.leftJoin s.categories)).insertionSort db.occurredDesc) = _
    rw [db.flatMap_leftJoin_of_nodup s.categories hnodup]
    rfl
  constructor
  · simp only [db.ListTransactions, hok, hrun]
    exact ⟨_, rfl⟩
  · simp only [db.listedTransactions, db.ListTransactions, hok, hrun]
    exact db.scanTransactionRows_getD b _

/-- C16: when category identifiers are unique and the query does not fail,
`ListTransactions` succeeds and returns exactly the transactions of the store
whose `user_id` is the given one and whose `occurred_at` is not before `from`
and not after `to` when these are present (bounds included, a missing bound
unbounded), each once, in descending order of `occurred_at`; a transaction of
another user never appears. -/
theorem ListTransactions_exact (b : db.Backend) (s : db.Store) (userID : String)
    (fromT toT : Option Time) (hnodup : (s.categories.map (·.id)).Nodup)
    (hok : b.fault (.selectTransactions (db.transactionsQuery userID fromT toT).conds
      (db.transactionsQuery userID fromT toT).args) = none) :
    (∃ ts, (db.ListTransactions b s userID fromT toT).value = .ok ts) ∧
    (db.listedTransactions (db.ListTransactions b s userID fromT toT)).Perm
      ((db.matching s userID fromT toT).map
        (fun t => db.scanTransactionRow b (t, db.categoryOf s.categories t.categoryID))) ∧
    (∀ t, t ∈ db.matching s userID fromT toT ↔
      t ∈ s.transactions ∧ t.userID = userID ∧
      (∀ f, fromT = some f → f ≤ t.occurredAt) ∧
      (∀ g, toT = some g → t.occurredAt ≤ g)) ∧
    ((db.listedTransactions (db.ListTransactions b s userID fromT toT)).map
      (·.OccurredAt)).Pairwise (· ≥ ·) ∧
    (∀ r ∈ db.listedTransactions (db.ListTransactions b s userID fromT toT),
      r.UserID = userID) := by
  obtain ⟨hval, hrows⟩ := db.listedTransactions_eq b s hnodup userID fromT toT hok
  have hperm := List.perm_insertionSort db.occurredDesc
    (db.joinedOf s.categories (db.matching s userID fromT toT))
  have hlist : (db.listedTransactions (db.ListTransactions b s userID fromT toT)).Perm
      ((db.matching s userID fromT toT).map
        (fun t => db.scanTransactionRow b (t, db.categoryOf s.categories t.categoryID))) := by
    rw [hrows]
    have := hperm.map (db.scanTransactionRow b)
    unfold db.joinedOf at this ⊢
    rw [List.map_map] at this
    exact this
  refine ⟨hval, hlist, db.mem_matching s userID fromT toT, ?_, ?_⟩
  · have htot : IsTotal (db.TransactionRow × Option db.CategoryRow) db.occurredDesc :=
      ⟨fun a b => le_total b.1.occurredAt a.1.occurredAt⟩
    have htrans : IsTrans (db.TransactionRow × Option db.CategoryRow) db.occurredDesc :=
      ⟨fun a b c hab hbc => le_trans (a := c.1.occurredAt) hbc hab⟩
    have hsorted := @List.sorted_insertionSort _ db.occurredDesc _ htot htrans
      (db.joinedOf s.categories (db.matching s userID fromT toT))
    rw [hrows, List.map_map, List.pairwise_map]
    exact hsorted
  · intro r hr
    obtain ⟨t, ht, rfl⟩ := List.mem_map.mp (hlist.mem_iff.mp hr)
    exact ((db.mem_matching s userID fromT toT t).mp ht).2.1

/-- Witness of C16: the transactions of the first user in the store of the
scenario, from two days before the call on. -/
theorem ListTransactions_exact_witness :
    (∃ ts, (db.ListTransactions sample.backend sample.ledger sample.user1
      (some (sample.now - 2 * nanosPerDay)) none).value = .ok ts) ∧
    (db.listedTransactions (db.ListTransactions sample.backend sample.ledger sample.user1
      (some (sample.now - 2 * nanosPerDay)) none)).Perm
      ((db.matching sample.ledger sample.user1 (some (sample.now - 2 * nanosPerDay)) none).map
        (fun t => db.scanTransactionRow sample.backend
          (t, db.categoryOf sample.ledger.categories t.categoryID))) ∧
    (∀ t, t ∈ db.matching sample.ledger sample.user1 (some (sample.now - 2 * nanosPerDay))
        none ↔
      t ∈ sample.ledger.transactions ∧ t.userID = sample.user1 ∧
      (∀ f, some (sample.now - 2 * nanosPerDay) = some f → f ≤ t.occurredAt) ∧
      (∀ g, (none : Option Time) = some g → t.occurredAt ≤ g)) ∧
    ((db.listedTransactions (db.ListTransactions sample.backend sample.ledger sample.user1
      (some (sample.now - 2 * nanosPerDay)) none)).map (·.OccurredAt)).Pairwise (· ≥ ·) ∧
    (∀ r ∈ db.listedTransactions (db.ListTransactions sample.backend sample.ledger
        sample.user1 (some (sample.now - 2 * nanosPerDay)) none),
      r.UserID = sample.user1) :=
  ListTransactions_exact sample.backend sample.ledger sample.user1
    (some (sample.now - 2 * nanosPerDay)) none sample.ledger_wellFormed.1 rfl

/-- The list of the scenario: the transaction of 20 of the day before the call,
then those of 10 and 15 of two days before; the one of three days before and the
one of the other user are left out. -/
theorem sample.ledger_list :
    (db.listedTransactions (db.ListTransactions sample.backend sample.ledger sample.user1
      (some (sample.now - 2 * nanosPerDay)) none)).map (·.ID) = ["t5", "t2", "t3"] := by
  rw [(db.listedTransactions_eq sample.backend sample.ledger sample.ledger_wellFormed.1
    sample.user1 (some (sample.now - 2 * nanosPerDay)) none rfl).2, List.map_map]
  decide

/-! ## Theorems: creation of categories -/

/-- The result of `CreateCategory` when the insert fails: the translated error,
the store unchanged. -/
theorem db.CreateCategory_of_error (b : db.Backend) (s : db.Store) (userID name : String)
    (e : BackendErr) (h : db.insertCategoryOutcome b s userID name = .error e) :
    (db.CreateCategory b s userID name).value = .error (db.categoryInsertError e) ∧
    (db.CreateCategory b s userID name).store = s := by
  simp [db.CreateCategory, h]

/-- C17, as stated, fails: a duplicate key (SQLSTATE 23505) that the engine
reports on the constraint `categories_pkey` is returned by `CreateCategory` as
the raw backend error, not as `ErrDuplicateCategory`. -/
theorem CreateCategory_other_duplicate_key_raw :
    db.insertCategoryOutcome sample.backendPkey sample.store sample.user1 "Food" =
      .error (.pg "23505" "categories_pkey") ∧
    (db.CreateCategory sample.backendPkey sample.store sample.user1 "Food").value =
      .error (.backend (.pg "23505" "categories_pkey")) ∧
    (db.CreateCategory sample.backendPkey sample.store sample.user1 "Food").value ≠
      .error .ErrDuplicateCategory := by
  decide

/-- C17, amended: of the errors the store reports on the category insert,
`CreateCategory` returns a duplicate key (SQLSTATE 23505) on the constraint
`categories_user_id_name_key` as `ErrDuplicateCategory` and every foreign-key
violation (SQLSTATE 23503) as `ErrUserNotFound`, in neither case the raw error;
a duplicate key on another constraint, like every other error, is returned as
it is. Nothing is written. -/
theorem CreateCategory_translates_errors (b : db.Backend) (s : db.Store)
    (userID name : String) (e : BackendErr)
    (h : db.insertCategoryOutcome b s userID name = .error e) :
    (e = .pg "23505" "categories_user_id_name_key" →
      (db.CreateCategory b s userID name).value = .error .ErrDuplicateCategory) ∧
    (∀ constraintName, e = .pg "23503" constraintName →
      (db.CreateCategory b s userID name).value = .error .ErrUserNotFound) ∧
    (∀ constraintName, constraintName ≠ "categories_user_id_name_key" →
      e = .pg "23505" constraintName →
      (db.CreateCategory b s userID name).value = .error (.backend e)) ∧
    (∀ code constraintName, code ≠ "23505" → code ≠ "23503" → e = .pg code constraintName →
      (db.CreateCategory b s userID name).value = .error (.backend e)) ∧
    ((∀ code constraintName, e ≠ .pg code constraintName) →
      (db.CreateCategory b s userID name).value = .error (.backend e)) ∧
    (db.CreateCategory b s userID name).store = s := by
  obtain ⟨hval, hstore⟩ := db.CreateCategory_of_error b s userID name e h
  rw [hval]
  refine ⟨?_, ?_, ?_, ?_, ?_, hstore⟩
  · intro he
    subst he
    simp [db.categoryInsertError]
  · intro cn he
    subst he
    simp [db.categoryInsertError]
  · intro cn hcn he
    subst he
    simp [db.categoryInsertError, hcn]
  · intro code cn h1 h2 he
    subst he
    simp [db.categoryInsertError, h1, h2]
  · intro hne
    cases e with
    | noRows => rfl
    | pg code cn => exact absurd rfl (hne code cn)
    | other msg => rfl

/-- Witness of C17 amended: the second user, who has a category "Private
Category", creates another of the same name. -/
theorem CreateCategory_translates_errors_witness :
    (db.CreateCategory sample.backend sample.store sample.user2 "Private Category").value =
      .error .ErrDuplicateCategory ∧
    (db.CreateCategory sample.backend sample.store sample.user2 "Private Category").store =
      sample.store :=
  ⟨(CreateCategory_translates_errors sample.backend sample.store sample.user2
      "Private Category" (.pg "23505" "categories_user_id_name_key") (by decide)).1 rfl,
   (CreateCategory_translates_errors sample.backend sample.store sample.user2
      "Private Category" (.pg "23505" "categories_user_id_name_key") (by decide)).2.2.2.2.2⟩

/-- C18: for a create-category request that passes validation the handler
answers 201 with the created category when the store succeeds, 404 when the
store returns `ErrUserNotFound`, 409 when it returns `ErrDuplicateCategory` and
500 for every other store error. -/
theorem CreateCategory_status_by_store_result (x : Ext) (db : http.Database)
    (req : http.CreateCategoryRequest)
    (h1 : validator.ValidateUUID x req.UserID = none)
    (h2 : validator.ValidateCategoryName req.Name = none) :
    (∀ c, db.CreateCategory req.UserID req.Name = .ok c →
      (http.CreateCategory x db (some req)).resp =
        http.respondWithJSON 201 (.category c)) ∧
    (db.CreateCategory req.UserID req.Name = .error .ErrUserNotFound →
      (http.CreateCategory x db (some req)).resp.status = 404) ∧
    (db.CreateCategory req.UserID req.Name = .error .ErrDuplicateCategory →
      (http.CreateCategory x db (some req)).resp.status = 409) ∧
    (∀ e, db.CreateCategory req.UserID req.Name = .error e →
      e ≠ .ErrUserNotFound → e ≠ .ErrDuplicateCategory →
      (http.CreateCategory x db (some req)).resp.status = 500) := by
  refine ⟨?_, ?_, ?_, ?_⟩
  · intro c hc
    simp [http.CreateCategory, h1, h2, hc, http.StatusCreated]
  · intro he
    simp [http.CreateCategory, h1, h2, he, http.respondWithError, http.StatusNotFound]
  · intro he
    simp [http.CreateCategory, h1, h2, he, http.respondWithError, http.StatusConflict]
  · intro e he hn hd
    simp [http.CreateCategory, h1, h2, he, hn, hd, http.respondWithError,
      http.StatusInternalServerError]

/-- Witness of C18: a valid request on stores that fail in the three ways. -/
theorem CreateCategory_status_by_store_result_witness :
    (http.CreateCategory sample.ext (sample.mockDatabase .ErrUserNotFound)
      (some ⟨sample.user1, "Food"⟩)).resp.status = 404 ∧
    (http.CreateCategory sample.ext (sample.mockDatabase .ErrDuplicateCategory)
      (some ⟨sample.user1, "Food"⟩)).resp.status = 409 ∧
    (http.CreateCategory sample.ext (sample.mockDatabase (.new "connection refused"))
      (some ⟨sample.user1, "Food"⟩)).resp.status = 500 :=
  ⟨(CreateCategory_status_by_store_result sample.ext (sample.mockDatabase .ErrUserNotFound)
      ⟨sample.user1, "Food"⟩ sample.validateUUID_user (by decide)).2.1 rfl,
   (CreateCategory_status_by_store_result sample.ext
      (sample.mockDatabase .ErrDuplicateCategory)
      ⟨sample.user1, "Food"⟩ sample.validateUUID_user (by decide)).2.2.1 rfl,
   (CreateCategory_status_by_store_result sample.ext
      (sample.mockDatabase (.new "connection refused"))
      ⟨sample.user1, "Food"⟩ sample.validateUUID_user (by decide)).2.2.2
      (.new "connection refused") rfl (by decide) (by decide)⟩

/-! ## Theorems: store errors in the responses -/

/-- A handler that called the store and got an error it does not classify
answers 500 with its fixed message and no details. -/
theorem Request.handle_of_store_error (x : Ext) (now : Time) (db : http.Database)
    (req : Request) (e : GoError)
    (h : ∃ c ∈ (req.handle x now db).calls, db.errorOn c = some e)
    (hu : ¬ req.classifies e) :
    (req.handle x now db).resp = http.respondWithError 500 req.fixedMessage none := by
  obtain ⟨c, hc, hce⟩ := h
  cases req with
  | createUser r =>
    simp only [Request.handle, http.CreateUser] at hc ⊢
    simp only [Request.classifies] at hu
    cases hv : validator.ValidateEmail r.Email with
    | some err => simp [hv] at hc
    | none =>
      cases hd : db.CreateUser r.Email with
      | ok u =>
        simp only [hv, hd, List.mem_singleton] at hc
        subst hc
        simp [http.Database.errorOn, hd, errorOf] at hce
      | error err =>
        by_cases hdup : err = .ErrDuplicateEmail
        · simp only [hv, hd, hdup, if_true, List.mem_singleton] at hc
          subst hc
          simp only [http.Database.errorOn, hd, errorOf, Option.some.injEq] at hce
          exact absurd (hce.symm.trans hdup) hu
        · simp [hv, hd, hdup, Request.fixedMessage, http.StatusInternalServerError]
  | createCategory r =>
    simp only [Request.handle, http.CreateCategory] at hc ⊢
    simp only [Request.classifies, not_or] at hu
    cases hv1 : validator.ValidateUUID x r.UserID with
    | some err => simp [hv1] at hc
    | none =>
      cases hv2 : validator.ValidateCategoryName r.Name with
      | some err => simp [hv1, hv2] at hc
      | none =>
        cases hd : db.CreateCategory r.UserID r.Name with
        | ok u =>
          simp only [hv1, hv2, hd, List.mem_singleton] at hc
          subst hc
          simp [http.Database.errorOn, hd, errorOf] at hce
        | error err =>
          have hcall : c = .CreateCategory r.UserID r.Name := by
            by_cases hn : err = .ErrUserNotFound
            · simpa [hv1, hv2, hd, hn] using hc
            · by_cases hdup : err = .ErrDuplicateCategory
              · simpa [hv1, hv2, hd, hn, hdup] using hc
              · simpa [hv1, hv2, hd, hn, hdup] using hc
          subst hcall
          simp only [http.Database.errorOn, hd, errorOf, Option.some.injEq] at hce
          subst hce
          simp [hv1, hv2, hd, hu.1, hu.2, Request.fixedMessage,
            http.StatusInternalServerError]
  | createTransaction r =>
    simp only [Request.handle, http.CreateTransaction] at hc ⊢
    cases hv1 : validator.ValidateUUID x r.UserID with
    | some err => simp [hv1] at hc
    | none =>
      cases hv2 : http.validateCategoryID x r.CategoryID with
      | some err => simp [hv1, hv2] at hc
      | none =>
        cases hv3 : validator.ValidateAmount x r.Amount with
        | some err => simp [hv1, hv2, hv3] at hc
        | none =>
          cases hv4 : validator.ValidateDescription r.Description with
          | some err => simp [hv1, hv2, hv3, hv4] at hc
          | none =>
            cases hd : db.CreateTransaction r.UserID r.CategoryID r.Amount r.Description
                (match r.OccurredAt with
                  | some t => t
                  | none => now) with
            | ok u =>
              simp only [hv1, hv2, hv3, hv4, hd, List.mem_singleton] at hc
              subst hc
              simp [http.Database.errorOn, hd, errorOf] at hce
            | error err =>
              simp [hv1, hv2, hv3, hv4, hd, Request.fixedMessage,
                http.StatusInternalServerError]
  | listCategories user_id =>
    simp only [Request.handle, http.ListCategories] at hc ⊢
    by_cases h0 : user_id = ""
    · simp [h0] at hc
    · cases hv1 : validator.ValidateUUID x user_id with
      | some err => simp [h0, hv1] at hc
      | none =>
        cases hd : db.ListCategories user_id with
        | ok u =>
          simp only [h0, hv1, hd, if_false, List.mem_singleton] at hc
          subst hc
          simp [http.Database.errorOn, hd, errorOf] at hce
        | error err =>
          simp [h0, hv1, hd, Request.fixedMessage, http.StatusInternalServerError]
  | listTransactions q =>
    simp only [Request.handle, http.ListTransactions] at hc ⊢
    cases hw : http.parseWindow x q with
    | error resp => simp [hw] at hc
    | ok w =>
      obtain ⟨fromT, toT⟩ := w
      cases hd : db.ListTransactions q.user_id fromT toT with
      | ok u =>
        simp only [hw, hd, List.mem_singleton] at hc
        subst hc
        simp [http.Database.errorOn, hd, errorOf] at hce
      | error err =>
        simp [hw, hd, Request.fixedMessage, http.StatusInternalServerError]
  | getSummary q =>
    simp only [Request.handle, http.GetSummary] at hc ⊢
    cases hw : http.parseWindow x q with
    | error resp => simp [hw] at hc
    | ok w =>
      obtain ⟨fromT, toT⟩ := w
      cases hd : db.GetSummary q.user_id fromT toT with
      | ok u =>
        simp only [hw, hd, List.mem_singleton] at hc
        subst hc
        simp [http.Database.errorOn, hd, errorOf] at hce
      | error err =>
        simp [hw, hd, Request.fixedMessage, http.StatusInternalServerError]

/-- C19: for every handler and every two store errors that the handler does not
classify, returned by the store on the call of the handler, the two responses
are identical: status 500, the fixed message of the handler, no details. The
response does not depend on the error, so no part of its text appears. -/
theorem unclassified_store_errors_same_response (x : Ext) (now : Time)
    (db1 db2 : http.Database) (req : Request) (e1 e2 : GoError)
    (h1 : ∃ c ∈ (req.handle x now db1).calls, db1.errorOn c = some e1)
    (h2 : ∃ c ∈ (req.handle x now db2).calls, db2.errorOn c = some e2)
    (hu1 : ¬ req.classifies e1) (hu2 : ¬ req.classifies e2) :
    (req.handle x now db1).resp = (req.handle x now db2).resp ∧
    (req.handle x now db1).resp.status = 500 ∧
    (req.handle x now db1).resp.message = some req.fixedMessage ∧
    (req.handle x now db1).resp.details = none := by
  have r1 := Request.handle_of_store_error x now db1 req e1 h1 hu1
  have r2 := Request.handle_of_store_error x now db2 req e2 h2 hu2
  rw [r1, r2]
  exact ⟨rfl, rfl, rfl, rfl⟩

/-- Witness of C19: a summary request on two stores that fail with different
texts. -/
theorem unclassified_store_errors_same_response_witness :
    ((Request.getSummary ⟨sample.user1, "", ""⟩).handle sample.ext 0
        (sample.mockDatabase (.new "ERROR: relation transactions does not exist (SQLSTATE 42P01)"))).resp =
      ((Request.getSummary ⟨sample.user1, "", ""⟩).handle sample.ext 0
        (sample.mockDatabase (.backend (.other "context deadline exceeded")))).resp ∧
    ((Request.getSummary ⟨sample.user1, "", ""⟩).handle sample.ext 0
        (sample.mockDatabase (.new "ERROR: relation transactions does not exist (SQLSTATE 42P01)"))
      ).resp.status = 500 ∧
    ((Request.getSummary ⟨sample.user1, "", ""⟩).handle sample.ext 0
        (sample.mockDatabase (.new "ERROR: relation transactions does not exist (SQLSTATE 42P01)"))
      ).resp.message = some "Failed to get summary" ∧
    ((Request.getSummary ⟨sample.user1, "", ""⟩).handle sample.ext 0
        (sample.mockDatabase (.new "ERROR: relation transactions does not exist (SQLSTATE 42P01)"))
      ).resp.details = none := by
  have hu : validator.ValidateUUID sample.ext sample.user1 = none :=
    sample.validateUUID_user
  have hne : sample.user1 ≠ "" := by decide
  have hwin : http.parseWindow sample.ext ⟨sample.user1, "", ""⟩ = .ok (none, none) := by
    simp [http.parseWindow, hne, hu, http.parseBound, validator.ValidateDateRange]
  have hcalls : ∀ err, ((Request.getSummary ⟨sample.user1, "", ""⟩).handle sample.ext 0
      (sample.mockDatabase err)).calls = [.GetSummary sample.user1 none none] := by
    intro err
    simp [Request.handle, http.GetSummary, hwin, sample.mockDatabase]
  exact unclassified_store_errors_same_response sample.ext 0
    (sample.mockDatabase (.new "ERROR: relation transactions does not exist (SQLSTATE 42P01)"))
    (sample.mockDatabase (.backend (.other "context deadline exceeded")))
    (.getSummary ⟨sample.user1, "", ""⟩)
    (.new "ERROR: relation transactions does not exist (SQLSTATE 42P01)")
    (.backend (.other "context deadline exceeded"))
    ⟨.GetSummary sample.user1 none none, by rw [hcalls]; exact List.mem_singleton.mpr rfl,
      rfl⟩
    ⟨.GetSummary sample.user1 none none, by rw [hcalls]; exact List.mem_singleton.mpr rfl,
      rfl⟩
    (by simp [Request.classifies]) (by simp [Request.classifies])

/-! ## Theorems: rejected values in the responses -/

/-- A create-category request whose name is refused by `ValidateCategoryName` is
answered with the submitted name under `"value"` in the details. -/
theorem http.CreateCategory_invalid_name (x : Ext) (db : http.Database)
    (req : http.CreateCategoryRequest) (err : GoError)
    (h1 : validator.ValidateUUID x req.UserID = none)
    (h2 : validator.ValidateCategoryName req.Name = some err) :
    http.CreateCategory x db (some req) =
      ⟨http.respondWithError 400 err.Error
        (some [("field", .str "name"), ("value", .str req.Name)]), []⟩ := by
  simp [http.CreateCategory, h1, h2, http.StatusBadRequest]

/-- A create-transaction request whose description is refused by
`ValidateDescription` is answered with the length of the trimmed description in
the message and the empty string under `"value"` in the details. -/
theorem http.CreateTransaction_invalid_description (x : Ext) (now : Time)
    (db : http.Database) (req : http.CreateTransactionRequest) (d : String)
    (h1 : validator.ValidateUUID x req.UserID = none)
    (h2 : http.validateCategoryID x req.CategoryID = none)
    (h3 : validator.ValidateAmount x req.Amount = none)
    (hd : req.Description = some d)
    (h4 : validator.ValidateDescription (some d) ≠ none) :
    http.CreateTransaction x now db (some req) =
      ⟨http.respondWithError 400
        ("description cannot exceed 1000 characters, got " ++
          toString (GoString.len (GoString.TrimSpace d)))
        (some [("field", .str "description"), ("value", .str "")]), []⟩ := by
  have hlen : GoString.len (GoString.TrimSpace d) > 1000 := by
    by_contra hle
    exact h4 (by simp [validator.ValidateDescription, hle])
  have hv : validator.ValidateDescription req.Description =
      some (.new ("description cannot exceed 1000 characters, got " ++
        toString (GoString.len (GoString.TrimSpace d)))) := by
    simp [hd, validator.ValidateDescription, hlen]
  simp [http.CreateTransaction, h1, h2, h3, hv, http.StatusBadRequest, GoError.Error]

/-- C12, at the failing input: a create-category request whose name is a script
padded to 125 bytes is refused by `ValidateCategoryName`, and the details of the
error response carry the submitted name under `"value"`; the create-transaction
handler, on a refused description, leaves that value empty. -/
theorem CreateCategory_echoes_rejected_name :
    validator.ValidateCategoryName sample.payload =
      some (.new "category name cannot exceed 100 characters, got 125") ∧
    (http.CreateCategory sample.ext (sample.mockDatabase (.new "unexpected call"))
      (some ⟨sample.user1, sample.payload⟩)).resp.status = 400 ∧
    (http.CreateCategory sample.ext (sample.mockDatabase (.new "unexpected call"))
      (some ⟨sample.user1, sample.payload⟩)).resp.details =
      some [("field", .str "name"), ("value", .str sample.payload)] ∧
    (http.CreateTransaction sample.ext 0 (sample.mockDatabase (.new "unexpected call"))
      (some ⟨sample.user1, none, .fin 10 0, some sample.longDescription, none⟩)).resp.details =
      some [("field", .str "description"), ("value", .str "")] := by
  have hname : validator.ValidateCategoryName sample.payload =
      some (.new "category name cannot exceed 100 characters, got 125") := by
    set_option maxRecDepth 100000 in decide
  have hdesc : validator.ValidateDescription (some sample.longDescription) ≠ none := by
    set_option maxRecDepth 100000 in decide
  have hc := http.CreateCategory_invalid_name sample.ext
    (sample.mockDatabase (.new "unexpected call")) ⟨sample.user1, sample.payload⟩ _
    sample.validateUUID_user hname
  have ht := http.CreateTransaction_invalid_description sample.ext 0
    (sample.mockDatabase (.new "unexpected call"))
    ⟨sample.user1, none, .fin 10 0, some sample.longDescription, none⟩
    sample.longDescription sample.validateUUID_user rfl (by decide) rfl hdesc
  refine ⟨hname, ?_, ?_, ?_⟩
  · rw [hc]
    rfl
  · rw [hc]
    rfl
  · rw [ht]
    rfl

/-! ## Theorems: repeated reads -/

/-- C20, as stated, fails: two successive `GetSummary` calls without bounds on
the same store, the second made one nanosecond after the first, return
summaries with different `From` and `To`. -/
theorem GetSummary_twice_differs :
    (db.GetSummary sample.backend sample.now sample.store sample.user1 none none).store =
      sample.store ∧
    (db.GetSummary sample.backend (sample.now + 1)
      (db.GetSummary sample.backend sample.now sample.store sample.user1 none none).store
      sample.user1 none none).value ≠
    (db.GetSummary sample.backend sample.now sample.store sample.user1 none none).value := by
  refine ⟨rfl, ?_⟩
  have h1 := db.GetSummary_no_match sample.backend sample.now sample.store sample.user1
    none none rfl rfl
  have h2 := db.GetSummary_no_match sample.backend (sample.now + 1) sample.store sample.user1
    none none rfl rfl
  have hs : (db.GetSummary sample.backend sample.now sample.store sample.user1 none
      none).store = sample.store := rfl
  rw [hs, h1, h2]
  decide

/-- C20, amended: two successive calls of `ListCategories`, of `ListTransactions`
and of `GetSummary` with the same arguments, the second on the store the first
left, return identical results, for `GetSummary` up to the echo of a bound that
is omitted: the user and the rows are identical in every case, also when both
bounds are omitted and the two calls read different times; when `from` is
supplied `From` is identical, when `to` is supplied `To` is identical, when both
are supplied or the two calls read the same time the whole result is identical. -/
theorem reads_repeat (b : db.Backend) (s : db.Store) (userID : String)
    (fromT toT : Option Time) (now1 now2 : Time) :
    (db.ListCategories b (db.ListCategories b s userID).store userID).value =
      (db.ListCategories b s userID).value ∧
    (db.ListTransactions b (db.ListTransactions b s userID fromT toT).store userID fromT
      toT).value = (db.ListTransactions b s userID fromT toT).value ∧
    (∀ f, db.summaryCore (db.GetSummary b now2
        (db.GetSummary b now1 s userID (some f) toT).store userID (some f) toT).value =
        db.summaryCore (db.GetSummary b now1 s userID (some f) toT).value ∧
      (db.GetSummary b now2 (db.GetSummary b now1 s userID (some f) toT).store
        userID (some f) toT).value.map (·.From) =
      (db.GetSummary b now1 s userID (some f) toT).value.map (·.From)) ∧
    (∀ t, db.summaryCore (db.GetSummary b now2
        (db.GetSummary b now1 s userID fromT (some t)).store userID fromT (some t)).value =
        db.summaryCore (db.GetSummary b now1 s userID fromT (some t)).value ∧
      (db.GetSummary b now2 (db.GetSummary b now1 s userID fromT (some t)).store
        userID fromT (some t)).value.map (·.To) =
      (db.GetSummary b now1 s userID fromT (some t)).value.map (·.To)) ∧
    (∀ f t, (db.GetSummary b now2 (db.GetSummary b now1 s userID (some f) (some t)).store
        userID (some f) (some t)).value =
      (db.GetSummary b now1 s userID (some f) (some t)).value) ∧
    (db.GetSummary b now1 (db.GetSummary b now1 s userID fromT toT).store userID fromT
      toT).value = (db.GetSummary b now1 s userID fromT toT).value ∧
    db.summaryCore (db.GetSummary b now2 (db.GetSummary b now1 s userID fromT toT).store
      userID fromT toT).value =
      db.summaryCore (db.GetSummary b now1 s userID fromT toT).value := by
  have hstore : ∀ (n : Time) (f t : Option Time),
      (db.GetSummary b n s userID f t).store = s := fun _ _ _ => rfl
  have hshape : ∀ (n : Time) (f t : Option Time),
      (db.GetSummary b n s userID f t).value =
        match b.fault (.selectSummary (db.summaryQuery userID f t).conds
            (db.summaryQuery userID f t).args) with
        | some e => .error (.backend e)
        | none =>
          match db.runSummaryQuery s (db.summaryQuery userID f t).conds
              (db.summaryQuery userID f t).args with
          | none => .error (.backend (.other "could not bind the parameters"))
          | some rows =>
            .ok { UserID := userID
                  From := f.getD (Time.AddDays n (-30))
                  To := t.getD n
                  Categories := db.scanSummaryRows b rows } := by
    intro n f t
    cases f <;> cases t <;> rfl
  refine ⟨rfl, rfl, ?_, ?_, ?_, ?_, ?_⟩
  · intro f
    rw [hstore, hshape now1, hshape now2]
    cases b.fault _ with
    | some e => exact ⟨rfl, rfl⟩
    | none =>
      cases db.runSummaryQuery s _ _ with
      | none => exact ⟨rfl, rfl⟩
      | some rows => exact ⟨rfl, rfl⟩
  · intro t
    rw [hstore, hshape now1, hshape now2]
    cases b.fault _ with
    | some e => exact ⟨rfl, rfl⟩
    | none =>
      cases db.runSummaryQuery s _ _ with
      | none => exact ⟨rfl, rfl⟩
      | some rows => exact ⟨rfl, rfl⟩
  · intro f t
    rw [hstore, hshape now1, hshape now2]
    cases b.fault _ with
    | some e => rfl
    | none =>
      cases db.runSummaryQuery s _ _ with
      | none => rfl
      | some rows => rfl
  · rw [hstore]
  · rw [hstore, hshape now1, hshape now2]
    cases b.fault _ with
    | some e => rfl
    | none =>
      cases db.runSummaryQuery s _ _ with
      | none => rfl
      | some rows => rfl


/-! ## Theorems: errors of `DB.CreateTransaction` -/

/-- Whatever error the ownership lookup returns, `CreateTransaction` returns the
one error "category does not belong to user", leaves the store as it was and
sends no insert. -/
theorem db.CreateTransaction_of_lookup_error (b : db.Backend) (s : db.Store)
    (userID cid : String) (amount : Float64) (description : Option String) (occurredAt : Time)
    (e : GoError) (h : (db.ValidateCategoryOwnership b s cid userID).value = .error e) :
    (db.CreateTransaction b s userID (some cid) amount description occurredAt).value =
        .error (.new "category does not belong to user") ∧
      (db.CreateTransaction b s userID (some cid) amount description occurredAt).store = s ∧
      (db.CreateTransaction b s userID (some cid) amount description occurredAt).issued =
        [.selectOwnership cid userID] := by
  unfold db.CreateTransaction
  simp only [h]
  exact ⟨trivial, rfl, rfl⟩

/-- C21, at the input where it fails: the second user owns the category, the
lookup of the ownership fails with "context canceled", and
`ValidateCategoryOwnership` returns that error; `CreateTransaction` returns
"category does not belong to user", the very error of a category that is not
owned. No row is written. -/
theorem CreateTransaction_hides_cancelled_lookup :
    (db.ValidateCategoryOwnership sample.backendCancelled sample.store
        sample.category2 sample.user2).value =
      .error (.backend (.other "context canceled")) ∧
    (db.CreateTransaction sample.backendCancelled sample.store sample.user2
        (some sample.category2) (.fin 10 0) none sample.now).value =
      .error (.new "category does not belong to user") ∧
    (db.CreateTransaction sample.backend sample.store sample.user1
        (some sample.category2) (.fin 10 0) none sample.now).value =
      .error (.new "category does not belong to user") ∧
    (db.CreateTransaction sample.backendCancelled sample.store sample.user2
        (some sample.category2) (.fin 10 0) none sample.now).store = sample.store := by
  refine ⟨by decide, by decide, by decide, by decide⟩

/-- Without a category `CreateTransaction` sends the insert whatever the amount
is, and its result is the answer of the engine to it: the scanned row and the
new contents when the engine accepts the row. -/
theorem db.CreateTransaction_sends_every_amount (b : db.Backend) (s : db.Store)
    (userID : String) (amount : Float64) (description : Option String) (occurredAt : Time) :
    (db.CreateTransaction b s userID none amount description occurredAt).issued =
        [.insertTransaction userID none amount description occurredAt] ∧
      ∀ row s2, b.fault (.insertTransaction userID none amount description occurredAt) = none →
        b.insertTransaction s userID none amount description occurredAt = .ok (row, s2) →
        (db.CreateTransaction b s userID none amount description occurredAt).value =
            .ok (db.scanTransaction b row) ∧
          (db.CreateTransaction b s userID none amount description occurredAt).store = s2 := by
  constructor
  · simp only [db.CreateTransaction, db.insertAndScan]
    split
    · split <;> [split; skip] <;> rfl
    · rfl
  · intro row s2 hf hi
    unfold db.CreateTransaction db.insertAndScan
    simp only [hf, hi]
    exact ⟨trivial, trivial⟩

/-- Whatever the engine answers to the insert with an error, `CreateTransaction`
returns an error and leaves the store as it was, with or without a category. -/
theorem db.CreateTransaction_of_insert_error (b : db.Backend) (s : db.Store)
    (userID : String) (categoryID : Option String) (amount : Float64)
    (description : Option String) (occurredAt : Time) (e : BackendErr)
    (hi : b.insertTransaction s userID categoryID amount description occurredAt = .error e) :
    (∃ err, (db.CreateTransaction b s userID categoryID amount description occurredAt).value =
        .error err) ∧
      (db.CreateTransaction b s userID categoryID amount description occurredAt).store = s := by
  have hins : ∀ issued, (∃ err, (db.insertAndScan b s issued userID categoryID amount
      description occurredAt).value = .error err) ∧
      (db.insertAndScan b s issued userID categoryID amount description occurredAt).store =
        s := by
    intro issued
    have hres : ∃ e2, (match b.fault (.insertTransaction userID categoryID amount description
        occurredAt) with
        | some e => Except.error e
        | none => b.insertTransaction s userID categoryID amount description occurredAt) =
        Except.error e2 := by
      cases b.fault (.insertTransaction userID categoryID amount description occurredAt) with
      | some e2 => exact ⟨e2, rfl⟩
      | none => exact ⟨e, hi⟩
    obtain ⟨e2, he2⟩ := hres
    unfold db.insertAndScan
    simp only [he2]
    cases e2 with
    | noRows => exact ⟨⟨_, rfl⟩, rfl⟩
    | other msg => exact ⟨⟨_, rfl⟩, rfl⟩
    | pg code constraintName =>
      by_cases hc : code = "23503"
      · simp [hc]
      · simp [hc]
  cases categoryID with
  | none => exact hins []
  | some cid =>
    cases hv : (db.ValidateCategoryOwnership b s cid userID).value with
    | error err =>
      have h := db.CreateTransaction_of_lookup_error b s userID cid amount description
        occurredAt err hv
      exact ⟨⟨_, h.1⟩, h.2.1⟩
    | ok u =>
      have heq : db.CreateTransaction b s userID (some cid) amount description occurredAt =
          db.insertAndScan b s [.selectOwnership cid userID] userID (some cid) amount
            description occurredAt := by
        unfold db.CreateTransaction
        simp only [hv]
        rfl
      rw [heq]
      exact hins _

/-- The engine of the examples refuses the amounts outside the data model. -/
theorem sample.backend_enforcesAmountRange : sample.backend.EnforcesAmountRange := by
  intro s userID categoryID amount description occurredAt h
  show ∃ e, sample.insertTransaction _ _ s userID categoryID amount description occurredAt =
    .error e
  unfold sample.insertTransaction
  cases hq : amount.toRat with
  | none => exact ⟨_, rfl⟩
  | some q =>
    have hb : (Float64.le amount Float64.zero || Float64.gt amount Float64.maxAmount) = true := by
      rcases h with h | h <;> simp [h]
    simp only [hb, if_true]
    exact ⟨_, rfl⟩

/-- C23: on a store whose table `transactions` admits the amounts of the data
model only, every call of `CreateTransaction` with an amount at or below zero
or above 99999999.99 returns an error and writes no row, whether or not a
category is given. The method has no check of its own: without a category the
insert is sent with the amount, and the error is the answer of the engine. -/
theorem CreateTransaction_rejects_amount_out_of_range (b : db.Backend) (s : db.Store)
    (userID : String) (categoryID : Option String) (amount : Float64)
    (description : Option String) (occurredAt : Time)
    (hengine : b.EnforcesAmountRange)
    (hamount : Float64.le amount Float64.zero = true ∨
      Float64.gt amount Float64.maxAmount = true) :
    (∃ err, (db.CreateTransaction b s userID categoryID amount description occurredAt).value =
        .error err) ∧
      (db.CreateTransaction b s userID categoryID amount description occurredAt).store = s ∧
      (db.CreateTransaction b s userID none amount description occurredAt).issued =
        [.insertTransaction userID none amount description occurredAt] := by
  obtain ⟨e, he⟩ := hengine s userID categoryID amount description occurredAt hamount
  have h := db.CreateTransaction_of_insert_error b s userID categoryID amount description
    occurredAt e he
  exact ⟨h.1, h.2,
    (db.CreateTransaction_sends_every_amount b s userID amount description occurredAt).1⟩

/-- Witness of C23: the call of the test "invalid amount", with the amount -10
for an existing user and no category. -/
theorem CreateTransaction_rejects_amount_out_of_range_witness :
    (∃ err, (db.CreateTransaction sample.backend sample.store sample.user1 none
        (.fin (-10) 0) none sample.now).value = .error err) ∧
      (db.CreateTransaction sample.backend sample.store sample.user1 none
        (.fin (-10) 0) none sample.now).store = sample.store ∧
      (db.CreateTransaction sample.backend sample.store sample.user1 none
        (.fin (-10) 0) none sample.now).issued =
        [.insertTransaction sample.user1 none (.fin (-10) 0) none sample.now] :=
  CreateTransaction_rejects_amount_out_of_range sample.backend sample.store sample.user1 none
    (.fin (-10) 0) none sample.now sample.backend_enforcesAmountRange (Or.inl (by decide))

/-- When the engine rejects the insert with SQLSTATE 23503, `CreateTransaction`
returns an error made on the spot with the text "user not found"; it is not the
variable `ErrUserNotFound`. -/
theorem db.CreateTransaction_of_foreign_key (b : db.Backend) (s : db.Store)
    (userID : String) (amount : Float64) (description : Option String) (occurredAt : Time)
    (constraintName : String)
    (hf : b.fault (.insertTransaction userID none amount description occurredAt) = none)
    (hi : b.insertTransaction s userID none amount description occurredAt =
      .error (.pg "23503" constraintName)) :
    (db.CreateTransaction b s userID none amount description occurredAt).value =
        .error (.new "user not found") ∧
      (db.CreateTransaction b s userID none amount description occurredAt).value ≠
        .error GoError.ErrUserNotFound := by
  simp only [db.CreateTransaction, db.insertAndScan, hf, hi]
  simp

/-- C24, at the input of the test "user not found": for a user id that no user
has the engine answers both inserts with SQLSTATE 23503; `CreateCategory`
returns the variable `ErrUserNotFound`, `CreateTransaction` returns another
error value with the same text, which does not compare equal to it. -/
theorem CreateTransaction_user_error_is_not_ErrUserNotFound :
    (db.CreateTransaction sample.backend sample.store sample.stranger none
        (.fin 100 0) none sample.now).value = .error (.new "user not found") ∧
    (db.CreateCategory sample.backend sample.store sample.stranger "Food").value =
      .error GoError.ErrUserNotFound ∧
    GoError.new "user not found" ≠ GoError.ErrUserNotFound ∧
    (GoError.new "user not found").Error = GoError.ErrUserNotFound.Error ∧
    (db.CreateTransaction sample.backend sample.store sample.stranger none
        (.fin 100 0) none sample.now).store = sample.store := by
  refine ⟨by decide, by decide, by decide, by decide, by decide⟩

/-! ## Theorems: descriptions and category names -/

/-- The value of `ValidateDescription` on a description that is present: no error
exactly when the UTF-8 encoding of the trimmed description has at most 1000
bytes; otherwise the error carries the number of bytes. -/
theorem validator.ValidateDescription_some (d : String) :
    (validator.ValidateDescription (some d) = none ↔
      GoString.len (GoString.TrimSpace d) ≤ 1000) ∧
    (1000 < GoString.len (GoString.TrimSpace d) →
      validator.ValidateDescription (some d) =
        some (.new ("description cannot exceed 1000 characters, got " ++
          toString (GoString.len (GoString.TrimSpace d))))) := by
  unfold validator.ValidateDescription
  by_cases h : GoString.len (GoString.TrimSpace d) > 1000
  · simp [h]
  · simp [h, not_lt.mp h]

/-- On descriptions of ASCII characters, `ValidateDescription` returns no error
exactly when the trimmed description has at most 1000 characters. -/
theorem validator.ValidateDescription_ascii (d : String)
    (h : ∀ c ∈ d.data, c.toNat < 128) :
    validator.ValidateDescription (some d) = none ↔ (GoString.TrimSpace d).length ≤ 1000 := by
  rw [(validator.ValidateDescription_some d).1,
    GoString.len_of_ascii _ (fun c hc => h c (GoString.TrimSpace_subset d c hc))]

/-- The cases of `TestValidateDescription`: the nil description, the empty one
and one of 1000 letters are accepted, one of 1001 letters is refused. -/
theorem validator.ValidateDescription_cases :
    validator.ValidateDescription none = none ∧
    validator.ValidateDescription (some "") = none ∧
    validator.ValidateDescription (some ⟨List.replicate 1000 'A'⟩) = none ∧
    validator.ValidateDescription (some sample.longDescription) =
      some (.new "description cannot exceed 1000 characters, got 1001") := by
  refine ⟨rfl, by decide, ?_, ?_⟩
  · set_option maxRecDepth 100000 in decide
  · set_option maxRecDepth 100000 in decide

/-- C22, at the failing input: a description of 501 letters "é" has a trimmed
form of 501 characters, at most 1000, and `ValidateDescription` refuses it,
counting its 1002 bytes. -/
theorem ValidateDescription_counts_bytes :
    (GoString.TrimSpace sample.accents).length = 501 ∧
    GoString.len (GoString.TrimSpace sample.accents) = 1002 ∧
    validator.ValidateDescription (some sample.accents) =
      some (.new "description cannot exceed 1000 characters, got 1002") := by
  set_option maxRecDepth 100000 in decide

/-- A create-category request that passes the two validators reaches the store
with the identifier and the name of the request, and a category the store
returns is answered with status 201. -/
theorem http.CreateCategory_of_valid (x : Ext) (db : http.Database)
    (req : http.CreateCategoryRequest)
    (h1 : validator.ValidateUUID x req.UserID = none)
    (h2 : validator.ValidateCategoryName req.Name = none) :
    (http.CreateCategory x db (some req)).calls = [.CreateCategory req.UserID req.Name] ∧
    ∀ c, db.CreateCategory req.UserID req.Name = .ok c →
      (http.CreateCategory x db (some req)).resp = http.respondWithJSON 201 (.category c) := by
  constructor
  · simp only [http.CreateCategory, h1, h2]
    split
    · split <;> [skip; split] <;> rfl
    · rfl
  · intro c hc
    simp [http.CreateCategory, h1, h2, hc, http.StatusCreated]

/-- The store is called by the create-category handler only after both
validators have returned no error. -/
theorem http.CreateCategory_calls (x : Ext) (db : http.Database)
    (req : http.CreateCategoryRequest) (c : http.DBCall)
    (h : c ∈ (http.CreateCategory x db (some req)).calls) :
    validator.ValidateUUID x req.UserID = none ∧
      validator.ValidateCategoryName req.Name = none := by
  cases h1 : validator.ValidateUUID x req.UserID with
  | some e => simp [http.CreateCategory, h1] at h
  | none =>
    cases h2 : validator.ValidateCategoryName req.Name with
    | some e => simp [http.CreateCategory, h1, h2] at h
    | none => exact ⟨rfl, rfl⟩

/-- C25, at the inputs of the tests "category name injection" and "XSS in
category name": both names pass `ValidateCategoryName`; the handler calls
`CreateCategory` of the store with the name and answers 201 with the category,
and the table of categories holds a row of that name afterwards. -/
theorem CreateCategory_accepts_injection_payload :
    validator.ValidateCategoryName sample.injection = none ∧
    validator.ValidateCategoryName sample.script = none ∧
    (http.CreateCategory sample.ext (sample.categoryDatabase sample.store)
      (some ⟨sample.user1, sample.injection⟩)).calls =
        [.CreateCategory sample.user1 sample.injection] ∧
    (http.CreateCategory sample.ext (sample.categoryDatabase sample.store)
      (some ⟨sample.user1, sample.injection⟩)).resp =
        http.respondWithJSON 201 (.category
          ⟨"00000000-0000-4000-8000-00000000000c", sample.user1, sample.injection, 0⟩) ∧
    (http.CreateCategory sample.ext (sample.categoryDatabase sample.store)
      (some ⟨sample.user1, sample.script⟩)).resp =
        http.respondWithJSON 201 (.category
          ⟨"00000000-0000-4000-8000-00000000000c", sample.user1, sample.script, 0⟩) ∧
    (db.CreateCategory sample.backend sample.store sample.user1 sample.injection).store.categories
      = sample.store.categories ++
        [⟨"00000000-0000-4000-8000-00000000000c", sample.user1, sample.injection, 0⟩] := by
  have h1 : validator.ValidateCategoryName sample.injection = none := by decide
  have h2 : validator.ValidateCategoryName sample.script = none := by decide
  refine ⟨h1, h2, ?_, ?_, ?_, by decide⟩
  · exact (http.CreateCategory_of_valid sample.ext _ ⟨sample.user1, sample.injection⟩
      sample.validateUUID_user h1).1
  · exact (http.CreateCategory_of_valid sample.ext _ ⟨sample.user1, sample.injection⟩
      sample.validateUUID_user h1).2 _ (by decide)
  · exact (http.CreateCategory_of_valid sample.ext _ ⟨sample.user1, sample.script⟩
      sample.validateUUID_user h2).2 _ (by decide)

/-- C30: on every create-category request on which the handler calls the store,
the call is `CreateCategory` with the user id and the name of the request as
they came; the trimmed name is not empty and has at most 100 bytes. -/
theorem CreateCategory_passes_name_unchanged (x : Ext) (db : http.Database)
    (req : http.CreateCategoryRequest) (c : http.DBCall)
    (h : c ∈ (http.CreateCategory x db (some req)).calls) :
    c = .CreateCategory req.UserID req.Name ∧
      GoString.TrimSpace req.Name ≠ "" ∧
      GoString.len (GoString.TrimSpace req.Name) ≤ 100 := by
  obtain ⟨h1, h2⟩ := http.CreateCategory_calls x db req c h
  rw [(http.CreateCategory_of_valid x db req h1 h2).1] at h
  exact ⟨List.mem_singleton.mp h, (validator.ValidateCategoryName_none_iff req.Name).mp h2⟩

/-- Witness of C30: the name "Food" after two spaces and before 200 spaces is
passed to the store as it came, with its 206 bytes; its trimmed form is "Food". -/
theorem CreateCategory_passes_name_unchanged_witness :
    http.DBCall.CreateCategory sample.user1 sample.padded ∈
      (http.CreateCategory sample.ext (sample.mockDatabase (.new "connection refused"))
        (some ⟨sample.user1, sample.padded⟩)).calls ∧
    (http.DBCall.CreateCategory sample.user1 sample.padded =
        .CreateCategory sample.user1 sample.padded ∧
      GoString.TrimSpace sample.padded ≠ "" ∧
      GoString.len (GoString.TrimSpace sample.padded) ≤ 100) ∧
    GoString.TrimSpace sample.padded = "Food" ∧
    GoString.len sample.padded = 206 :=
  have hv : validator.ValidateCategoryName sample.padded = none := by
    set_option maxRecDepth 100000 in decide
  have hm : http.DBCall.CreateCategory sample.user1 sample.padded ∈
      (http.CreateCategory sample.ext (sample.mockDatabase (.new "connection refused"))
        (some ⟨sample.user1, sample.padded⟩)).calls := by
    rw [(http.CreateCategory_of_valid sample.ext _ ⟨sample.user1, sample.padded⟩
      sample.validateUUID_user hv).1]
    exact List.mem_singleton.mpr rfl
  ⟨hm, CreateCategory_passes_name_unchanged sample.ext _ ⟨sample.user1, sample.padded⟩ _ hm,
    by set_option maxRecDepth 100000 in decide, by set_option maxRecDepth 100000 in decide⟩

/-! ## Theorems: the statements of `GetSummary` and `ListTransactions` -/

/-- The two methods build the same conjuncts and the same arguments. -/
theorem db.transactionsQuery_eq_summaryQuery (userID : String) (fromT toT : Option Time) :
    db.transactionsQuery userID fromT toT = db.summaryQuery userID fromT toT := rfl

/-- The placeholders of the statement are `$1` to `$argCount` in this order, and
`argCount` is the number of arguments. -/
theorem db.summaryQuery_refs (userID : String) (fromT toT : Option Time) :
    (db.summaryQuery userID fromT toT).conds.map db.Cond.ref =
        List.range' 1 (db.summaryQuery userID fromT toT).args.length ∧
      (db.summaryQuery userID fromT toT).argCount =
        (db.summaryQuery userID fromT toT).args.length := by
  cases fromT <;> cases toT <;> exact ⟨rfl, rfl⟩

/-- C29: for each of the four combinations of presence of `from` and `to`, the
statements of `ListTransactions` and of `GetSummary` have the conjunct on
`user_id` with `$1` and one conjunct per bound that is present, numbered in
order, so that the placeholders are `$1` to `$k` for the `k` arguments passed
(1, 2 or 3): the user id, then `from`, then `to`. The bound `to` is compared
with `$2` when `from` is absent and with `$3` when it is present. These conjuncts
and arguments are what both methods send to the store. -/
theorem query_placeholders_match_arguments (b : db.Backend) (now : Time) (s : db.Store)
    (userID : String) (f t : Time) :
    (db.summaryQuery userID none none = ⟨[.userIdEq 1], [.text userID], 1⟩ ∧
      db.transactionsQuery userID none none = ⟨[.userIdEq 1], [.text userID], 1⟩ ∧
      (db.summaryQuery userID none none).whereClause = "WHERE t.user_id = $1\n\t") ∧
    (db.summaryQuery userID (some f) none =
        ⟨[.userIdEq 1, .occurredGe 2], [.text userID, .timestamp f], 2⟩ ∧
      db.transactionsQuery userID (some f) none =
        ⟨[.userIdEq 1, .occurredGe 2], [.text userID, .timestamp f], 2⟩ ∧
      (db.summaryQuery userID (some f) none).whereClause =
        "WHERE t.user_id = $1\n\t AND t.occurred_at >= $2") ∧
    (db.summaryQuery userID none (some t) =
        ⟨[.userIdEq 1, .occurredLe 2], [.text userID, .timestamp t], 2⟩ ∧
      db.transactionsQuery userID none (some t) =
        ⟨[.userIdEq 1, .occurredLe 2], [.text userID, .timestamp t], 2⟩ ∧
      (db.summaryQuery userID none (some t)).whereClause =
        "WHERE t.user_id = $1\n\t AND t.occurred_at <= $2") ∧
    (db.summaryQuery userID (some f) (some t) =
        ⟨[.userIdEq 1, .occurredGe 2, .occurredLe 3],
          [.text userID, .timestamp f, .timestamp t], 3⟩ ∧
      db.transactionsQuery userID (some f) (some t) =
        ⟨[.userIdEq 1, .occurredGe 2, .occurredLe 3],
          [.text userID, .timestamp f, .timestamp t], 3⟩ ∧
      (db.summaryQuery userID (some f) (some t)).whereClause =
        "WHERE t.user_id = $1\n\t AND t.occurred_at >= $2 AND t.occurred_at <= $3") ∧
    (∀ fromT toT : Option Time,
      (db.summaryQuery userID fromT toT).conds.map db.Cond.ref =
          List.range' 1 (db.summaryQuery userID fromT toT).args.length ∧
        (db.transactionsQuery userID fromT toT).conds.map db.Cond.ref =
          List.range' 1 (db.transactionsQuery userID fromT toT).args.length ∧
        (db.summaryQuery userID fromT toT).args =
          .text userID :: ((fromT.map db.Arg.timestamp).toList ++
            (toT.map db.Arg.timestamp).toList) ∧
        (db.GetSummary b now s userID fromT toT).issued =
          [.selectSummary (db.summaryQuery userID fromT toT).conds
            (db.summaryQuery userID fromT toT).args] ∧
        (db.ListTransactions b s userID fromT toT).issued =
          [.selectTransactions (db.summaryQuery userID fromT toT).conds
            (db.summaryQuery userID fromT toT).args]) := by
  have h1 : String.join (List.map db.Cond.sql [.userIdEq 1]) =
      "WHERE t.user_id = $1\n\t" := by decide
  have h2 : String.join (List.map db.Cond.sql [.userIdEq 1, .occurredGe 2]) =
      "WHERE t.user_id = $1\n\t AND t.occurred_at >= $2" := by decide
  have h3 : String.join (List.map db.Cond.sql [.userIdEq 1, .occurredLe 2]) =
      "WHERE t.user_id = $1\n\t AND t.occurred_at <= $2" := by decide
  have h4 : String.join (List.map db.Cond.sql [.userIdEq 1, .occurredGe 2, .occurredLe 3]) =
      "WHERE t.user_id = $1\n\t AND t.occurred_at >= $2 AND t.occurred_at <= $3" := by decide
  refine ⟨⟨rfl, rfl, h1⟩, ⟨rfl, rfl, h2⟩, ⟨rfl, rfl, h3⟩, ⟨rfl, rfl, h4⟩, ?_⟩
  intro fromT toT
  refine ⟨(db.summaryQuery_refs userID fromT toT).1, (db.summaryQuery_refs userID fromT toT).1,
    ?_, rfl, rfl⟩
  cases fromT <;> cases toT <;> rfl

/-- The sum over the distinct keys of a list of the sums of its groups is the sum
over the list. -/
theorem db.sum_groups {α κ : Type} [DecidableEq κ] (key : α → κ) (f : α → ℚ)
    (K : List κ) (hK : K.Nodup) (J : List α) (hJ : ∀ a ∈ J, key a ∈ K) :
    (K.map (fun k => ((J.filter (fun a => decide (key a = k))).map f).sum)).sum =
      (J.map f).sum := by
  induction J with
  | nil => simp
  | cons a rest ih =>
    have hrest := ih (fun x hx => hJ x (List.mem_cons_of_mem _ hx))
    have ha : key a ∈ K := hJ a (List.mem_cons_self _ _)
    have hsplit : ∀ k, (((a :: rest).filter (fun x => decide (key x = k))).map f).sum =
        (if key a = k then f a else 0) +
          ((rest.filter (fun x => decide (key x = k))).map f).sum := by
      intro k
      by_cases hk : key a = k
      · simp [List.filter_cons, hk]
      · simp [List.filter_cons, hk]
    have hone : (K.map (fun k => if key a = k then f a else 0)).sum = f a := by
      rw [← List.sum_toFinset _ hK, Finset.sum_ite_eq]
      simp [ha]
    simp only [hsplit, List.sum_map_add, hone, hrest, List.map_cons, List.sum_cons]

/-- The totals of the rows of the summary query and the amounts of the rows of
the list query, on the same conjuncts and arguments, have the same sum. -/
theorem db.sum_totals_eq_sum_amounts (s : db.Store) (conds : List db.Cond)
    (args : List db.Arg) (rows : List db.SummaryRow)
    (trs : List (db.TransactionRow × Option db.CategoryRow))
    (h1 : db.runSummaryQuery s conds args = some rows)
    (h2 : db.runTransactionsQuery s conds args = some trs) :
    (rows.map (·.total)).sum = (trs.map (·.1.amount)).sum := by
  unfold db.runSummaryQuery at h1
  unfold db.runTransactionsQuery at h2
  cases hsel : db.selectWhere conds args s.transactions with
  | none => simp [hsel] at h1
  | some ts =>
    simp only [hsel, Option.some.injEq] at h1 h2
    subst h1
    subst h2
    rw [((List.perm_insertionSort db.nameLe _).map _).sum_eq,
      ((List.perm_insertionSort db.occurredDesc _).map _).sum_eq, List.map_map]
    exact db.sum_groups db.groupKey (fun r => r.1.amount) _ (List.nodup_dedup _) _
      (fun a ha => List.mem_dedup.mpr (List.mem_map_of_mem _ ha))

/-! ## Theorems: the rows of the summary and the listed transactions -/

/-- The float64 nearest to 0.10. -/
theorem sample.numericToFloat_tenth :
    sample.numericToFloat (1 / 10) = .fin 7205759403792794 (-56) := by
  have hn : ((1 : ℚ) / 10).num = 1 := by norm_num
  have hd : ((1 : ℚ) / 10).den = 10 := by norm_num
  unfold sample.numericToFloat
  simp only [hn, hd]
  norm_num [sample.roundAt, Nat.log2]
  decide

/-- The float64 nearest to 0.20. -/
theorem sample.numericToFloat_fifth :
    sample.numericToFloat (1 / 5) = .fin 7205759403792794 (-55) := by
  have hn : ((1 : ℚ) / 5).num = 1 := by norm_num
  have hd : ((1 : ℚ) / 5).den = 5 := by norm_num
  unfold sample.numericToFloat
  simp only [hn, hd]
  norm_num [sample.roundAt, Nat.log2]
  decide

/-- The float64 nearest to 0.30. -/
theorem sample.numericToFloat_three_tenths :
    sample.numericToFloat (3 / 10) = .fin 5404319552844595 (-54) := by
  have hn : ((3 : ℚ) / 10).num = 3 := by norm_num
  have hd : ((3 : ℚ) / 10).den = 10 := by norm_num
  unfold sample.numericToFloat
  simp only [hn, hd]
  norm_num [sample.roundAt, Nat.log2]
  decide

/-- The rows `GetSummary` returns are the scans of the rows of its query. -/
theorem db.summaryRows_of_run (b : db.Backend) (now : Time) (s : db.Store)
    (userID : String) (fromT toT : Option Time) (rows : List db.SummaryRow)
    (hok : b.fault (.selectSummary (db.summaryQuery userID fromT toT).conds
      (db.summaryQuery userID fromT toT).args) = none)
    (hrun : db.runSummaryQuery s (db.summaryQuery userID fromT toT).conds
      (db.summaryQuery userID fromT toT).args = some rows) :
    db.summaryRows (db.GetSummary b now s userID fromT toT) =
      rows.map (db.scanSummaryRow b) := by
  simp only [db.summaryRows, db.GetSummary, hok, hrun]
  exact db.scanSummaryRows_getD b _

/-- The transactions `ListTransactions` returns are the scans of the rows of its
query. -/
theorem db.listedTransactions_of_run (b : db.Backend) (s : db.Store)
    (userID : String) (fromT toT : Option Time)
    (trs : List (db.TransactionRow × Option db.CategoryRow))
    (hok : b.fault (.selectTransactions (db.transactionsQuery userID fromT toT).conds
      (db.transactionsQuery userID fromT toT).args) = none)
    (hrun : db.runTransactionsQuery s (db.transactionsQuery userID fromT toT).conds
      (db.transactionsQuery userID fromT toT).args = some trs) :
    db.listedTransactions (db.ListTransactions b s userID fromT toT) =
      trs.map (db.scanTransactionRow b) := by
  simp only [db.listedTransactions, db.ListTransactions, hok, hrun]
  exact db.scanTransactionRows_getD b _

/-- The rows of the two queries on the store with the amounts 0.10 and 0.20. -/
theorem sample.dimes_rows :
    db.runSummaryQuery sample.dimes [.userIdEq 1] [.text sample.user1] =
      some [⟨none, "Uncategorized", 1 / 10 + 1 / 5⟩] ∧
    db.runTransactionsQuery sample.dimes [.userIdEq 1] [.text sample.user1] =
      some [(⟨"t2", sample.user1, none, 1 / 5, none, sample.now - 1 * nanosPerDay,
              sample.now⟩, none),
            (⟨"t1", sample.user1, none, 1 / 10, none, sample.now - 2 * nanosPerDay,
              sample.now⟩, none)] := by
  have hsel : db.selectWhere [.userIdEq 1] [.text sample.user1] sample.dimes.transactions =
      some sample.dimes.transactions := by
    simp [sample.dimes, db.selectWhere, db.condsHold, db.Cond.holds, db.placeholder]
  constructor
  · unfold db.runSummaryQuery
    rw [hsel]
    simp [sample.dimes, db.leftJoin, db.groupKey, db.summaryRowOf]
  · unfold db.runTransactionsQuery
    rw [hsel]
    have hlt : ¬ (sample.now - 1 * nanosPerDay ≤ sample.now - 2 * nanosPerDay) := by decide
    simp [sample.dimes, db.leftJoin, List.insertionSort, List.orderedInsert, db.occurredDesc,
      hlt]
    decide

/-- C28, at the input where it fails: the user has two transactions, of 0.10 and
of 0.20, without category. `GetSummary` returns the one row "Uncategorized" with
the float64 nearest to 0.30; `ListTransactions` returns the float64 numbers
nearest to 0.20 and to 0.10, whose sum is another number. -/
theorem summary_total_differs_from_listed_amounts :
    (db.summaryRows (db.GetSummary sample.backend sample.now sample.dimes sample.user1
      none none)).map (·.Total) = [.fin 5404319552844595 (-54)] ∧
    (db.listedTransactions (db.ListTransactions sample.backend sample.dimes sample.user1
      none none)).map (·.Amount) =
        [.fin 7205759403792794 (-55), .fin 7205759403792794 (-56)] ∧
    Float64.exactSum ((db.summaryRows (db.GetSummary sample.backend sample.now sample.dimes
      sample.user1 none none)).map (·.Total)) ≠
    Float64.exactSum ((db.listedTransactions (db.ListTransactions sample.backend sample.dimes
      sample.user1 none none)).map (·.Amount)) := by
  have h1 : (db.summaryRows (db.GetSummary sample.backend sample.now sample.dimes sample.user1
      none none)).map (·.Total) = [.fin 5404319552844595 (-54)] := by
    rw [db.summaryRows_of_run sample.backend sample.now sample.dimes sample.user1 none none _
      rfl sample.dimes_rows.1]
    have h : (1 : ℚ) / 10 + 1 / 5 = 3 / 10 := by norm_num
    simp only [List.map, db.scanSummaryRow, sample.backend, h,
      sample.numericToFloat_three_tenths]
  have h2 : (db.listedTransactions (db.ListTransactions sample.backend sample.dimes
      sample.user1 none none)).map (·.Amount) =
        [.fin 7205759403792794 (-55), .fin 7205759403792794 (-56)] := by
    rw [db.listedTransactions_of_run sample.backend sample.dimes sample.user1 none none _
      rfl sample.dimes_rows.2]
    simp only [List.map, db.scanTransactionRow, sample.backend,
      sample.numericToFloat_tenth, sample.numericToFloat_fifth]
  refine ⟨h1, h2, ?_⟩
  rw [h1, h2]
  simp only [Float64.exactSum, Float64.value, Float64.toRat, List.map, List.sum_cons,
    List.sum_nil, Option.getD_some]
  norm_num

/-- C28, amended: `GetSummary` and `ListTransactions` build the same conjuncts
and arguments, which select the transactions of the user inside the bounds that
are present. When neither query fails, the rows returned are the scans of the
rows of the two queries, and the totals of the rows of the summary query have
the same sum as the amounts of the rows of the list query, as the exact decimal
numbers of the store, before their conversion to float64. -/
theorem summary_and_list_select_same_rows (b : db.Backend) (now : Time) (s : db.Store)
    (userID : String) (fromT toT : Option Time)
    (hok1 : b.fault (.selectSummary (db.summaryQuery userID fromT toT).conds
      (db.summaryQuery userID fromT toT).args) = none)
    (hok2 : b.fault (.selectTransactions (db.transactionsQuery userID fromT toT).conds
      (db.transactionsQuery userID fromT toT).args) = none) :
    db.transactionsQuery userID fromT toT = db.summaryQuery userID fromT toT ∧
    (∀ t : db.TransactionRow,
      db.condsHold (db.summaryQuery userID fromT toT).conds
        (db.summaryQuery userID fromT toT).args t = some (db.inWindow userID fromT toT t) ∧
      (db.inWindow userID fromT toT t = true ↔
        t.userID = userID ∧ (∀ f, fromT = some f → f ≤ t.occurredAt) ∧
          (∀ g, toT = some g → t.occurredAt ≤ g))) ∧
    ∃ rows trs,
      db.runSummaryQuery s (db.summaryQuery userID fromT toT).conds
        (db.summaryQuery userID fromT toT).args = some rows ∧
      db.runTransactionsQuery s (db.transactionsQuery userID fromT toT).conds
        (db.transactionsQuery userID fromT toT).args = some trs ∧
      db.summaryRows (db.GetSummary b now s userID fromT toT) =
        rows.map (db.scanSummaryRow b) ∧
      db.listedTransactions (db.ListTransactions b s userID fromT toT) =
        trs.map (db.scanTransactionRow b) ∧
      (rows.map (·.total)).sum = (trs.map (·.1.amount)).sum := by
  have hsel := db.selectWhere_eq_filter _ _ _ (db.summaryQuery_holds userID fromT toT)
    s.transactions
  have hr1 : ∃ rows, db.runSummaryQuery s (db.summaryQuery userID fromT toT).conds
      (db.summaryQuery userID fromT toT).args = some rows := by
    unfold db.runSummaryQuery
    rw [hsel]
    exact ⟨_, rfl⟩
  have hr2 : ∃ trs, db.runTransactionsQuery s (db.summaryQuery userID fromT toT).conds
      (db.summaryQuery userID fromT toT).args = some trs := by
    unfold db.runTransactionsQuery
    rw [hsel]
    exact ⟨_, rfl⟩
  obtain ⟨rows, hrows⟩ := hr1
  obtain ⟨trs, htrs⟩ := hr2
  refine ⟨rfl, ?_, rows, trs, hrows, htrs,
    db.summaryRows_of_run b now s userID fromT toT rows hok1 hrows,
    db.listedTransactions_of_run b s userID fromT toT trs hok2 htrs,
    db.sum_totals_eq_sum_amounts s _ _ rows trs hrows htrs⟩
  intro t
  refine ⟨db.summaryQuery_holds userID fromT toT t, ?_⟩
  unfold db.inWindow
  cases fromT <;> cases toT <;> simp [and_assoc]

/-- Witness of C28 as amended: the scenario of the specification, without bounds. -/
theorem summary_and_list_select_same_rows_witness :
    ∃ rows trs,
      db.runSummaryQuery sample.ledger (db.summaryQuery sample.user1 none none).conds
        (db.summaryQuery sample.user1 none none).args = some rows ∧
      db.runTransactionsQuery sample.ledger (db.transactionsQuery sample.user1 none none).conds
        (db.transactionsQuery sample.user1 none none).args = some trs ∧
      db.summaryRows (db.GetSummary sample.backend sample.now sample.ledger sample.user1
        none none) = rows.map (db.scanSummaryRow sample.backend) ∧
      db.listedTransactions (db.ListTransactions sample.backend sample.ledger sample.user1
        none none) = trs.map (db.scanTransactionRow sample.backend) ∧
      (rows.map (·.total)).sum = (trs.map (·.1.amount)).sum :=
  (summary_and_list_select_same_rows sample.backend sample.now sample.ledger sample.user1
    none none rfl rfl).2.2

/-! ## Theorems: addresses -/

/-- The words of `[...]*` are the words made of characters of the class. -/
theorem mem_star_oneOf (cs : List Char) (w : List Char) :
    w ∈ (oneOf cs).star.matches' ↔ ∀ c ∈ w, c ∈ cs := by
  rw [RegularExpression.matches'_star, Language.mem_kstar]
  constructor
  · rintro ⟨L, rfl, hL⟩ c hc
    obtain ⟨y, hy, hcy⟩ := List.mem_flatten.mp hc
    obtain ⟨d, hd, rfl⟩ := (mem_oneOf cs y).mp (hL y hy)
    rw [List.mem_singleton] at hcy
    subst hcy
    exact hd
  · intro h
    refine ⟨w.map (fun c => [c]), ?_, ?_⟩
    · clear h
      induction w with
      | nil => rfl
      | cons a rest ih =>
        rw [List.map_cons, List.flatten_cons, ← ih]
        rfl
    · intro y hy
      obtain ⟨c, hc, rfl⟩ := List.mem_map.mp hy
      exact (mem_oneOf cs [c]).mpr ⟨c, h c hc, rfl⟩

/-- The words of `[...]+` are the non-empty words made of characters of the class. -/
theorem mem_plus_oneOf (cs : List Char) (w : List Char) :
    w ∈ (rePlus (oneOf cs)).matches' ↔ w ≠ [] ∧ ∀ c ∈ w, c ∈ cs := by
  unfold rePlus
  rw [RegularExpression.matches'_mul, Language.mem_mul]
  constructor
  · rintro ⟨a, ha, b, hb, rfl⟩
    obtain ⟨c, hc, rfl⟩ := (mem_oneOf cs a).mp ha
    refine ⟨by simp, ?_⟩
    intro d hd
    rcases List.mem_append.mp hd with h | h
    · rw [List.mem_singleton] at h
      subst h
      exact hc
    · exact (mem_star_oneOf cs b).mp hb d h
  · rintro ⟨hne, h⟩
    cases w with
    | nil => exact absurd rfl hne
    | cons c rest =>
      exact ⟨[c], (mem_oneOf cs [c]).mpr ⟨c, h c (List.mem_cons_self _ _), rfl⟩, rest,
        (mem_star_oneOf cs rest).mpr (fun d hd => h d (List.mem_cons_of_mem _ hd)), rfl⟩

/-- The words of `[...]{n}` are the words of `n` characters of the class. -/
theorem mem_pow_oneOf (cs : List Char) (n : Nat) (w : List Char) :
    w ∈ (oneOf cs ^ n).matches' ↔ w.length = n ∧ ∀ c ∈ w, c ∈ cs := by
  rw [RegularExpression.matches'_pow]
  induction n generalizing w with
  | zero =>
    rw [pow_zero, Language.mem_one]
    constructor
    · rintro rfl
      exact ⟨rfl, by simp⟩
    · rintro ⟨h, _⟩
      exact List.length_eq_zero.mp h
  | succ n ih =>
    rw [pow_succ', Language.mem_mul]
    constructor
    · rintro ⟨a, ha, b, hb, rfl⟩
      obtain ⟨c, hc, rfl⟩ := (mem_oneOf cs a).mp ha
      obtain ⟨hlen, hall⟩ := (ih b).mp hb
      refine ⟨by simp [hlen], ?_⟩
      intro d hd
      rcases List.mem_append.mp hd with h | h
      · rw [List.mem_singleton] at h
        subst h
        exact hc
      · exact hall d h
    · rintro ⟨hlen, hall⟩
      cases w with
      | nil => simp at hlen
      | cons c rest =>
        exact ⟨[c], (mem_oneOf cs [c]).mpr ⟨c, hall c (List.mem_cons_self _ _), rfl⟩, rest,
          (ih rest).mpr ⟨by simpa using hlen, fun d hd => hall d (List.mem_cons_of_mem _ hd)⟩,
          rfl⟩

/-- The words of `[...]{2,}` are the words of at least two characters of the class. -/
theorem mem_two_or_more (cs : List Char) (w : List Char) :
    w ∈ (oneOf cs ^ 2 * (oneOf cs).star).matches' ↔ 2 ≤ w.length ∧ ∀ c ∈ w, c ∈ cs := by
  rw [RegularExpression.matches'_mul, Language.mem_mul]
  constructor
  · rintro ⟨a, ha, b, hb, rfl⟩
    obtain ⟨hlen, hall⟩ := (mem_pow_oneOf cs 2 a).mp ha
    have hb2 := (mem_star_oneOf cs b).mp hb
    refine ⟨by rw [List.length_append, hlen]; omega, ?_⟩
    intro d hd
    rcases List.mem_append.mp hd with h | h
    · exact hall d h
    · exact hb2 d h
  · rintro ⟨hlen, hall⟩
    refine ⟨w.take 2, (mem_pow_oneOf cs 2 _).mpr ⟨?_, ?_⟩, w.drop 2,
      (mem_star_oneOf cs _).mpr ?_, List.take_append_drop 2 w⟩
    · rw [List.length_take]
      omega
    · exact fun d hd => hall d (List.mem_of_mem_take hd)
    · exact fun d hd => hall d (List.mem_of_mem_drop hd)

/-- The pattern `emailRegex` matches exactly the strings of the form
`local@domain.tld`. -/
theorem MatchString_emailRegex (s : String) :
    MatchString emailRegex s = true ↔ emailForm s := by
  unfold MatchString emailForm emailRegex
  rw [RegularExpression.rmatch_iff_matches']
  simp only [RegularExpression.matches'_mul, Language.mem_mul, RegularExpression.matches'_char]
  constructor
  · rintro ⟨l, hl, r1, ⟨a, ha, r2, ⟨d, hd, r3, ⟨p, hp, t, ht, rfl⟩, rfl⟩, rfl⟩, hs⟩
    have ha2 : a = ['@'] := ha
    have hp2 : p = ['.'] := hp
    subst ha2
    subst hp2
    exact ⟨l, d, t, by simpa using hs.symm, (mem_plus_oneOf _ l).mp hl,
      (mem_plus_oneOf _ d).mp hd,
      (mem_two_or_more alphaChars t).mp (by
        simpa only [RegularExpression.matches'_mul, Language.mem_mul] using ht)⟩
  · rintro ⟨l, d, t, hs, hl, hd, ht⟩
    have ht2 := (mem_two_or_more alphaChars t).mpr ht
    rw [RegularExpression.matches'_mul] at ht2
    exact ⟨l, (mem_plus_oneOf _ l).mpr hl, '@' :: (d ++ '.' :: t),
      ⟨['@'], rfl, d ++ '.' :: t,
        ⟨d, (mem_plus_oneOf _ d).mpr hd, '.' :: t, ⟨['.'], rfl, t, ht2, rfl⟩, rfl⟩, rfl⟩,
      hs.symm⟩

/-- No string of the form `local@domain.tld` holds a space, a quote, a semicolon,
a colon or an angle bracket. -/
theorem emailForm_no_forbidden (s : String) (h : emailForm s) :
    ∀ c ∈ s.data, c ∉ emailForbidden := by
  obtain ⟨l, d, t, hs, hl, hd, ht⟩ := h
  have hclass : ∀ c ∈ emailForbidden,
      c ∉ emailLocalChars ∧ c ∉ emailDomainChars ∧ c ∉ alphaChars ∧ c ≠ '@' ∧ c ≠ '.' := by
    decide
  intro c hc hbad
  obtain ⟨h1, h2, h3, h4, h5⟩ := hclass c hbad
  rw [hs] at hc
  rcases List.mem_append.mp hc with hcl | hc2
  · exact h1 (hl.2 c hcl)
  · rcases List.mem_cons.mp hc2 with hat | hc3
    · exact h4 hat
    · rcases List.mem_append.mp hc3 with hcd | hc4
      · exact h2 (hd.2 c hcd)
      · rcases List.mem_cons.mp hc4 with hdot | hct
        · exact h5 hdot
        · exact h3 (ht.2 c hct)

/-- C26: `ValidateEmail` refuses the empty string with "email is required"; on
a non-empty string it returns no error exactly when the whole string has the
form `local@domain.tld`, and "invalid email format" otherwise; every string that
holds a space, a quote, a semicolon, a colon or an angle bracket is refused with
"invalid email format". -/
theorem ValidateEmail_exact (email : String) :
    validator.ValidateEmail "" = some (.new "email is required") ∧
    (validator.ValidateEmail email = none ↔ email ≠ "" ∧ emailForm email) ∧
    (validator.ValidateEmail email = some (.new "invalid email format") ↔
      email ≠ "" ∧ ¬ emailForm email) ∧
    ((∃ c ∈ email.data, c ∈ emailForbidden) →
      validator.ValidateEmail email = some (.new "invalid email format")) := by
  have hcases : email ≠ "" → ¬ emailForm email →
      validator.ValidateEmail email = some (.new "invalid email format") := by
    intro h0 hf
    have hm : MatchString emailRegex email = false := by
      cases hm : MatchString emailRegex email with
      | false => rfl
      | true => exact absurd ((MatchString_emailRegex email).mp hm) hf
    simp [validator.ValidateEmail, h0, hm]
  have hform : emailForm email → email ≠ "" := by
    rintro ⟨l, d, t, hs, _⟩ h0
    subst h0
    simp at hs
  refine ⟨rfl, ?_, ?_, ?_⟩
  · constructor
    · intro h
      by_cases h0 : email = ""
      · subst h0
        exact absurd h (by decide)
      · refine ⟨h0, ?_⟩
        by_contra hf
        rw [hcases h0 hf] at h
        exact absurd h (by simp)
    · rintro ⟨h0, hf⟩
      simp [validator.ValidateEmail, h0, (MatchString_emailRegex email).mpr hf]
  · constructor
    · intro h
      by_cases h0 : email = ""
      · subst h0
        exact absurd h (by decide)
      · refine ⟨h0, ?_⟩
        intro hf
        have hnone : validator.ValidateEmail email = none := by
          simp [validator.ValidateEmail, h0, (MatchString_emailRegex email).mpr hf]
        rw [hnone] at h
        exact absurd h (by simp)
    · rintro ⟨h0, hf⟩
      exact hcases h0 hf
  · rintro ⟨c, hc, hbad⟩
    have h0 : email ≠ "" := by
      intro h0
      subst h0
      simp at hc
    exact hcases h0 (fun hf => emailForm_no_forbidden email hf c hc hbad)

/-- The cases of `TestValidateEmail` and of the security tests. -/
theorem validator.ValidateEmail_cases :
    validator.ValidateEmail "user@example.com" = none ∧
    validator.ValidateEmail "first.last@example.co.uk" = none ∧
    validator.ValidateEmail "userexample.com" = some (.new "invalid email format") ∧
    validator.ValidateEmail "user@" = some (.new "invalid email format") ∧
    validator.ValidateEmail "@example.com" = some (.new "invalid email format") ∧
    validator.ValidateEmail "<script>alert(1)</script>@example.com" =
      some (.new "invalid email format") := by
  have h1 : emailForm "user@example.com" :=
    ⟨"user".data, "example".data, "com".data, rfl, ⟨by decide, by decide⟩,
      ⟨by decide, by decide⟩, ⟨by decide, by decide⟩⟩
  have h2 : emailForm "first.last@example.co.uk" :=
    ⟨"first.last".data, "example.co".data, "uk".data, rfl, ⟨by decide, by decide⟩,
      ⟨by decide, by decide⟩, ⟨by decide, by decide⟩⟩
  have hat : ∀ s : String, '@' ∉ s.data → ¬ emailForm s := by
    rintro s hs ⟨l, d, t, hd, _⟩
    exact hs (by rw [hd]; simp)
  refine ⟨?_, ?_, ?_, ?_, ?_, ?_⟩
  · simp [validator.ValidateEmail, (MatchString_emailRegex _).mpr h1]
  · simp [validator.ValidateEmail, (MatchString_emailRegex _).mpr h2]
  · have hm : MatchString emailRegex "userexample.com" = false := by
      cases hm : MatchString emailRegex "userexample.com" with
      | false => rfl
      | true => exact absurd ((MatchString_emailRegex _).mp hm) (hat _ (by decide))
    simp [validator.ValidateEmail, hm]
  · have hm : MatchString emailRegex "user@" = false := by decide
    simp [validator.ValidateEmail, hm]
  · have hm : MatchString emailRegex "@example.com" = false := by decide
    simp [validator.ValidateEmail, hm]
  · have hm : MatchString emailRegex "<script>alert(1)</script>@example.com" = false := by
      cases hm : MatchString emailRegex "<script>alert(1)</script>@example.com" with
      | false => rfl
      | true =>
        exact absurd (emailForm_no_forbidden _ ((MatchString_emailRegex _).mp hm) '<'
          (by decide)) (by simp [emailForbidden])
    simp [validator.ValidateEmail, hm]

/-- Witness of C26: an address with a space in its local part. -/
theorem ValidateEmail_exact_witness :
    validator.ValidateEmail "a b@example.com" = some (.new "invalid email format") :=
  (ValidateEmail_exact "a b@example.com").2.2.2 ⟨' ', by decide, by decide⟩
end Fintrack
